import Mathlib

/-!
# ngscopeclient menu code (`MainWindow_Menus.cpp`): embedding and verified properties

The menu handlers of `MainWindow` are immediate-mode GUI code: every frame the handler
runs, submits its widgets to ImGui, and reacts at once to the widget the user activated.
The embedding is state passing over a `World`:

* the answers ImGui gives to the successive `BeginMenu` / `MenuItem` calls of the frame
  are an input stream (`World.input`), so that every pattern of open menus and activated
  items is covered;
* every call to a collaborator that is not part of this file (transport construction,
  driver factories, popups, the session) is recorded in `World.trace`, oldest call first;
* objects that are only handled through pointers are `Ptr` values, and the methods called
  on them are fields of `Env`.
-/

namespace ScopehalApps

/-! ## Standard containers -/

/-- The `emplace` of `std::set<T>`: ordered insertion, an element already present is kept once. -/
def setEmplace {α : Type} [LinearOrder α] (a : α) : List α → List α
  | [] => [a]
  | b :: s =>
    if a < b then a :: b :: s
    else if a = b then b :: s
    else b :: setEmplace a s

/-- The test `s.find(a) != s.end()` of `std::set<T>`. -/
def setFind {α : Type} [DecidableEq α] (s : List α) (a : α) : Bool :=
  decide (a ∈ s)

/-- The `find` of `std::map<K,V>`: the value stored under `k`, `none` for `end()`. -/
def mapFind {κ ν : Type} [DecidableEq κ] (m : List (κ × ν)) (k : κ) : Option ν :=
  match m with
  | [] => none
  | (k', v) :: rest => if k' = k then some v else mapFind rest k

/-- The assignment `m[k] = v` of `std::map<K,V>`: replaces the value of an existing key,
otherwise inserts the pair at its place in key order. -/
def mapAssign {κ ν : Type} [LinearOrder κ] (m : List (κ × ν)) (k : κ) (v : ν) : List (κ × ν) :=
  match m with
  | [] => [(k, v)]
  | (k', v') :: rest =>
    if k < k' then (k, v) :: (k', v') :: rest
    else if k = k' then (k, v) :: rest
    else (k', v') :: mapAssign rest k v

/-- The read `m[k]` of `std::map<K,V>`: the stored value, or a default-constructed value
that is inserted under `k` when the key was absent. Returns the value and the map. -/
def mapIndex {κ ν : Type} [LinearOrder κ] (dflt : ν) (m : List (κ × ν)) (k : κ) :
    ν × List (κ × ν) :=
  match mapFind m k with
  | some v => (v, m)
  | none => (dflt, mapAssign m k dflt)

/-! ## Objects -/

/-- A raw or shared pointer: only the identity of the object matters. -/
abbrev Ptr := Nat

/-- The C type `time_t`. -/
abbrev time_t := Int

/-- The five capability families that have an Add submenu. -/
inductive Family where
  | FunctionGenerator
  | Multimeter
  | Oscilloscope
  | PowerSupply
  | RFGenerator
deriving DecidableEq, Repr

/-- An instrument object as the menu code sees it: its address and its `m_nickname`. -/
structure Instrument where
  ptr : Ptr
  m_nickname : String
deriving DecidableEq, Repr

/-- A `StreamDescriptor(producer, index)`. -/
structure StreamDescriptor where
  m_channel : Ptr
  m_stream : Nat
deriving DecidableEq, Repr

/-- A `WaveformArea(stream, group, parent)` object. -/
structure WaveformArea where
  ptr : Ptr
  m_stream : StreamDescriptor
  m_group : Ptr
deriving DecidableEq, Repr

/-- The stream types the menu code distinguishes: `STREAM_TYPE_TRIGGER` and the others. -/
inductive StreamType where
  | STREAM_TYPE_ANALOG
  | STREAM_TYPE_DIGITAL
  | STREAM_TYPE_TRIGGER
  | STREAM_TYPE_PROTOCOL
  | STREAM_TYPE_UNDEFINED
deriving DecidableEq, Repr

/-- The filter categories the menu code distinguishes: `CAT_GENERATION` and the others. -/
inductive Category where
  | CAT_GENERATION
  | CAT_ANALYSIS
  | CAT_MATH
  | CAT_MISC
deriving DecidableEq, Repr

/-- Modelled from the spec: the class `Session` (its source file is not part of the
sources). The session is the aggregate owning all instruments, one collection per
capability family; an add operation appends the instrument to the collection of its
family. -/
structure Session where
  m_generators : List Instrument
  m_meters : List Instrument
  m_oscilloscopes : List Instrument
  m_psus : List Instrument
  m_rfgenerators : List Instrument
deriving DecidableEq, Repr

/-- The collection of one family. -/
def Session.instruments (s : Session) : Family → List Instrument
  | .FunctionGenerator => s.m_generators
  | .Multimeter => s.m_meters
  | .Oscilloscope => s.m_oscilloscopes
  | .PowerSupply => s.m_psus
  | .RFGenerator => s.m_rfgenerators

/-- A call made by the menu code to a collaborator, with its arguments and result. -/
inductive Event where
  | BeginMenu (label : String) (isOpen : Bool)
  | MenuItem (label : String) (activated : Bool)
  | MenuItem_c_str (label : List UInt8) (activated : Bool)
  | MakeTransport (transname path : String) (result : Option Ptr)
  | CreateDriver (fam : Family) (drivername : String) (transport : Ptr)
      (result : Option Instrument)
  | ShowErrorPopup (title msg : String)
  | deleteTransport (transport : Ptr)
  | LogDebug (msg : String)
  | ApplyPreferences (inst : Instrument)
  | SessionAdd (fam : Family) (inst : Instrument)
  | make_Dialog (cls : String) (result : Ptr)
  | make_ProtocolAnalyzerDialog (pd : Ptr) (result : Ptr)
  | GetBestGroupForWaveform (stream : StreamDescriptor) (group : Ptr)
  | make_WaveformArea (stream : StreamDescriptor) (group : Ptr) (result : Ptr)
  | AddArea (group : Ptr) (area : Ptr)
  | CreateFilter (name : String) (parent : Option Ptr) (channel : Option Ptr) (stream : Nat)
deriving DecidableEq, Repr

/-- The fields of `MainWindow` that the menu code reads or writes. -/
structure MainWindow where
  m_session : Session
  m_dialogs : List Ptr
  m_meterDialogs : List (Ptr × Ptr)
  m_generatorDialogs : List (Ptr × Ptr)
  m_rfgeneratorDialogs : List (Ptr × Ptr)
  m_protocolAnalyzerDialogs : List (Ptr × Ptr)
  m_scpiConsoleDialogs : List (Ptr × Ptr)
  m_recentInstruments : List (String × time_t)
  m_persistenceDialog : Option Ptr
  m_timebaseDialog : Option Ptr
  m_preferenceDialog : Option Ptr
  m_logViewerDialog : Option Ptr
  m_metricsDialog : Option Ptr
  m_historyDialog : Option Ptr
  m_graphEditor : Option Ptr
  m_fullscreen : Bool
  m_showDemo : Bool
  m_showPlot : Bool
deriving DecidableEq, Repr

/-- The state a menu handler runs in. -/
structure World where
  /-- The answers of ImGui to the `BeginMenu` / `MenuItem` calls still to come. -/
  input : List Bool
  /-- The calls made to collaborators so far, oldest first. -/
  trace : List Event
  /-- The address the next heap allocation returns. -/
  heapNext : Ptr
  /-- The live filter instances, `Filter::GetAllInstances()`. -/
  filters : List Ptr
  /-- The waveform areas of the waveform groups: the pairs (group, area) in the order in
  which `AddArea` was called. -/
  areas : List (Ptr × WaveformArea)
  win : MainWindow
deriving DecidableEq, Repr

/-- The functions the menu code calls whose definitions are outside this file. -/
structure Env where
  explode : String → Char → List String
  MakeTransport : String → String → Option Ptr
  FunctionGenerator_EnumDrivers : List String
  Multimeter_EnumDrivers : List String
  Oscilloscope_EnumDrivers : List String
  PowerSupply_EnumDrivers : List String
  RFSignalGenerator_EnumDrivers : List String
  CreateFunctionGenerator : String → Ptr → Option Instrument
  CreateMultimeter : String → Ptr → Option Instrument
  CreateOscilloscope : String → Ptr → Option Instrument
  CreatePowerSupply : String → Ptr → Option Instrument
  CreateRFSignalGenerator : String → Ptr → Option Instrument
  /-- Whether `dynamic_cast<MultimeterDialog*>` succeeds on the dialog. -/
  isMultimeterDialog : Ptr → Bool
  MultimeterDialog_GetMeter : Ptr → Ptr
  /-- Whether `dynamic_cast<FunctionGeneratorDialog*>` succeeds on the dialog. -/
  isFunctionGeneratorDialog : Ptr → Bool
  FunctionGeneratorDialog_GetGenerator : Ptr → Ptr
  /-- Whether `dynamic_cast<RFGeneratorDialog*>` succeeds on the dialog. -/
  isRFGeneratorDialog : Ptr → Bool
  RFGeneratorDialog_GetGenerator : Ptr → Ptr
  /-- Whether `dynamic_cast<PacketDecoder*>` succeeds on the filter. -/
  isPacketDecoder : Ptr → Bool
  GetDisplayName : Ptr → String
  GetChannelCount : Instrument → Nat
  GetChannel : Instrument → Nat → Ptr
  GetStreamCount : Ptr → Nat
  GetType : Ptr → Nat → StreamType
  CanEnableChannel : Instrument → Nat → Bool
  StreamDescriptor_GetName : StreamDescriptor → String
  GetBestGroupForWaveform : StreamDescriptor → World → Ptr
  /-- The map from filter name to reference filter, `m_session.GetReferenceFilters()`, in
  key order. -/
  GetReferenceFilters : Session → List (String × Ptr)
  GetCategory : Ptr → Category
  GetInputCount : Ptr → Nat

/-- The driver names `EnumDrivers` of a family puts into the vector. -/
def Env.EnumDrivers (env : Env) : Family → List String
  | .FunctionGenerator => env.FunctionGenerator_EnumDrivers
  | .Multimeter => env.Multimeter_EnumDrivers
  | .Oscilloscope => env.Oscilloscope_EnumDrivers
  | .PowerSupply => env.PowerSupply_EnumDrivers
  | .RFGenerator => env.RFSignalGenerator_EnumDrivers

/-- The driver factory of a family. -/
def Env.CreateDriver (env : Env) : Family → String → Ptr → Option Instrument
  | .FunctionGenerator => env.CreateFunctionGenerator
  | .Multimeter => env.CreateMultimeter
  | .Oscilloscope => env.CreateOscilloscope
  | .PowerSupply => env.CreatePowerSupply
  | .RFGenerator => env.CreateRFSignalGenerator

/-! ## Collaborator calls -/

/-- Appends a call to the trace. -/
def World.log (w : World) (e : Event) : World :=
  { w with trace := w.trace ++ [e] }

/-- The next answer of ImGui; a frame whose input stream is exhausted answers `false`. -/
def World.answer (w : World) : Bool × World :=
  match w.input with
  | [] => (false, w)
  | b :: rest => (b, { w with input := rest })

/-- The call `ImGui::BeginMenu(label)`: true when the menu is open. -/
def BeginMenu (label : String) (w : World) : Bool × World :=
  let r := w.answer
  (r.1, r.2.log (.BeginMenu label r.1))

/-- The call `ImGui::MenuItem(label)`: true when the user activated the item. -/
def MenuItem (label : String) (w : World) : Bool × World :=
  let r := w.answer
  (r.1, r.2.log (.MenuItem label r.1))

/-- The call `ImGui::MenuItem(label.c_str())` for a label given by the sequence of its
`char`s, which need not be well-formed UTF-8. -/
def MenuItem_c_str (label : List UInt8) (w : World) : Bool × World :=
  let r := w.answer
  (r.1, r.2.log (.MenuItem_c_str label r.1))

/-- The call `MakeTransport(transname, path)`; `none` is the null pointer. -/
def MakeTransport (env : Env) (transname path : String) (w : World) : Option Ptr × World :=
  let r := env.MakeTransport transname path
  (r, w.log (.MakeTransport transname path r))

/-- The call of the driver factory of a family. -/
def CreateDriver (env : Env) (fam : Family) (drivername : String) (transport : Ptr)
    (w : World) : Option Instrument × World :=
  let r := env.CreateDriver fam drivername transport
  (r, w.log (.CreateDriver fam drivername transport r))

/-- The call `ShowErrorPopup(title, msg)`. -/
def ShowErrorPopup (title msg : String) (w : World) : World :=
  w.log (.ShowErrorPopup title msg)

/-- The statement `delete transport`. -/
def deleteTransport (transport : Ptr) (w : World) : World :=
  w.log (.deleteTransport transport)

/-- The call `LogDebug(msg)`. -/
def LogDebug (msg : String) (w : World) : World :=
  w.log (.LogDebug msg)

/-- The call `m_session.ApplyPreferences(scope)`. -/
def ApplyPreferences (inst : Instrument) (w : World) : World :=
  w.log (.ApplyPreferences inst)

/-- Modelled from the spec: the add operation of a family on the session
(`AddFunctionGenerator`, `AddMultimeter`, `AddOscilloscope`, `AddPowerSupply`,
`AddRFGenerator`; `Session` is not part of the sources): the instrument joins the
collection of its family. -/
def Session.add (s : Session) (fam : Family) (inst : Instrument) : Session :=
  match fam with
  | .FunctionGenerator => { s with m_generators := s.m_generators ++ [inst] }
  | .Multimeter => { s with m_meters := s.m_meters ++ [inst] }
  | .Oscilloscope => { s with m_oscilloscopes := s.m_oscilloscopes ++ [inst] }
  | .PowerSupply => { s with m_psus := s.m_psus ++ [inst] }
  | .RFGenerator => { s with m_rfgenerators := s.m_rfgenerators ++ [inst] }

/-- The call `m_session.AddX(inst)` of a family, recorded in the trace. -/
def SessionAdd (fam : Family) (inst : Instrument) (w : World) : World :=
  { w with
    trace := w.trace ++ [.SessionAdd fam inst]
    win := { w.win with m_session := w.win.m_session.add fam inst } }

/-- A heap allocation (`make_shared`): a new object at the next free address. -/
def alloc (w : World) : Ptr × World :=
  (w.heapNext, { w with heapNext := w.heapNext + 1 })

/-! ## `MainWindow::AddDialog` -/

/-- The method `MainWindow::AddDialog(dlg)`. -/
def AddDialog (env : Env) (dlg : Ptr) (mw : MainWindow) : MainWindow :=
  let mw1 := { mw with m_dialogs := setEmplace dlg mw.m_dialogs }
  let mw2 :=
    if env.isMultimeterDialog dlg then
      { mw1 with
        m_meterDialogs := mapAssign mw1.m_meterDialogs (env.MultimeterDialog_GetMeter dlg) dlg }
    else mw1
  let mw3 :=
    if env.isFunctionGeneratorDialog dlg then
      { mw2 with
        m_generatorDialogs :=
          mapAssign mw2.m_generatorDialogs (env.FunctionGeneratorDialog_GetGenerator dlg) dlg }
    else mw2
  if env.isRFGeneratorDialog dlg then
    { mw3 with
      m_rfgeneratorDialogs :=
        mapAssign mw3.m_rfgeneratorDialogs (env.RFGeneratorDialog_GetGenerator dlg) dlg }
  else mw3

/-! ## The Add submenus of the instrument families -/

/-- The statement `m_dialogs.emplace(make_shared<cls>(m_session))` behind "Connect...". -/
def connectDialog (cls : String) (w : World) : World :=
  let r := alloc w
  let w1 := r.2.log (.make_Dialog cls r.1)
  { w1 with win := { w1.win with m_dialogs := setEmplace r.1 w1.win.m_dialogs } }

/-- The loop `for(auto s : drivers) driverset.emplace(s);`. -/
def makeDriverSet (drivers : List String) : List String :=
  drivers.foldl (fun driverset s => setEmplace s driverset) []

/-- The loop `for(size_t j=4; j<fields.size(); j++) path = path + ":" + fields[j];`. -/
def appendExtraFields (path : String) (fields : List String) : String :=
  (fields.drop 4).foldl (fun p f => p ++ ":" ++ f) path

/-- The initial value of the loop counter, `int i = timestamps.size() - 1`: the subtraction
is done on the 64-bit unsigned `size_t`, the result is narrowed to a 32-bit `int`. -/
def lastIndexAsInt (size : Nat) : Int :=
  let u : Nat := (size % 2 ^ 64 + 2 ^ 64 - 1) % 2 ^ 64
  let v : Nat := u % 2 ^ 32
  if v < 2 ^ 31 then (v : Int) else (v : Int) - 2 ^ 32

/-- The "Recent instruments" loops shared by the five submenus:
`for(int i=...; i>=0; i--) { auto t = timestamps[i]; auto cstrings = reverseMap[t];
for(auto cstring : cstrings) entry }`. The result is `none` when a vector index is out of
range or when the fuel does not suffice. -/
def recentInstruments (entry : String → World → World) (timestamps : List time_t) :
    Nat → Int → List (time_t × List String) × World →
      Option (List (time_t × List String) × World)
  | 0, _, _ => none
  | fuel + 1, i, st =>
    if 0 ≤ i then
      match timestamps.get? i.toNat with
      | none => none
      | some t =>
        let r := mapIndex [] st.1 t
        recentInstruments entry timestamps fuel (i - 1)
          (r.2, r.1.foldl (fun w cstring => entry cstring w) st.2)
    else some st

/-- The body run when a recent function generator is activated. -/
def AddGeneratorMenu.selected (env : Env) (fields : List String)
    (nick drivername transname : String) (w : World) : World :=
  let path := appendExtraFields (fields.getD 3 "") fields
  let t := MakeTransport env transname path w
  match t.1 with
  | none => t.2
  | some transport =>
    let g := CreateDriver env .FunctionGenerator drivername transport t.2
    match g.1 with
    | none =>
      deleteTransport transport
        (ShowErrorPopup "Driver error"
          ("Failed to create function generator driver of type \"" ++ drivername ++ "\"") g.2)
    | some gen =>
      SessionAdd .FunctionGenerator { gen with m_nickname := nick }
        (LogDebug "FIXME: apply PreferenceManager settings to newly created generator\n" g.2)

/-- The body of the inner loop of `AddGeneratorMenu` for one connection string. -/
def AddGeneratorMenu.entry (env : Env) (driverset : List String) (cstring : String)
    (w : World) : World :=
  let fields := env.explode cstring ':'
  if fields.length < 4 then w
  else
    let nick := fields.getD 0 ""
    let drivername := fields.getD 1 ""
    let transname := fields.getD 2 ""
    if setFind driverset drivername then
      let m := MenuItem nick w
      if m.1 then AddGeneratorMenu.selected env fields nick drivername transname m.2
      else m.2
    else w

/-- The method `MainWindow::AddGeneratorMenu(timestamps, reverseMap)`. -/
def AddGeneratorMenu (env : Env) (timestamps : List time_t)
    (reverseMap : List (time_t × List String)) (w : World) :
    Option (List (time_t × List String) × World) :=
  let b := BeginMenu "Generator" w
  if b.1 then
    let c := MenuItem "Connect..." b.2
    let w1 := if c.1 then connectDialog "AddGeneratorDialog" c.2 else c.2
    let driverset := makeDriverSet env.FunctionGenerator_EnumDrivers
    recentInstruments (AddGeneratorMenu.entry env driverset) timestamps
      (timestamps.length + 1) (lastIndexAsInt timestamps.length) (reverseMap, w1)
  else some (reverseMap, b.2)

/-- The body run when a recent multimeter is activated. -/
def AddMultimeterMenu.selected (env : Env) (fields : List String)
    (nick drivername transname : String) (w : World) : World :=
  let path := appendExtraFields (fields.getD 3 "") fields
  let t := MakeTransport env transname path w
  match t.1 with
  | none => t.2
  | some transport =>
    let g := CreateDriver env .Multimeter drivername transport t.2
    match g.1 with
    | none =>
      deleteTransport transport
        (ShowErrorPopup "Driver error"
          ("Failed to create multimeter driver of type \"" ++ drivername ++ "\"") g.2)
    | some meter =>
      SessionAdd .Multimeter { meter with m_nickname := nick }
        (LogDebug "FIXME: apply PreferenceManager settings to newly created meter\n" g.2)

/-- The body of the inner loop of `AddMultimeterMenu` for one connection string. -/
def AddMultimeterMenu.entry (env : Env) (driverset : List String) (cstring : String)
    (w : World) : World :=
  let fields := env.explode cstring ':'
  if fields.length < 4 then w
  else
    let nick := fields.getD 0 ""
    let drivername := fields.getD 1 ""
    let transname := fields.getD 2 ""
    if setFind driverset drivername then
      let m := MenuItem nick w
      if m.1 then AddMultimeterMenu.selected env fields nick drivername transname m.2
      else m.2
    else w

/-- The method `MainWindow::AddMultimeterMenu(timestamps, reverseMap)`. -/
def AddMultimeterMenu (env : Env) (timestamps : List time_t)
    (reverseMap : List (time_t × List String)) (w : World) :
    Option (List (time_t × List String) × World) :=
  let b := BeginMenu "Multimeter" w
  if b.1 then
    let c := MenuItem "Connect..." b.2
    let w1 := if c.1 then connectDialog "AddMultimeterDialog" c.2 else c.2
    let driverset := makeDriverSet env.Multimeter_EnumDrivers
    recentInstruments (AddMultimeterMenu.entry env driverset) timestamps
      (timestamps.length + 1) (lastIndexAsInt timestamps.length) (reverseMap, w1)
  else some (reverseMap, b.2)

/-- The body run when a recent oscilloscope is activated. -/
def AddOscilloscopeMenu.selected (env : Env) (fields : List String)
    (nick drivername transname : String) (w : World) : World :=
  let path0 := if 4 ≤ fields.length then fields.getD 3 "" else ""
  let path := appendExtraFields path0 fields
  let t := MakeTransport env transname path w
  match t.1 with
  | none => t.2
  | some transport =>
    let g := CreateDriver env .Oscilloscope drivername transport t.2
    match g.1 with
    | none =>
      deleteTransport transport
        (ShowErrorPopup "Driver error"
          ("Failed to create oscilloscope driver of type \"" ++ drivername ++ "\"") g.2)
    | some scope =>
      SessionAdd .Oscilloscope { scope with m_nickname := nick } (ApplyPreferences scope g.2)

/-- The body of the inner loop of `AddOscilloscopeMenu` for one connection string. -/
def AddOscilloscopeMenu.entry (env : Env) (driverset : List String) (cstring : String)
    (w : World) : World :=
  let fields := env.explode cstring ':'
  if fields.length < 3 then w
  else
    let nick := fields.getD 0 ""
    let drivername := fields.getD 1 ""
    let transname := fields.getD 2 ""
    if setFind driverset drivername then
      let m := MenuItem nick w
      if m.1 then AddOscilloscopeMenu.selected env fields nick drivername transname m.2
      else m.2
    else w

/-- The method `MainWindow::AddOscilloscopeMenu(timestamps, reverseMap)`. -/
def AddOscilloscopeMenu (env : Env) (timestamps : List time_t)
    (reverseMap : List (time_t × List String)) (w : World) :
    Option (List (time_t × List String) × World) :=
  let b := BeginMenu "Oscilloscope" w
  if b.1 then
    let c := MenuItem "Connect..." b.2
    let w1 := if c.1 then connectDialog "AddScopeDialog" c.2 else c.2
    let driverset := makeDriverSet env.Oscilloscope_EnumDrivers
    recentInstruments (AddOscilloscopeMenu.entry env driverset) timestamps
      (timestamps.length + 1) (lastIndexAsInt timestamps.length) (reverseMap, w1)
  else some (reverseMap, b.2)

/-- The body run when a recent power supply is activated. -/
def AddPowerSupplyMenu.selected (env : Env) (fields : List String)
    (nick drivername transname : String) (w : World) : World :=
  let path := appendExtraFields (fields.getD 3 "") fields
  let t := MakeTransport env transname path w
  match t.1 with
  | none => t.2
  | some transport =>
    let g := CreateDriver env .PowerSupply drivername transport t.2
    match g.1 with
    | none =>
      deleteTransport transport
        (ShowErrorPopup "Driver error"
          ("Failed to create PSU driver of type \"" ++ drivername ++ "\"") g.2)
    | some psu =>
      SessionAdd .PowerSupply { psu with m_nickname := nick }
        (LogDebug "FIXME: apply PreferenceManager settings to newly created PSU\n" g.2)

/-- The body of the inner loop of `AddPowerSupplyMenu` for one connection string. -/
def AddPowerSupplyMenu.entry (env : Env) (driverset : List String) (cstring : String)
    (w : World) : World :=
  let fields := env.explode cstring ':'
  if fields.length < 4 then w
  else
    let nick := fields.getD 0 ""
    let drivername := fields.getD 1 ""
    let transname := fields.getD 2 ""
    if setFind driverset drivername then
      let m := MenuItem nick w
      if m.1 then AddPowerSupplyMenu.selected env fields nick drivername transname m.2
      else m.2
    else w

/-- The method `MainWindow::AddPowerSupplyMenu(timestamps, reverseMap)`. -/
def AddPowerSupplyMenu (env : Env) (timestamps : List time_t)
    (reverseMap : List (time_t × List String)) (w : World) :
    Option (List (time_t × List String) × World) :=
  let b := BeginMenu "Power Supply" w
  if b.1 then
    let c := MenuItem "Connect..." b.2
    let w1 := if c.1 then connectDialog "AddPowerSupplyDialog" c.2 else c.2
    let driverset := makeDriverSet env.PowerSupply_EnumDrivers
    recentInstruments (AddPowerSupplyMenu.entry env driverset) timestamps
      (timestamps.length + 1) (lastIndexAsInt timestamps.length) (reverseMap, w1)
  else some (reverseMap, b.2)

/-- The body run when a recent RF generator is activated. -/
def AddRFGeneratorMenu.selected (env : Env) (fields : List String)
    (nick drivername transname : String) (w : World) : World :=
  let path := appendExtraFields (fields.getD 3 "") fields
  let t := MakeTransport env transname path w
  match t.1 with
  | none => t.2
  | some transport =>
    let g := CreateDriver env .RFGenerator drivername transport t.2
    match g.1 with
    | none =>
      deleteTransport transport
        (ShowErrorPopup "Driver error"
          ("Failed to create RF generator driver of type \"" ++ drivername ++ "\"") g.2)
    | some gen =>
      SessionAdd .RFGenerator { gen with m_nickname := nick }
        (LogDebug "FIXME: apply PreferenceManager settings to newly created RF generator\n" g.2)

/-- The body of the inner loop of `AddRFGeneratorMenu` for one connection string. -/
def AddRFGeneratorMenu.entry (env : Env) (driverset : List String) (cstring : String)
    (w : World) : World :=
  let fields := env.explode cstring ':'
  if fields.length < 4 then w
  else
    let nick := fields.getD 0 ""
    let drivername := fields.getD 1 ""
    let transname := fields.getD 2 ""
    if setFind driverset drivername then
      let m := MenuItem nick w
      if m.1 then AddRFGeneratorMenu.selected env fields nick drivername transname m.2
      else m.2
    else w

/-- The method `MainWindow::AddRFGeneratorMenu(timestamps, reverseMap)`. -/
def AddRFGeneratorMenu (env : Env) (timestamps : List time_t)
    (reverseMap : List (time_t × List String)) (w : World) :
    Option (List (time_t × List String) × World) :=
  let b := BeginMenu "RF Generator" w
  if b.1 then
    let c := MenuItem "Connect..." b.2
    let w1 := if c.1 then connectDialog "AddRFGeneratorDialog" c.2 else c.2
    let driverset := makeDriverSet env.RFSignalGenerator_EnumDrivers
    recentInstruments (AddRFGeneratorMenu.entry env driverset) timestamps
      (timestamps.length + 1) (lastIndexAsInt timestamps.length) (reverseMap, w1)
  else some (reverseMap, b.2)

/-- The inner-loop body of the Add submenu of a family. -/
def submenuEntry (env : Env) : Family → List String → String → World → World
  | .FunctionGenerator => AddGeneratorMenu.entry env
  | .Multimeter => AddMultimeterMenu.entry env
  | .Oscilloscope => AddOscilloscopeMenu.entry env
  | .PowerSupply => AddPowerSupplyMenu.entry env
  | .RFGenerator => AddRFGeneratorMenu.entry env

/-- The Add submenu of a family. -/
def submenu (env : Env) : Family → List time_t → List (time_t × List String) → World →
    Option (List (time_t × List String) × World)
  | .FunctionGenerator => AddGeneratorMenu env
  | .Multimeter => AddMultimeterMenu env
  | .Oscilloscope => AddOscilloscopeMenu env
  | .PowerSupply => AddPowerSupplyMenu env
  | .RFGenerator => AddRFGeneratorMenu env

/-! ## The Window | Analyzer menu -/

/-- The body of the loop of `WindowAnalyzerMenu` for one filter instance `f`. The decoder
`pd` obtained by the dynamic cast is the same object as `f`. -/
def WindowAnalyzerMenu.entry (env : Env) (f : Ptr) (w : World) : World :=
  if !env.isPacketDecoder f then w
  else if (mapFind w.win.m_protocolAnalyzerDialogs f).isSome then w
  else
    let m := MenuItem (env.GetDisplayName f) w
    if m.1 then
      let a := alloc m.2
      let w1 := a.2.log (.make_ProtocolAnalyzerDialog f a.1)
      let w2 :=
        { w1 with
          win := { w1.win with
            m_protocolAnalyzerDialogs := mapAssign w1.win.m_protocolAnalyzerDialogs f a.1 } }
      { w2 with win := AddDialog env a.1 w2.win }
    else m.2

/-- The method `MainWindow::WindowAnalyzerMenu()`. -/
def WindowAnalyzerMenu (env : Env) (w : World) : World :=
  let b := BeginMenu "Analyzer" w
  if b.1 then
    let instances := b.2.filters
    instances.foldl (fun w f => WindowAnalyzerMenu.entry env f w) b.2
  else b.2

/-! ## The Add | Channels menu -/

/-- The block `if(ImGui::MenuItem(stream.GetName().c_str())) { ... }`, which occurs in the
oscilloscope loop and in the filter loop of `AddChannelsMenu`. -/
def AddChannelsMenu.item (env : Env) (stream : StreamDescriptor) (w : World) : World :=
  let m := MenuItem (env.StreamDescriptor_GetName stream) w
  if m.1 then
    let group := env.GetBestGroupForWaveform stream m.2
    let w1 := m.2.log (.GetBestGroupForWaveform stream group)
    let a := alloc w1
    let area : WaveformArea := { ptr := a.1, m_stream := stream, m_group := group }
    let w2 := a.2.log (.make_WaveformArea stream group a.1)
    { w2 with
      trace := w2.trace ++ [.AddArea group a.1]
      areas := w2.areas ++ [(group, area)] }
  else m.2

/-- The body of the loop over the stream indices `j` of channel `i` of a scope. -/
def AddChannelsMenu.scopeStream (env : Env) (scope : Instrument) (i j : Nat) (w : World) :
    World :=
  let chan := env.GetChannel scope i
  if env.GetType chan j = .STREAM_TYPE_TRIGGER then w
  else if !env.CanEnableChannel scope i then w
  else AddChannelsMenu.item env { m_channel := chan, m_stream := j } w

/-- The body of the loop over the channel indices `i` of a scope. -/
def AddChannelsMenu.scopeChannel (env : Env) (scope : Instrument) (i : Nat) (w : World) :
    World :=
  (List.range (env.GetStreamCount (env.GetChannel scope i))).foldl
    (fun w j => AddChannelsMenu.scopeStream env scope i j w) w

/-- The body of the loop over the oscilloscopes of the session. -/
def AddChannelsMenu.scope (env : Env) (scope : Instrument) (w : World) : World :=
  let b := BeginMenu scope.m_nickname w
  if b.1 then
    (List.range (env.GetChannelCount scope)).foldl
      (fun w i => AddChannelsMenu.scopeChannel env scope i w) b.2
  else b.2

/-- The body of the loop over the filter instances. -/
def AddChannelsMenu.filter (env : Env) (f : Ptr) (w : World) : World :=
  (List.range (env.GetStreamCount f)).foldl
    (fun w j => AddChannelsMenu.item env { m_channel := f, m_stream := j } w) w

/-- The method `MainWindow::AddChannelsMenu()`. -/
def AddChannelsMenu (env : Env) (w : World) : World :=
  let b := BeginMenu "Channels" w
  if b.1 then
    let w1 :=
      b.2.win.m_session.m_oscilloscopes.foldl (fun w scope => AddChannelsMenu.scope env scope w)
        b.2
    let filters := w1.filters
    filters.foldl (fun w f => AddChannelsMenu.filter env f w) w1
  else b.2

/-! ## The Add | Import and Add | Generate menus

A `std::string` holds the UTF-8 encoding of its text. Comparison, the search for an ASCII
text and the splitting at an ASCII separator give the same result on the text and on its
encoding, and are taken on the text; `size()`, `strlen` and `substr` count `char`s, and
are taken on the encoding. -/

/-- The `char`s of the `std::string` that holds the text `s`: the bytes of its UTF-8
encoding, one byte for an ASCII character and two to four for any other character. -/
def bytes (s : String) : List UInt8 :=
  s.data.flatMap String.utf8EncodeChar

/-- The method `std::string::size()`: the number of `char`s. -/
def size (s : String) : Nat :=
  (bytes s).length

/-- The C function `strlen`: the number of `char`s before the first zero byte. -/
def strlen (s : String) : Nat :=
  ((bytes s).takeWhile fun c => c != 0).length

/-- The subtraction `a - b` of two `size_t` values: modulo `2 ^ 64`. -/
def sizeSub (a b : Nat) : Nat :=
  (a % 2 ^ 64 + 2 ^ 64 - b % 2 ^ 64) % 2 ^ 64

/-- The method `std::string::substr(pos, count)` on the `char`s of a string: the `char`s
from `pos` on, at most `count` of them and at most up to the end; `none` stands for the
`out_of_range` exception thrown when `pos` is beyond the end. -/
def substr (s : List UInt8) (pos count : Nat) : Option (List UInt8) :=
  if s.length < pos then none
  else some ((s.drop pos).take (min count (s.length - pos)))

/-- Whether the character list `pat` occurs in the character list as a contiguous run. -/
def occursIn (pat : List Char) : List Char → Bool
  | [] => pat.isPrefixOf []
  | c :: cs => pat.isPrefixOf (c :: cs) || occursIn pat cs

/-- The test `s.find(pat) != string::npos`. -/
def findSubstring (s pat : String) : Bool :=
  occursIn pat.data s.data

/-- The call `std::sort(v.begin(), v.end())`: the elements in ascending order of
`operator<`. -/
def std_sort {α : Type} [LinearOrder α] (v : List α) : List α :=
  v.insertionSort (· ≤ ·)

/-- The call `CreateFilter(fname, nullptr, StreamDescriptor(nullptr, 0))`. -/
def CreateFilter_unbound (fname : String) (w : World) : World :=
  w.log (.CreateFilter fname none none 0)

/-- The loop that collects the names of the reference filters of category
`CAT_GENERATION`, followed by the sort. -/
def generationFilterNames (env : Env) (refs : List (String × Ptr)) : List String :=
  std_sort
    ((refs.filter fun it => decide (env.GetCategory it.2 = .CAT_GENERATION)).map fun it => it.1)

/-- The label of an import filter:
`fname.substr(0, fname.size() - strlen(" Import"))`, as the sequence of its `char`s. -/
def AddImportMenu.shortname (fname : String) : Option (List UInt8) :=
  substr (bytes fname) 0 (sizeSub (size fname) (strlen " Import"))

/-- The body of the loop of `AddImportMenu` for one filter name; `none` when `substr`
throws. -/
def AddImportMenu.item (fname : String) (w : World) : Option World :=
  if !findSubstring fname "Import" then some w
  else
    match AddImportMenu.shortname fname with
    | none => none
    | some shortname =>
      let m := MenuItem_c_str shortname w
      if m.1 then some (CreateFilter_unbound fname m.2) else some m.2

/-- The method `MainWindow::AddImportMenu()`. -/
def AddImportMenu (env : Env) (w : World) : Option World :=
  let refs := env.GetReferenceFilters w.win.m_session
  let b := BeginMenu "Import" w
  if b.1 then
    (generationFilterNames env refs).foldlM (fun w fname => AddImportMenu.item fname w) b.2
  else some b.2

/-- The body of the loop of `AddGenerateMenu` for one filter name; `none` when
`refs.find(fname)` is `end()`. -/
def AddGenerateMenu.item (env : Env) (refs : List (String × Ptr)) (fname : String)
    (w : World) : Option World :=
  if findSubstring fname "Import" then some w
  else
    match mapFind refs fname with
    | none => none
    | some f =>
      if env.GetInputCount f ≠ 0 then some w
      else
        let m := MenuItem fname w
        if m.1 then some (CreateFilter_unbound fname m.2) else some m.2

/-- The method `MainWindow::AddGenerateMenu()`. -/
def AddGenerateMenu (env : Env) (w : World) : Option World :=
  let refs := env.GetReferenceFilters w.win.m_session
  let b := BeginMenu "Generate" w
  if b.1 then
    (generationFilterNames env refs).foldlM
      (fun w fname => AddGenerateMenu.item env refs fname w) b.2
  else some b.2

/-! ## The Add menu -/

/-- The statement `m[k].push_back(v)` on a `std::map` of vectors. -/
def mapPushBack {κ ν : Type} [LinearOrder κ] (m : List (κ × List ν)) (k : κ) (v : ν) :
    List (κ × List ν) :=
  let r := mapIndex [] m k
  mapAssign r.2 k (r.1 ++ [v])

/-- The reverse mapping of `AddMenu`:
`for(auto it : m_recentInstruments) reverseMap[it.second].push_back(it.first);`. -/
def AddMenu.reverseMap (recent : List (String × time_t)) : List (time_t × List String) :=
  recent.foldl (fun reverseMap it => mapPushBack reverseMap it.2 it.1) []

/-- The timestamp list of `AddMenu`: the last-used times are put into a `std::set`, the
set is copied into a vector in its iteration order, and the vector is sorted. -/
def AddMenu.timestamps (recent : List (String × time_t)) : List time_t :=
  let timestampsDeduplicated : List time_t :=
    recent.foldl (fun set it => setEmplace it.2 set) []
  let timestamps : List time_t := timestampsDeduplicated.foldl (fun v t => v ++ [t]) []
  std_sort timestamps

/-- The method `MainWindow::AddMenu()`; `none` when one of the submenus fails. -/
def AddMenu (env : Env) (w : World) : Option World :=
  let b := BeginMenu "Add" w
  if b.1 then
    let reverseMap := AddMenu.reverseMap b.2.win.m_recentInstruments
    let timestamps := AddMenu.timestamps b.2.win.m_recentInstruments
    (AddGeneratorMenu env timestamps reverseMap b.2).bind fun s1 =>
    (AddMultimeterMenu env timestamps s1.1 s1.2).bind fun s2 =>
    (AddOscilloscopeMenu env timestamps s2.1 s2.2).bind fun s3 =>
    (AddPowerSupplyMenu env timestamps s3.1 s3.2).bind fun s4 =>
    (AddRFGeneratorMenu env timestamps s4.1 s4.2).bind fun s5 =>
    (AddGenerateMenu env (AddChannelsMenu env s5.2)).bind fun w7 =>
    AddImportMenu env w7
  else some b.2

/-! ## Where the five Add submenus differ -/

/-- The number of fields below which the submenu of a family skips a connection string
(the guard `if(fields.size() < ...) continue;`). -/
def Family.minFields : Family → Nat
  | .FunctionGenerator => 4
  | .Multimeter => 4
  | .Oscilloscope => 3
  | .PowerSupply => 4
  | .RFGenerator => 4

/-- The message of the "Driver error" popup of a family. -/
def Family.driverError : Family → String → String
  | .FunctionGenerator, drivername =>
    "Failed to create function generator driver of type \"" ++ drivername ++ "\""
  | .Multimeter, drivername =>
    "Failed to create multimeter driver of type \"" ++ drivername ++ "\""
  | .Oscilloscope, drivername =>
    "Failed to create oscilloscope driver of type \"" ++ drivername ++ "\""
  | .PowerSupply, drivername =>
    "Failed to create PSU driver of type \"" ++ drivername ++ "\""
  | .RFGenerator, drivername =>
    "Failed to create RF generator driver of type \"" ++ drivername ++ "\""

/-- The calls a submenu makes between the success of the driver factory and the add
operation of the session. -/
def Family.preparation : Family → Instrument → List Event
  | .FunctionGenerator, _ =>
    [.LogDebug "FIXME: apply PreferenceManager settings to newly created generator\n"]
  | .Multimeter, _ =>
    [.LogDebug "FIXME: apply PreferenceManager settings to newly created meter\n"]
  | .Oscilloscope, scope => [.ApplyPreferences scope]
  | .PowerSupply, _ =>
    [.LogDebug "FIXME: apply PreferenceManager settings to newly created PSU\n"]
  | .RFGenerator, _ =>
    [.LogDebug "FIXME: apply PreferenceManager settings to newly created RF generator\n"]

/-- The calls made between two states of a run: the part of the later trace that follows
the earlier trace. -/
def World.since (later earlier : World) : List Event :=
  later.trace.drop earlier.trace.length

/-! ## The filter graph -/

/-- Modelled from the spec: a stream reference, identified by `(producerNodeId,
outputIndex)` (data model, "Stream"). The filter-graph core is not part of the sources. -/
structure StreamRef where
  producerNodeId : Nat
  outputIndex : Nat
deriving DecidableEq, Repr

/-- Modelled from the spec: a node of the filter graph (data model, "Node"): its unique id,
the ordered list of its input-stream bindings, each bound to an output of a producer node
or unbound, the number of its output streams and its enabled flag. -/
structure Node where
  id : Nat
  inputs : List (Option StreamRef)
  outputCount : Nat
  enabled : Bool
deriving DecidableEq, Repr

/-- Modelled from the spec: the filter graph (data model, "Graph"), the mapping from node
id to node; the edges are implicit in the input bindings. -/
structure Graph where
  nodes : List Node
deriving DecidableEq, Repr

/-- Modelled from the spec: the errors of a graph edit (error handling design,
`GraphEditError`). -/
inductive GraphEditError where
  | CycleDetected
  | InvalidBinding
  | UnknownNode
deriving DecidableEq, Repr

/-- Modelled from the spec: a bind or rebind request: input `inputIndex` of the node
`consumer` is to be bound to output `outputIndex` of the node `producer`. -/
structure BindRequest where
  consumer : Nat
  inputIndex : Nat
  producer : Nat
  outputIndex : Nat
deriving DecidableEq, Repr

/-- Modelled from the spec: whether a node has an input bound to an output of node `a`. -/
def Node.readsFrom (n : Node) (a : Nat) : Bool :=
  n.inputs.any fun b =>
    match b with
    | some s => decide (s.producerNodeId = a)
    | none => false

/-- Modelled from the spec: the ids of the nodes that read an output of node `a`. -/
def Graph.consumersOf (g : Graph) (a : Nat) : List Nat :=
  (g.nodes.filter fun n => n.readsFrom a).map fun n => n.id

/-- Modelled from the spec: one round of the reachability check: the nodes seen so far and
their direct consumers. -/
def Graph.expand (g : Graph) (seen : List Nat) : List Nat :=
  seen ++ seen.flatMap g.consumersOf

/-- Modelled from the spec: the nodes seen after `k` rounds of the reachability check. -/
def Graph.reachFrom (g : Graph) : Nat → List Nat → List Nat
  | 0, seen => seen
  | k + 1, seen => g.reachFrom k (g.expand seen)

/-- Modelled from the spec: the reachability check of a graph edit (scheduler, "Cycle
rejection"): whether node `b` is reached from node `a` along the bindings, searched for as
many rounds as the graph has nodes. -/
def Graph.reaches (g : Graph) (a b : Nat) : Bool :=
  decide (b ∈ g.reachFrom g.nodes.length [a])

/-- Modelled from the spec: the node stored under an id. -/
def Graph.find (g : Graph) (id : Nat) : Option Node :=
  g.nodes.find? fun n => decide (n.id = id)

/-- Modelled from the spec: the graph with the binding of a request written into the input
slot of the consumer. -/
def Graph.commit (g : Graph) (r : BindRequest) : Graph :=
  { nodes := g.nodes.map fun n =>
      if n.id = r.consumer then
        { n with
          inputs := n.inputs.set r.inputIndex
            (some { producerNodeId := r.producer, outputIndex := r.outputIndex }) }
      else n }

/-- Modelled from the spec: the bind/rebind edit of the filter graph (scheduler, "Cycle
rejection"; testable properties). The reachability check from the consumer to the candidate
producer runs before anything is committed; a request that would close a cycle is rejected
with `CycleDetected`, a request naming a node that does not exist with `UnknownNode`, one
with an input or output index out of range with `InvalidBinding`; a rejected edit leaves
the graph as it was. Returns the outcome and the graph after the call. -/
def Graph.bind (g : Graph) (r : BindRequest) : Except GraphEditError Unit × Graph :=
  if g.reaches r.consumer r.producer then (.error .CycleDetected, g)
  else
    match g.find r.consumer, g.find r.producer with
    | some c, some p =>
      if r.inputIndex < c.inputs.length ∧ r.outputIndex < p.outputCount then
        (.ok (), g.commit r)
      else (.error .InvalidBinding, g)
    | _, _ => (.error .UnknownNode, g)

/-- Modelled from the spec: the edge set of the graph: the triples (stream read, consumer
id, input index) of all bound inputs. -/
def Graph.edges (g : Graph) : List (StreamRef × Nat × Nat) :=
  g.nodes.flatMap fun n =>
    n.inputs.enum.filterMap fun ib => ib.2.map fun s => (s, n.id, ib.1)

/-- The binding relation: an output of node `a` is bound to an input of node `b`. -/
def Graph.Feeds (g : Graph) (a b : Nat) : Prop :=
  ∃ n ∈ g.nodes, n.id = b ∧ ∃ s, some s ∈ n.inputs ∧ s.producerNodeId = a

/-- The new edge of a request, from the producer to the consumer, would create a cycle in
the binding relation: the producer is the consumer itself or is reached from it. -/
def Graph.CreatesCycle (g : Graph) (r : BindRequest) : Prop :=
  Relation.ReflTransGen g.Feeds r.consumer r.producer

/-- The invariant of the graph: the binding relation has no cycle. -/
def Graph.Acyclic (g : Graph) : Prop :=
  ∀ x, ¬ Relation.TransGen g.Feeds x x

/-- A set of nodes that contains the consumers of its members. -/
def Graph.Closed (g : Graph) (seen : List Nat) : Prop :=
  ∀ x ∈ seen, ∀ y, g.Feeds x y → y ∈ seen

/-- The graph A (node 1) → B (node 2) → C (node 3) of the scenario of the spec; the input
of A is unbound. -/
def exampleGraph : Graph where
  nodes :=
    [{ id := 1, inputs := [none], outputCount := 1, enabled := true },
     { id := 2, inputs := [some { producerNodeId := 1, outputIndex := 0 }], outputCount := 1,
       enabled := true },
     { id := 3, inputs := [some { producerNodeId := 2, outputIndex := 0 }], outputCount := 1,
       enabled := true }]

/-! ## Example data -/

/-- Splits a character list at a separator; `tmp` is the field being read. -/
def splitChars (sep : Char) : List Char → List Char → List String
  | tmp, [] => [String.mk tmp]
  | tmp, c :: cs =>
    if c = sep then String.mk tmp :: splitChars sep [] cs else splitChars sep (tmp ++ [c]) cs

/-- A window with no dialogs, no instruments and no recent instruments. -/
def emptyWindow : MainWindow where
  m_session :=
    { m_generators := [], m_meters := [], m_oscilloscopes := [], m_psus := [],
      m_rfgenerators := [] }
  m_dialogs := []
  m_meterDialogs := []
  m_generatorDialogs := []
  m_rfgeneratorDialogs := []
  m_protocolAnalyzerDialogs := []
  m_scpiConsoleDialogs := []
  m_recentInstruments := []
  m_persistenceDialog := none
  m_timebaseDialog := none
  m_preferenceDialog := none
  m_logViewerDialog := none
  m_metricsDialog := none
  m_historyDialog := none
  m_graphEditor := none
  m_fullscreen := false
  m_showDemo := false
  m_showPlot := false

/-- A frame in which ImGui answers `true` to the first widget call, on an empty window. -/
def exampleWorld : World where
  input := [true]
  trace := []
  heapNext := 1000
  filters := []
  areas := []
  win := emptyWindow

/-- An environment for evaluating the handlers on examples: one driver per family, the
transports "lan" and "null" can be made, and the oscilloscope driver only connects over
"lan". -/
def exampleEnv : Env where
  explode := fun s sep => splitChars sep [] s.data
  MakeTransport := fun transname _ =>
    if transname = "lan" then some 7 else if transname = "null" then some 8 else none
  FunctionGenerator_EnumDrivers := ["rigol_awg"]
  Multimeter_EnumDrivers := ["rs_hmc8012"]
  Oscilloscope_EnumDrivers := ["lecroy"]
  PowerSupply_EnumDrivers := ["rs_hmc804x"]
  RFSignalGenerator_EnumDrivers := ["siglent_ssg"]
  CreateFunctionGenerator := fun d t =>
    if d = "rigol_awg" then some { ptr := t + 10, m_nickname := "" } else none
  CreateMultimeter := fun d t =>
    if d = "rs_hmc8012" then some { ptr := t + 20, m_nickname := "" } else none
  CreateOscilloscope := fun d t =>
    if d = "lecroy" ∧ t = 7 then some { ptr := t + 30, m_nickname := "" } else none
  CreatePowerSupply := fun d t =>
    if d = "rs_hmc804x" then some { ptr := t + 40, m_nickname := "" } else none
  CreateRFSignalGenerator := fun d t =>
    if d = "siglent_ssg" then some { ptr := t + 50, m_nickname := "" } else none
  isMultimeterDialog := fun d => d = 501
  MultimeterDialog_GetMeter := fun _ => 27
  isFunctionGeneratorDialog := fun d => d = 502
  FunctionGeneratorDialog_GetGenerator := fun _ => 17
  isRFGeneratorDialog := fun d => d = 503
  RFGeneratorDialog_GetGenerator := fun _ => 57
  isPacketDecoder := fun f => f = 300
  GetDisplayName := fun _ => "UART_1"
  GetChannelCount := fun _ => 2
  GetChannel := fun scope i => scope.ptr + 1 + i
  GetStreamCount := fun _ => 2
  GetType := fun _ j => if j = 1 then .STREAM_TYPE_TRIGGER else .STREAM_TYPE_ANALOG
  CanEnableChannel := fun _ i => i = 0
  StreamDescriptor_GetName := fun _ => "CH"
  GetBestGroupForWaveform := fun _ _ => 900
  GetReferenceFilters := fun _ =>
    [("CSV Import", 401), ("Importer", 402), ("Sine", 403), ("WAV Import", 404)]
  GetCategory := fun f => if f = 403 ∨ f = 401 ∨ f = 402 then .CAT_GENERATION else .CAT_MATH
  GetInputCount := fun _ => 0

/-- A frame on a window with three recent instruments: the Add menu and its Oscilloscope
submenu are open, every other menu is closed and no item is activated. -/
def exampleRecentWorld : World :=
  { exampleWorld with
    input := [true, false, false, true, false, false, false]
    win := { emptyWindow with
      m_recentInstruments :=
        [("old:lecroy:lan:10.0.0.1", 3), ("psu:rs_hmc804x:lan:10.0.0.9", 9),
         ("scope1:lecroy:lan:10.0.0.5:1861", 7)] } }

/-! ## Vocabulary of the statements -/

/-- The label of a call when it is the submission of a menu item. -/
def Event.itemLabel : Event → Option String
  | .MenuItem label _ => some label
  | _ => none

/-- The labels of the menu items submitted in a list of calls, in order. -/
def offeredLabels (calls : List Event) : List String :=
  calls.filterMap Event.itemLabel

/-- Whether a call is the creation of a `ProtocolAnalyzerDialog` for the decoder `pd`. -/
def Event.createsAnalyzerFor (pd : Ptr) : Event → Bool
  | .make_ProtocolAnalyzerDialog p _ => decide (p = pd)
  | _ => false

/-- A sequence of runs of the Window | Analyzer menu, one per frame; each frame comes with
its ImGui answers and with the set of filter instances live at that time. -/
def analyzerFrames (env : Env) (frames : List (List Bool × List Ptr)) (w : World) : World :=
  frames.foldl
    (fun w frame => WindowAnalyzerMenu env { w with input := frame.1, filters := frame.2 }) w

/-- Every dialog recorded in `m_protocolAnalyzerDialogs` is a member of `m_dialogs`. -/
def analyzersRegistered (w : World) : Prop :=
  ∀ pd d, mapFind w.win.m_protocolAnalyzerDialogs pd = some d → d ∈ w.win.m_dialogs

/-- What a piece of the analyzer menu code may do about the decoder `pd`: it extends the
trace; a decoder that has a dialog keeps it and gets no new one; a decoder without a dialog
gets at most one, which is then recorded; and registration in `m_dialogs` is kept. -/
def AnalyzerStep (pd : Ptr) (step : World → World) : Prop :=
  ∀ w, ∃ calls, (step w).trace = w.trace ++ calls ∧
    (mapFind w.win.m_protocolAnalyzerDialogs pd ≠ none →
      mapFind (step w).win.m_protocolAnalyzerDialogs pd ≠ none ∧
        calls.countP (Event.createsAnalyzerFor pd) = 0) ∧
    (mapFind w.win.m_protocolAnalyzerDialogs pd = none →
      calls.countP (Event.createsAnalyzerFor pd) = 0 ∨
        (calls.countP (Event.createsAnalyzerFor pd) = 1 ∧
          mapFind (step w).win.m_protocolAnalyzerDialogs pd ≠ none)) ∧
    (analyzersRegistered w → analyzersRegistered (step w))

/-- The pairs (channel index, stream index) of a scope that pass the two tests of the
Add | Channels menu (the stream is no trigger stream, the channel can be enabled), in the
order of the loops. -/
def offeredScopeStreams (env : Env) (scope : Instrument) : List (Nat × Nat) :=
  (List.range (env.GetChannelCount scope)).flatMap fun i =>
    ((List.range (env.GetStreamCount (env.GetChannel scope i))).filter fun j =>
      decide (env.GetType (env.GetChannel scope i) j ≠ .STREAM_TYPE_TRIGGER) &&
        env.CanEnableChannel scope i).map fun j => (i, j)

/-- The stream descriptor of stream `p.2` of channel `p.1` of a scope. -/
def scopeStreamDescriptor (env : Env) (scope : Instrument) (p : Nat × Nat) : StreamDescriptor :=
  { m_channel := env.GetChannel scope p.1, m_stream := p.2 }

/-- The stream descriptors of all stream indices of a filter. -/
def filterStreams (env : Env) (f : Ptr) : List StreamDescriptor :=
  (List.range (env.GetStreamCount f)).map fun j => { m_channel := f, m_stream := j }

/-- The connection strings last used at time `t`, in the order of `m_recentInstruments`. -/
def AddMenu.bucket (recent : List (String × time_t)) (t : time_t) : List String :=
  (recent.filter fun it => decide (it.2 = t)).map Prod.fst

/-- One round of the "Recent instruments" loop, for the timestamp `t`: the lookup
`reverseMap[t]` and the inner loop over the connection strings found. -/
def recentRound (entry : String → World → World) (st : List (time_t × List String) × World)
    (t : time_t) : List (time_t × List String) × World :=
  ((mapIndex [] st.1 t).2, (mapIndex [] st.1 t).1.foldl (fun w cstring => entry cstring w) st.2)

/-- The entries of `m_recentInstruments` in the order in which a submenu considers them:
timestamp by timestamp from the back of the timestamp list, within one timestamp in the
order of `m_recentInstruments`. -/
def AddMenu.considered (recent : List (String × time_t)) : List (String × time_t) :=
  (AddMenu.timestamps recent).reverse.flatMap fun t =>
    recent.filter fun it => decide (it.2 = t)

/-- A map of `n` recent instruments: the one numbered `i` is named by `i` letters and was
last used at time `i`. -/
def recentUpTo (n : Nat) : List (String × time_t) :=
  (List.range n).map fun i => (String.mk (List.replicate i 'a'), Int.ofNat i)

/-- The import filter names of the Add | Import menu: the sorted names of the reference
filters of category `CAT_GENERATION` that contain "Import". -/
def importFilterNames (env : Env) (refs : List (String × Ptr)) : List String :=
  (generationFilterNames env refs).filter fun fname => findSubstring fname "Import"

/-- The label of the menu item of an import filter, as the sequence of its `char`s. -/
def AddImportMenu.label (fname : String) : List UInt8 :=
  (AddImportMenu.shortname fname).getD []

/-- The menu item of an import filter: the item labelled with the short name and, when it
is activated, the creation of the filter. -/
def AddImportMenu.offer (fname : String) (w : World) : World :=
  if (MenuItem_c_str (AddImportMenu.label fname) w).1 then
    CreateFilter_unbound fname (MenuItem_c_str (AddImportMenu.label fname) w).2
  else (MenuItem_c_str (AddImportMenu.label fname) w).2

/-- The label of a menu item that was submitted by the sequence of its `char`s. -/
def Event.itemLabel_c_str : Event → Option (List UInt8)
  | .MenuItem_c_str label _ => some label
  | _ => none

/-- The labels of the menu items submitted by their `char`s in a list of calls, in
order. -/
def offeredLabels_c_str (calls : List Event) : List (List UInt8) :=
  calls.filterMap Event.itemLabel_c_str

/-! # Properties -/

/-! ## Lemmas on the containers -/

theorem mem_setEmplace {α : Type} [LinearOrder α] (a x : α) (s : List α) :
    x ∈ setEmplace a s ↔ x = a ∨ x ∈ s := by
  induction s with
  | nil => simp [setEmplace]
  | cons b s ih =>
    unfold setEmplace
    split_ifs with h1 h2
    · simp
    · subst h2; simp
    · simp only [List.mem_cons, ih]; tauto

theorem mapFind_mapAssign_self {κ ν : Type} [LinearOrder κ] (m : List (κ × ν)) (k : κ)
    (v : ν) : mapFind (mapAssign m k v) k = some v := by
  induction m with
  | nil => simp [mapAssign, mapFind]
  | cons p m ih =>
    obtain ⟨k', v'⟩ := p
    unfold mapAssign
    split_ifs with h1 h2
    · simp [mapFind]
    · simp [mapFind]
    · have : ¬ k' = k := fun h => h2 h.symm
      simp [mapFind, this, ih]

theorem mapFind_mapAssign_ne {κ ν : Type} [LinearOrder κ] (m : List (κ × ν)) (k j : κ)
    (v : ν) (h : j ≠ k) : mapFind (mapAssign m k v) j = mapFind m j := by
  induction m with
  | nil => simp [mapAssign, mapFind, h.symm]
  | cons p m ih =>
    obtain ⟨k', v'⟩ := p
    unfold mapAssign
    split_ifs with h1 h2
    · simp [mapFind, h.symm]
    · subst h2; simp [mapFind, h.symm]
    · simp only [mapFind, ih]

/-! ## Lemmas on the connection-string fields -/

theorem intercalate_go_eq_foldl (acc sep : String) (l : List String) :
    String.intercalate.go acc sep l = l.foldl (fun p f => p ++ sep ++ f) acc := by
  induction l generalizing acc with
  | nil => simp [String.intercalate.go]
  | cons a l ih => simp [String.intercalate.go, ih]

theorem foldl_append_left (a b sep : String) (l : List String) :
    l.foldl (fun p f => p ++ sep ++ f) (a ++ b) = a ++ l.foldl (fun p f => p ++ sep ++ f) b := by
  induction l generalizing b with
  | nil => simp
  | cons x l ih =>
    simp only [List.foldl_cons]
    rw [String.append_assoc a b sep, String.append_assoc a (b ++ sep) x, ih]

/-- The path built by the handlers is the join of the fields from index 3 on. -/
theorem path_eq_intercalate (fields : List String) :
    appendExtraFields (if 4 ≤ fields.length then fields.getD 3 "" else "") fields =
      String.intercalate ":" (fields.drop 3) := by
  unfold appendExtraFields
  match fields with
  | [] => simp [String.intercalate]
  | [_] => simp [String.intercalate]
  | [_, _] => simp [String.intercalate]
  | [_, _, _] => simp [String.intercalate]
  | _ :: _ :: _ :: f3 :: rest =>
    simp [String.intercalate, intercalate_go_eq_foldl]

theorem path_eq_intercalate_of_four (fields : List String) :
    appendExtraFields (fields.getD 3 "") fields = String.intercalate ":" (fields.drop 3) := by
  rw [← path_eq_intercalate]
  by_cases h : 4 ≤ fields.length
  · rw [if_pos h]
  · have : fields.getD 3 "" = "" := by
      rw [List.getD_eq_default]; omega
    rw [if_neg h, this]

/-- Putting the nickname, the driver name and the transport type back in front of the
path gives the join of all fields. -/
theorem join_fields (f0 f1 f2 f3 : String) (rest : List String) :
    f0 ++ ":" ++ f1 ++ ":" ++ f2 ++ ":" ++ String.intercalate ":" (f3 :: rest) =
      String.intercalate ":" (f0 :: f1 :: f2 :: f3 :: rest) := by
  simp only [String.intercalate, intercalate_go_eq_foldl, List.foldl_cons]
  rw [← foldl_append_left]

/-! ## Closed forms of the handling of one recent entry -/

/-- A connection string with too few fields leaves the world as it is. -/
theorem submenuEntry_short (env : Env) (fam : Family) (driverset : List String)
    (cstring : String) (w : World)
    (hlen : (env.explode cstring ':').length < fam.minFields) :
    submenuEntry env fam driverset cstring w = w := by
  cases fam <;>
    simp_all [submenuEntry, Family.minFields, AddGeneratorMenu.entry, AddMultimeterMenu.entry,
      AddOscilloscopeMenu.entry, AddPowerSupplyMenu.entry, AddRFGeneratorMenu.entry]

/-- A connection string whose driver is not in the lookup set leaves the world as it is. -/
theorem submenuEntry_unknown (env : Env) (fam : Family) (driverset : List String)
    (cstring : String) (w : World)
    (hdrv : (env.explode cstring ':').getD 1 "" ∉ driverset) :
    submenuEntry env fam driverset cstring w = w := by
  have h : setFind driverset ((env.explode cstring ':').getD 1 "") = false :=
    decide_eq_false hdrv
  cases fam <;>
    simp [-List.getD_eq_getElem?_getD, submenuEntry, AddGeneratorMenu.entry,
      AddMultimeterMenu.entry, AddOscilloscopeMenu.entry, AddPowerSupplyMenu.entry,
      AddRFGeneratorMenu.entry, h]

/-- An offered entry whose item is not activated: the item is the only call. -/
theorem submenuEntry_idle (env : Env) (fam : Family) (driverset : List String)
    (cstring : String) (w : World)
    (hlen : fam.minFields ≤ (env.explode cstring ':').length)
    (hdrv : (env.explode cstring ':').getD 1 "" ∈ driverset)
    (hin : w.answer.1 = false) :
    submenuEntry env fam driverset cstring w =
      { w.answer.2 with
        trace := w.trace ++ [.MenuItem ((env.explode cstring ':').getD 0 "") false] } := by
  have h : setFind driverset ((env.explode cstring ':').getD 1 "") = true :=
    decide_eq_true hdrv
  have ht : w.answer.2.trace = w.trace := by
    unfold World.answer; split <;> rfl
  cases fam <;>
    simp [-List.getD_eq_getElem?_getD, submenuEntry, AddGeneratorMenu.entry,
      AddMultimeterMenu.entry, AddOscilloscopeMenu.entry, AddPowerSupplyMenu.entry,
      AddRFGeneratorMenu.entry, MenuItem, World.log, h, hin, ht] <;>
    intro h' <;> simp [Family.minFields] at hlen <;> omega

/-- An offered entry whose item is activated: the calls made and the resulting world,
by the results of `MakeTransport` and of the driver factory. -/
theorem submenuEntry_selected (env : Env) (fam : Family) (driverset : List String)
    (cstring : String) (w : World)
    (hlen : fam.minFields ≤ (env.explode cstring ':').length)
    (hdrv : (env.explode cstring ':').getD 1 "" ∈ driverset)
    (hin : w.answer.1 = true) :
    submenuEntry env fam driverset cstring w =
      match env.MakeTransport ((env.explode cstring ':').getD 2 "")
        (String.intercalate ":" ((env.explode cstring ':').drop 3)) with
      | none =>
        { w.answer.2 with
          trace := w.trace ++
            [.MenuItem ((env.explode cstring ':').getD 0 "") true,
             .MakeTransport ((env.explode cstring ':').getD 2 "")
               (String.intercalate ":" ((env.explode cstring ':').drop 3)) none] }
      | some t =>
        match env.CreateDriver fam ((env.explode cstring ':').getD 1 "") t with
        | none =>
          { w.answer.2 with
            trace := w.trace ++
              [.MenuItem ((env.explode cstring ':').getD 0 "") true,
               .MakeTransport ((env.explode cstring ':').getD 2 "")
                 (String.intercalate ":" ((env.explode cstring ':').drop 3)) (some t),
               .CreateDriver fam ((env.explode cstring ':').getD 1 "") t none,
               .ShowErrorPopup "Driver error"
                 (fam.driverError ((env.explode cstring ':').getD 1 "")),
               .deleteTransport t] }
        | some inst =>
          { w.answer.2 with
            trace := w.trace ++
              ([.MenuItem ((env.explode cstring ':').getD 0 "") true,
                .MakeTransport ((env.explode cstring ':').getD 2 "")
                  (String.intercalate ":" ((env.explode cstring ':').drop 3)) (some t),
                .CreateDriver fam ((env.explode cstring ':').getD 1 "") t (some inst)] ++
               fam.preparation inst ++
               [.SessionAdd fam
                 { inst with m_nickname := (env.explode cstring ':').getD 0 "" }])
            win := { w.win with
              m_session := w.win.m_session.add fam
                { inst with m_nickname := (env.explode cstring ':').getD 0 "" } } } := by
  have h : setFind driverset ((env.explode cstring ':').getD 1 "") = true :=
    decide_eq_true hdrv
  have ht : w.answer.2.trace = w.trace := by
    unfold World.answer; split <;> rfl
  have hw : w.answer.2.win = w.win := by
    unfold World.answer; split <;> rfl
  generalize hf : env.explode cstring ':' = fields at *
  have hp := path_eq_intercalate fields
  have hp4 := path_eq_intercalate_of_four fields
  cases hm : env.MakeTransport (fields.getD 2 "") (String.intercalate ":" (fields.drop 3)) with
  | none =>
    cases fam <;> simp only [Family.minFields] at hlen <;>
      simp [-List.getD_eq_getElem?_getD, submenuEntry, AddGeneratorMenu.entry,
        AddMultimeterMenu.entry, AddOscilloscopeMenu.entry, AddPowerSupplyMenu.entry,
        AddRFGeneratorMenu.entry, MenuItem, World.log, h, hin, ht, hw, hf,
        Nat.not_lt.mpr hlen, AddGeneratorMenu.selected, AddMultimeterMenu.selected,
        AddOscilloscopeMenu.selected, AddPowerSupplyMenu.selected,
        AddRFGeneratorMenu.selected, MakeTransport, hp, hp4, hm]
  | some t =>
    cases hc : env.CreateDriver fam (fields.getD 1 "") t <;>
      cases fam <;> simp only [Family.minFields] at hlen <;>
      simp only [Env.CreateDriver] at hc <;>
      simp [-List.getD_eq_getElem?_getD, submenuEntry, AddGeneratorMenu.entry,
        AddMultimeterMenu.entry, AddOscilloscopeMenu.entry, AddPowerSupplyMenu.entry,
        AddRFGeneratorMenu.entry, MenuItem, World.log, h, hin, ht, hw, hf,
        Nat.not_lt.mpr hlen, AddGeneratorMenu.selected, AddMultimeterMenu.selected,
        AddOscilloscopeMenu.selected, AddPowerSupplyMenu.selected,
        AddRFGeneratorMenu.selected, MakeTransport, CreateDriver, hp, hp4, ShowErrorPopup,
        deleteTransport, LogDebug, ApplyPreferences, SessionAdd, Family.driverError,
        Family.preparation, Env.CreateDriver, hm, hc]

theorem since_of_trace_eq (w w' : World) (l : List Event) (h : w'.trace = w.trace ++ l) :
    w'.since w = l := by
  simp [World.since, h]

/-- The calls made for an entry that is not offered: none. -/
theorem submenuEntry_since_unknown (env : Env) (fam : Family) (driverset : List String)
    (cstring : String) (w : World)
    (hdrv : (env.explode cstring ':').getD 1 "" ∉ driverset) :
    (submenuEntry env fam driverset cstring w).since w = [] := by
  rw [submenuEntry_unknown env fam driverset cstring w hdrv]
  simp [World.since]

/-- The calls made for an entry that is offered and not activated. -/
theorem submenuEntry_since_idle (env : Env) (fam : Family) (driverset : List String)
    (cstring : String) (w : World)
    (hlen : fam.minFields ≤ (env.explode cstring ':').length)
    (hdrv : (env.explode cstring ':').getD 1 "" ∈ driverset)
    (hin : w.answer.1 = false) :
    (submenuEntry env fam driverset cstring w).since w =
      [.MenuItem ((env.explode cstring ':').getD 0 "") false] := by
  rw [submenuEntry_idle env fam driverset cstring w hlen hdrv hin]
  exact since_of_trace_eq _ _ _ rfl

/-- The calls made for an entry that is offered and activated. -/
theorem submenuEntry_since_selected (env : Env) (fam : Family) (driverset : List String)
    (cstring : String) (w : World)
    (hlen : fam.minFields ≤ (env.explode cstring ':').length)
    (hdrv : (env.explode cstring ':').getD 1 "" ∈ driverset)
    (hin : w.answer.1 = true) :
    (submenuEntry env fam driverset cstring w).since w =
      .MenuItem ((env.explode cstring ':').getD 0 "") true ::
      .MakeTransport ((env.explode cstring ':').getD 2 "")
        (String.intercalate ":" ((env.explode cstring ':').drop 3))
        (env.MakeTransport ((env.explode cstring ':').getD 2 "")
          (String.intercalate ":" ((env.explode cstring ':').drop 3))) ::
      match env.MakeTransport ((env.explode cstring ':').getD 2 "")
          (String.intercalate ":" ((env.explode cstring ':').drop 3)) with
      | none => []
      | some t =>
        .CreateDriver fam ((env.explode cstring ':').getD 1 "") t
          (env.CreateDriver fam ((env.explode cstring ':').getD 1 "") t) ::
        match env.CreateDriver fam ((env.explode cstring ':').getD 1 "") t with
        | none =>
          [.ShowErrorPopup "Driver error"
             (fam.driverError ((env.explode cstring ':').getD 1 "")),
           .deleteTransport t]
        | some inst =>
          fam.preparation inst ++
            [.SessionAdd fam { inst with m_nickname := (env.explode cstring ':').getD 0 "" }] := by
  rw [submenuEntry_selected env fam driverset cstring w hlen hdrv hin]
  cases hm : env.MakeTransport ((env.explode cstring ':').getD 2 "")
      (String.intercalate ":" ((env.explode cstring ':').drop 3)) with
  | none => exact since_of_trace_eq _ _ _ rfl
  | some t =>
    dsimp only
    cases hc : env.CreateDriver fam ((env.explode cstring ':').getD 1 "") t with
    | none => exact since_of_trace_eq _ _ _ rfl
    | some inst => exact since_of_trace_eq _ _ _ (by simp)

theorem minFields_le_four (fam : Family) : fam.minFields ≤ 4 := by
  cases fam <;> simp [Family.minFields]

theorem preparation_cases (fam : Family) (inst : Instrument) :
    (∃ msg, fam.preparation inst = [.LogDebug msg]) ∨
      fam.preparation inst = [.ApplyPreferences inst] := by
  cases fam <;> simp [Family.preparation]

/-! ## C1: the fields of a recent entry -/

/-- C1. When the split of a connection string at ':' yields the fields
`f0, f1, f2, f3, rest...` (at least four), then in each of the five Add submenus every menu
item submitted for the entry is labelled `f0`, every `MakeTransport` call receives the
transport type `f2` and the path `f3 :: rest` joined with ':', every driver factory call is
the one of the family with the driver name `f1`, and every instrument added carries the
nickname `f0`; when the entry is offered and activated that `MakeTransport` call is made;
and nickname, driver, transport type and path joined with ':' give back the join of all
fields, so the colons inside the path are preserved. -/
theorem C1_entry_fields (env : Env) (fam : Family) (driverset : List String)
    (cstring : String) (w : World) (f0 f1 f2 f3 : String) (rest : List String)
    (hf : env.explode cstring ':' = f0 :: f1 :: f2 :: f3 :: rest) :
    (∀ e ∈ (submenuEntry env fam driverset cstring w).since w,
      (∀ label a, e = .MenuItem label a → label = f0) ∧
      (∀ tn p r, e = .MakeTransport tn p r →
        tn = f2 ∧ p = String.intercalate ":" (f3 :: rest)) ∧
      (∀ fam' d t r, e = .CreateDriver fam' d t r → fam' = fam ∧ d = f1) ∧
      (∀ fam' inst, e = .SessionAdd fam' inst → fam' = fam ∧ inst.m_nickname = f0)) ∧
    (f1 ∈ driverset → w.answer.1 = true →
      Event.MakeTransport f2 (String.intercalate ":" (f3 :: rest))
        (env.MakeTransport f2 (String.intercalate ":" (f3 :: rest))) ∈
          (submenuEntry env fam driverset cstring w).since w) ∧
    f0 ++ ":" ++ f1 ++ ":" ++ f2 ++ ":" ++ String.intercalate ":" (f3 :: rest) =
      String.intercalate ":" (f0 :: f1 :: f2 :: f3 :: rest) := by
  have hlen : fam.minFields ≤ (env.explode cstring ':').length := by
    have := minFields_le_four fam
    simp [hf]; omega
  have h0 : (env.explode cstring ':').getD 0 "" = f0 := by simp [hf]
  have h1 : (env.explode cstring ':').getD 1 "" = f1 := by simp [hf]
  have h2 : (env.explode cstring ':').getD 2 "" = f2 := by simp [hf]
  have h3 : (env.explode cstring ':').drop 3 = f3 :: rest := by simp [hf]
  refine ⟨?_, ?_, join_fields f0 f1 f2 f3 rest⟩
  · by_cases hdrv : f1 ∈ driverset
    · cases hin : w.answer.1 with
      | false =>
        rw [submenuEntry_since_idle env fam driverset cstring w hlen (h1 ▸ hdrv) hin, h0]
        simp
      | true =>
        rw [submenuEntry_since_selected env fam driverset cstring w hlen (h1 ▸ hdrv) hin,
          h0, h1, h2, h3]
        cases env.MakeTransport f2 (String.intercalate ":" (f3 :: rest)) with
        | none => simp
        | some t =>
          dsimp only
          cases hc : env.CreateDriver fam f1 t with
          | none =>
            simp
            intros; subst_vars; simp
          | some inst =>
            rcases preparation_cases fam inst with ⟨msg, hp⟩ | hp <;> simp [hp] <;>
              (intros; subst_vars; simp)
    · rw [submenuEntry_since_unknown env fam driverset cstring w (h1 ▸ hdrv)]
      simp
  · intro hdrv hin
    rw [submenuEntry_since_selected env fam driverset cstring w hlen (h1 ▸ hdrv) hin,
      h0, h2, h3]
    simp

/-- A witness of C1: the entry "scope1:lecroy:lan:10.0.0.5:1861", offered and activated in
the Oscilloscope submenu, reaches `MakeTransport` with the path "10.0.0.5:1861". -/
theorem C1_entry_fields_witness :
    exampleEnv.explode "scope1:lecroy:lan:10.0.0.5:1861" ':' =
        ["scope1", "lecroy", "lan", "10.0.0.5", "1861"] ∧
      Event.MakeTransport "lan" "10.0.0.5:1861" (some 7) ∈
        (submenuEntry exampleEnv .Oscilloscope ["lecroy"] "scope1:lecroy:lan:10.0.0.5:1861"
          exampleWorld).since exampleWorld :=
  ⟨by decide,
    (C1_entry_fields exampleEnv .Oscilloscope ["lecroy"] "scope1:lecroy:lan:10.0.0.5:1861"
      exampleWorld "scope1" "lecroy" "lan" "10.0.0.5" ["1861"] (by decide)).2.1
      (by decide) (by decide)⟩

/-! ## C2: entries with fewer than four fields -/

/-- C2, counterexample. The connection string "scope2:lecroy:null" has three fields, and
the Oscilloscope submenu does not skip it: it submits the item "scope2" and, the item being
activated, calls `MakeTransport("null", "")` and the oscilloscope driver factory. -/
theorem C2_counterexample :
    (exampleEnv.explode "scope2:lecroy:null" ':').length < 4 ∧
    AddOscilloscopeMenu exampleEnv [5] [(5, ["scope2:lecroy:null"])]
        { exampleWorld with input := [true, false, true] } =
      some ([(5, ["scope2:lecroy:null"])],
        { exampleWorld with
          input := []
          trace :=
            [.BeginMenu "Oscilloscope" true, .MenuItem "Connect..." false,
             .MenuItem "scope2" true, .MakeTransport "null" "" (some 8),
             .CreateDriver .Oscilloscope "lecroy" 8 none,
             .ShowErrorPopup "Driver error"
               "Failed to create oscilloscope driver of type \"lecroy\"",
             .deleteTransport 8] }) := by
  decide

/-- C2, amended. For a connection string whose split has fewer than four fields, the
Generator, Multimeter, Power Supply and RF Generator submenus skip the entry: the world is
unchanged, so no menu item is offered and neither `MakeTransport` nor a driver factory is
called. The Oscilloscope submenu skips the entry when it has fewer than three fields; an
entry with exactly three fields `f0, f1, f2` is handled with the empty path: when its driver
is in the lookup set and its item is activated, `MakeTransport(f2, "")` is called. -/
theorem C2_short_entries (env : Env) (fam : Family) (driverset : List String)
    (cstring : String) (w : World) (hlen : (env.explode cstring ':').length < 4) :
    (fam ≠ .Oscilloscope → submenuEntry env fam driverset cstring w = w) ∧
    ((env.explode cstring ':').length < 3 →
      submenuEntry env .Oscilloscope driverset cstring w = w) ∧
    (∀ f0 f1 f2, env.explode cstring ':' = [f0, f1, f2] → f1 ∈ driverset →
      w.answer.1 = true →
      ∃ calls, (submenuEntry env .Oscilloscope driverset cstring w).since w =
        .MenuItem f0 true :: .MakeTransport f2 "" (env.MakeTransport f2 "") :: calls) := by
  refine ⟨?_, ?_, ?_⟩
  · intro hfam
    apply submenuEntry_short
    cases fam <;> simp_all [Family.minFields]
  · intro h3
    exact submenuEntry_short env .Oscilloscope driverset cstring w h3
  · intro f0 f1 f2 hf hdrv hin
    have h := submenuEntry_since_selected env .Oscilloscope driverset cstring w
      (by simp [hf, Family.minFields]) (by simpa [hf] using hdrv) hin
    rw [h]
    simp [hf, String.intercalate]

/-- A witness of C2: the Multimeter submenu skips the three-field entry
"dmm:rs_hmc8012:null". -/
theorem C2_short_entries_witness :
    (exampleEnv.explode "dmm:rs_hmc8012:null" ':').length < 4 ∧
      submenuEntry exampleEnv .Multimeter ["rs_hmc8012"] "dmm:rs_hmc8012:null" exampleWorld =
        exampleWorld :=
  ⟨by decide,
    (C2_short_entries exampleEnv .Multimeter ["rs_hmc8012"] "dmm:rs_hmc8012:null" exampleWorld
      (by decide)).1 (by decide)⟩

/-! ## C3: when a selected entry adds an instrument -/

theorem Session.add_ne (s : Session) (fam : Family) (inst : Instrument) :
    s.add fam inst ≠ s := by
  intro h
  have hl := congrArg (fun x => (x.instruments fam).length) h
  cases fam <;> simp [Session.add, Session.instruments] at hl

theorem Session.instruments_add (s : Session) (fam fam' : Family) (inst : Instrument) :
    (s.add fam inst).instruments fam' =
      if fam' = fam then s.instruments fam' ++ [inst] else s.instruments fam' := by
  cases fam <;> cases fam' <;> simp [Session.add, Session.instruments]

/-- C3. For a recent entry that is offered and activated in the Add submenu of a family
(fields `f0`, `f1`, `f2` and the path `path`): the session changes if and only if
`MakeTransport` returns a transport and the driver factory of the family returns an
instrument for the driver name and that transport. In that case the collection of the
family gains exactly that one instrument with its nickname set to `f0`, the other
collections are unchanged, and the only add operation called is the one of the family, on
that instrument. When `MakeTransport` returns nothing, the session is unchanged and no
driver factory is called. -/
theorem C3_instrument_added (env : Env) (fam : Family) (driverset : List String)
    (cstring : String) (w : World) (f0 f1 f2 path : String)
    (hf0 : (env.explode cstring ':').getD 0 "" = f0)
    (hf1 : (env.explode cstring ':').getD 1 "" = f1)
    (hf2 : (env.explode cstring ':').getD 2 "" = f2)
    (hpath : String.intercalate ":" ((env.explode cstring ':').drop 3) = path)
    (hlen : fam.minFields ≤ (env.explode cstring ':').length)
    (hdrv : f1 ∈ driverset) (hin : w.answer.1 = true) :
    ((submenuEntry env fam driverset cstring w).win.m_session ≠ w.win.m_session ↔
      ∃ t inst, env.MakeTransport f2 path = some t ∧ env.CreateDriver fam f1 t = some inst) ∧
    (∀ t inst, env.MakeTransport f2 path = some t → env.CreateDriver fam f1 t = some inst →
      (submenuEntry env fam driverset cstring w).win.m_session =
        w.win.m_session.add fam { inst with m_nickname := f0 } ∧
      (submenuEntry env fam driverset cstring w).win.m_session.instruments fam =
        w.win.m_session.instruments fam ++ [{ inst with m_nickname := f0 }] ∧
      (∀ fam', fam' ≠ fam →
        (submenuEntry env fam driverset cstring w).win.m_session.instruments fam' =
          w.win.m_session.instruments fam') ∧
      (∀ fam' i, Event.SessionAdd fam' i ∈ (submenuEntry env fam driverset cstring w).since w ↔
        fam' = fam ∧ i = { inst with m_nickname := f0 }) ∧
      ((submenuEntry env fam driverset cstring w).since w).count
        (.SessionAdd fam { inst with m_nickname := f0 }) = 1) ∧
    (env.MakeTransport f2 path = none →
      (submenuEntry env fam driverset cstring w).win.m_session = w.win.m_session ∧
      ∀ fam' d t r,
        Event.CreateDriver fam' d t r ∉ (submenuEntry env fam driverset cstring w).since w) := by
  have hdrv' : (env.explode cstring ':').getD 1 "" ∈ driverset := hf1 ▸ hdrv
  have hw : w.answer.2.win = w.win := by
    unfold World.answer; split <;> rfl
  have hS := submenuEntry_since_selected env fam driverset cstring w hlen hdrv' hin
  have hE := submenuEntry_selected env fam driverset cstring w hlen hdrv' hin
  rw [hf0, hf1, hf2, hpath] at hS hE
  cases hm : env.MakeTransport f2 path with
  | none =>
    rw [hm] at hS hE
    simp only at hS hE
    rw [hS, hE]
    simp [hw]
  | some t =>
    rw [hm] at hS hE
    simp only at hS hE
    cases hc : env.CreateDriver fam f1 t with
    | none =>
      rw [hc] at hS hE
      simp only at hS hE
      rw [hS, hE]
      simp [hw]
      refine ⟨by simp [hc], ?_⟩
      intro t' inst' ht'
      subst ht'
      simp [hc]
    | some inst =>
      rw [hc] at hS hE
      simp only at hS hE
      rw [hS, hE]
      have hne := Session.add_ne w.win.m_session fam { inst with m_nickname := f0 }
      refine ⟨by simpa [hc] using hne, ?_, by simp⟩
      intro t' inst' ht' hc'
      cases ht'
      rw [hc] at hc'
      cases hc'
      refine ⟨rfl, by simp [Session.instruments_add], ?_, ?_, ?_⟩
      · intro fam' hne'
        simp [Session.instruments_add, hne']
      · intro fam' i
        rcases preparation_cases fam inst with ⟨msg, hp⟩ | hp <;> simp [hp]
      · rcases preparation_cases fam inst with ⟨msg, hp⟩ | hp <;> simp [hp, List.count_cons]

/-- A witness of C3: activating "scope1:lecroy:lan:10.0.0.5:1861" in the Oscilloscope
submenu adds one oscilloscope with the nickname "scope1". -/
theorem C3_instrument_added_witness :
    (exampleEnv.explode "scope1:lecroy:lan:10.0.0.5:1861" ':').getD 1 "" ∈ ["lecroy"] ∧
      (submenuEntry exampleEnv .Oscilloscope ["lecroy"] "scope1:lecroy:lan:10.0.0.5:1861"
        exampleWorld).win.m_session.instruments .Oscilloscope =
        [{ ptr := 37, m_nickname := "scope1" }] :=
  ⟨by decide,
    ((C3_instrument_added exampleEnv .Oscilloscope ["lecroy"]
      "scope1:lecroy:lan:10.0.0.5:1861" exampleWorld "scope1" "lecroy" "lan" "10.0.0.5:1861"
      (by decide) (by decide) (by decide) (by decide) (by decide) (by decide) (by decide)).2.1
      7 { ptr := 37, m_nickname := "" } (by decide) (by decide)).2.1⟩

/-! ## C4: the driver factory fails -/

theorem driverError_contains (fam : Family) (drivername : String) :
    ∃ pre post, fam.driverError drivername = pre ++ drivername ++ post := by
  cases fam <;> exact ⟨_, _, rfl⟩

/-- C4. When a recent entry is offered and activated in the Add submenu of a family, the
transport is created and the driver factory returns no instrument, then the calls made
are, in this order: the menu item, `MakeTransport`, the driver factory, an error popup
titled "Driver error" whose message contains the driver name, and the release of the
transport. No add operation of the session is called, and apart from the trace and the
consumed ImGui answer the world is unchanged: the window with its session and dialog
tables, the waveform areas, the filter instances and the heap. -/
theorem C4_driver_error (env : Env) (fam : Family) (driverset : List String)
    (cstring : String) (w : World) (f0 f1 f2 path : String) (t : Ptr)
    (hf0 : (env.explode cstring ':').getD 0 "" = f0)
    (hf1 : (env.explode cstring ':').getD 1 "" = f1)
    (hf2 : (env.explode cstring ':').getD 2 "" = f2)
    (hpath : String.intercalate ":" ((env.explode cstring ':').drop 3) = path)
    (hlen : fam.minFields ≤ (env.explode cstring ':').length)
    (hdrv : f1 ∈ driverset) (hin : w.answer.1 = true)
    (hm : env.MakeTransport f2 path = some t) (hc : env.CreateDriver fam f1 t = none) :
    (∃ msg, (∃ pre post, msg = pre ++ f1 ++ post) ∧
      (submenuEntry env fam driverset cstring w).since w =
        [.MenuItem f0 true, .MakeTransport f2 path (some t), .CreateDriver fam f1 t none,
         .ShowErrorPopup "Driver error" msg, .deleteTransport t]) ∧
    (∀ fam' inst,
      Event.SessionAdd fam' inst ∉ (submenuEntry env fam driverset cstring w).since w) ∧
    (submenuEntry env fam driverset cstring w).win = w.win ∧
    (submenuEntry env fam driverset cstring w).areas = w.areas ∧
    (submenuEntry env fam driverset cstring w).filters = w.filters ∧
    (submenuEntry env fam driverset cstring w).heapNext = w.heapNext := by
  have hdrv' : (env.explode cstring ':').getD 1 "" ∈ driverset := hf1 ▸ hdrv
  have hw : w.answer.2.win = w.win ∧ w.answer.2.areas = w.areas ∧
      w.answer.2.filters = w.filters ∧ w.answer.2.heapNext = w.heapNext := by
    unfold World.answer; split <;> simp
  have hS := submenuEntry_since_selected env fam driverset cstring w hlen hdrv' hin
  have hE := submenuEntry_selected env fam driverset cstring w hlen hdrv' hin
  rw [hf0, hf1, hf2, hpath, hm] at hS hE
  simp only [hc] at hS hE
  rw [hS, hE]
  refine ⟨⟨_, driverError_contains fam f1, rfl⟩, by simp, hw.1, hw.2.1, hw.2.2.1, hw.2.2.2⟩

/-- A witness of C4: "scope2:lecroy:null" activated in the Oscilloscope submenu; the
transport 8 is made, the factory fails, and the window is unchanged. -/
theorem C4_driver_error_witness :
    exampleEnv.CreateDriver .Oscilloscope "lecroy" 8 = none ∧
      (submenuEntry exampleEnv .Oscilloscope ["lecroy"] "scope2:lecroy:null" exampleWorld).win =
        exampleWorld.win :=
  ⟨by decide,
    (C4_driver_error exampleEnv .Oscilloscope ["lecroy"] "scope2:lecroy:null" exampleWorld
      "scope2" "lecroy" "null" "" 8 (by decide) (by decide) (by decide) (by decide)
      (by decide) (by decide) (by decide) (by decide) (by decide)).2.2.1⟩

/-! ## C5: preferences are applied to oscilloscopes only -/

/-- C5. When a recent entry is offered and activated in the Add submenu of a family and
both the transport and the instrument are created: in the Oscilloscope submenu the calls
are the menu item, `MakeTransport`, the factory, then `ApplyPreferences` on the instrument
as the factory returned it (its nickname not yet set), then `AddOscilloscope` on the
instrument with the nickname set; in the other four submenus `ApplyPreferences` is not
called at all, and the instrument is added with the nickname set. -/
theorem C5_preferences (env : Env) (fam : Family) (driverset : List String)
    (cstring : String) (w : World) (f0 f1 f2 path : String) (t : Ptr) (inst : Instrument)
    (hf0 : (env.explode cstring ':').getD 0 "" = f0)
    (hf1 : (env.explode cstring ':').getD 1 "" = f1)
    (hf2 : (env.explode cstring ':').getD 2 "" = f2)
    (hpath : String.intercalate ":" ((env.explode cstring ':').drop 3) = path)
    (hlen : fam.minFields ≤ (env.explode cstring ':').length)
    (hdrv : f1 ∈ driverset) (hin : w.answer.1 = true)
    (hm : env.MakeTransport f2 path = some t)
    (hc : env.CreateDriver fam f1 t = some inst) :
    (fam = .Oscilloscope →
      (submenuEntry env fam driverset cstring w).since w =
        [.MenuItem f0 true, .MakeTransport f2 path (some t),
         .CreateDriver .Oscilloscope f1 t (some inst), .ApplyPreferences inst,
         .SessionAdd .Oscilloscope { inst with m_nickname := f0 }]) ∧
    (fam ≠ .Oscilloscope →
      (∀ i, Event.ApplyPreferences i ∉ (submenuEntry env fam driverset cstring w).since w) ∧
      ∃ msg, (submenuEntry env fam driverset cstring w).since w =
        [.MenuItem f0 true, .MakeTransport f2 path (some t),
         .CreateDriver fam f1 t (some inst), .LogDebug msg,
         .SessionAdd fam { inst with m_nickname := f0 }]) := by
  have hdrv' : (env.explode cstring ':').getD 1 "" ∈ driverset := hf1 ▸ hdrv
  have hS := submenuEntry_since_selected env fam driverset cstring w hlen hdrv' hin
  rw [hf0, hf1, hf2, hpath, hm] at hS
  simp only [hc] at hS
  rw [hS]
  cases fam <;> simp [Family.preparation]

/-- A witness of C5: the successful connection of "scope1:lecroy:lan:10.0.0.5:1861" in the
Oscilloscope submenu applies the preferences before the instrument is named and added. -/
theorem C5_preferences_witness :
    exampleEnv.CreateDriver .Oscilloscope "lecroy" 7 = some { ptr := 37, m_nickname := "" } ∧
      (submenuEntry exampleEnv .Oscilloscope ["lecroy"] "scope1:lecroy:lan:10.0.0.5:1861"
        exampleWorld).since exampleWorld =
        [.MenuItem "scope1" true, .MakeTransport "lan" "10.0.0.5:1861" (some 7),
         .CreateDriver .Oscilloscope "lecroy" 7 (some { ptr := 37, m_nickname := "" }),
         .ApplyPreferences { ptr := 37, m_nickname := "" },
         .SessionAdd .Oscilloscope { ptr := 37, m_nickname := "scope1" }] :=
  ⟨by decide,
    (C5_preferences exampleEnv .Oscilloscope ["lecroy"] "scope1:lecroy:lan:10.0.0.5:1861"
      exampleWorld "scope1" "lecroy" "lan" "10.0.0.5:1861" 7 { ptr := 37, m_nickname := "" }
      (by decide) (by decide) (by decide) (by decide) (by decide) (by decide) (by decide)
      (by decide) (by decide)).1 rfl⟩

/-! ## C6: entries are offered by the family of their driver -/

theorem sorted_setEmplace {α : Type} [LinearOrder α] (a : α) (s : List α)
    (hs : s.Sorted (· < ·)) : (setEmplace a s).Sorted (· < ·) := by
  induction s with
  | nil => simp [setEmplace]
  | cons b s ih =>
    have hb := List.sorted_cons.mp hs
    unfold setEmplace
    split_ifs with h1 h2
    · refine List.sorted_cons.mpr ⟨?_, hs⟩
      intro x hx
      rcases List.mem_cons.mp hx with rfl | hx
      · exact h1
      · exact lt_trans h1 (hb.1 x hx)
    · exact hs
    · refine List.sorted_cons.mpr ⟨?_, ih hb.2⟩
      intro x hx
      rcases (mem_setEmplace a x s).mp hx with rfl | hx
      · exact lt_of_le_of_ne (not_lt.mp h1) (Ne.symm h2)
      · exact hb.1 x hx

theorem mem_foldl_setEmplace {α : Type} [LinearOrder α] (l acc : List α) (x : α) :
    x ∈ l.foldl (fun set s => setEmplace s set) acc ↔ x ∈ acc ∨ x ∈ l := by
  induction l generalizing acc with
  | nil => simp
  | cons a l ih =>
    simp only [List.foldl_cons, ih, mem_setEmplace, List.mem_cons]
    tauto

theorem sorted_foldl_setEmplace {α : Type} [LinearOrder α] (l acc : List α)
    (hacc : acc.Sorted (· < ·)) :
    (l.foldl (fun set s => setEmplace s set) acc).Sorted (· < ·) := by
  induction l generalizing acc with
  | nil => simpa using hacc
  | cons a l ih => exact ih _ (sorted_setEmplace a acc hacc)

theorem mem_makeDriverSet (drivers : List String) (x : String) :
    x ∈ makeDriverSet drivers ↔ x ∈ drivers := by
  simp [makeDriverSet, mem_foldl_setEmplace]

theorem sorted_makeDriverSet (drivers : List String) :
    (makeDriverSet drivers).Sorted (· < ·) :=
  sorted_foldl_setEmplace drivers [] List.sorted_nil

theorem makeDriverSet_congr (l₁ l₂ : List String) (h : ∀ x, x ∈ l₁ ↔ x ∈ l₂) :
    makeDriverSet l₁ = makeDriverSet l₂ := by
  apply List.eq_of_perm_of_sorted _ (sorted_makeDriverSet l₁) (sorted_makeDriverSet l₂)
  rw [List.perm_ext_iff_of_nodup (sorted_makeDriverSet l₁).nodup (sorted_makeDriverSet l₂).nodup]
  intro x
  rw [mem_makeDriverSet, mem_makeDriverSet, h]

/-- C6. Each Add submenu runs its recent entries against the lookup set built from the
`EnumDrivers` of its family. An entry that passes the field-count guard of the submenu is
offered as a menu item (labelled with its field 0) if and only if its driver name (field 1)
is one of the enumerated names. The lookup set contains exactly the enumerated names, each
once, and is the same for two enumerations with the same names, whatever their order and
repetitions. An entry whose driver is enumerated by no family is offered by no submenu:
every submenu leaves the world unchanged. -/
theorem C6_offered_iff_enumerated (env : Env) (fam : Family) (cstring : String) (w : World)
    (hlen : fam.minFields ≤ (env.explode cstring ':').length) :
    (∀ timestamps reverseMap w₀, w₀.answer.1 = true →
      ∃ w₁, submenu env fam timestamps reverseMap w₀ =
        recentInstruments (submenuEntry env fam (makeDriverSet (env.EnumDrivers fam)))
          timestamps (timestamps.length + 1) (lastIndexAsInt timestamps.length)
          (reverseMap, w₁)) ∧
    ((∃ a, Event.MenuItem ((env.explode cstring ':').getD 0 "") a ∈
        (submenuEntry env fam (makeDriverSet (env.EnumDrivers fam)) cstring w).since w) ↔
      (env.explode cstring ':').getD 1 "" ∈ env.EnumDrivers fam) ∧
    ((∃ label a, Event.MenuItem label a ∈
        (submenuEntry env fam (makeDriverSet (env.EnumDrivers fam)) cstring w).since w) ↔
      (env.explode cstring ':').getD 1 "" ∈ env.EnumDrivers fam) ∧
    (∀ drivers x, x ∈ makeDriverSet drivers ↔ x ∈ drivers) ∧
    (∀ drivers, (makeDriverSet drivers).Nodup) ∧
    (∀ drivers₁ drivers₂, (∀ x, x ∈ drivers₁ ↔ x ∈ drivers₂) →
      makeDriverSet drivers₁ = makeDriverSet drivers₂) ∧
    ((∀ fam', (env.explode cstring ':').getD 1 "" ∉ env.EnumDrivers fam') →
      ∀ fam', submenuEntry env fam' (makeDriverSet (env.EnumDrivers fam')) cstring w = w) := by
  refine ⟨?_, ?_, ?_, mem_makeDriverSet, fun d => (sorted_makeDriverSet d).nodup,
    makeDriverSet_congr, ?_⟩
  · intro timestamps reverseMap w₀ h₀
    cases fam <;>
      simp only [submenu, AddGeneratorMenu, AddMultimeterMenu, AddOscilloscopeMenu,
        AddPowerSupplyMenu, AddRFGeneratorMenu, BeginMenu, h₀, if_true, submenuEntry,
        Env.EnumDrivers] <;>
      exact ⟨_, rfl⟩
  · by_cases hdrv : (env.explode cstring ':').getD 1 "" ∈ env.EnumDrivers fam
    · have hdrv' := (mem_makeDriverSet _ _).mpr hdrv
      cases hin : w.answer.1 with
      | false =>
        rw [submenuEntry_since_idle env fam _ cstring w hlen hdrv' hin]
        exact iff_of_true ⟨false, List.mem_cons_self _ _⟩ hdrv
      | true =>
        rw [submenuEntry_since_selected env fam _ cstring w hlen hdrv' hin]
        exact iff_of_true ⟨true, List.mem_cons_self _ _⟩ hdrv
    · have hdrv' : (env.explode cstring ':').getD 1 "" ∉ makeDriverSet (env.EnumDrivers fam) :=
        fun h => hdrv ((mem_makeDriverSet _ _).mp h)
      rw [submenuEntry_since_unknown env fam _ cstring w hdrv']
      exact iff_of_false (by rintro ⟨a, h⟩; cases h) hdrv
  · by_cases hdrv : (env.explode cstring ':').getD 1 "" ∈ env.EnumDrivers fam
    · have hdrv' := (mem_makeDriverSet _ _).mpr hdrv
      cases hin : w.answer.1 with
      | false =>
        rw [submenuEntry_since_idle env fam _ cstring w hlen hdrv' hin]
        exact iff_of_true ⟨_, false, List.mem_cons_self _ _⟩ hdrv
      | true =>
        rw [submenuEntry_since_selected env fam _ cstring w hlen hdrv' hin]
        exact iff_of_true ⟨_, true, List.mem_cons_self _ _⟩ hdrv
    · have hdrv' : (env.explode cstring ':').getD 1 "" ∉ makeDriverSet (env.EnumDrivers fam) :=
        fun h => hdrv ((mem_makeDriverSet _ _).mp h)
      rw [submenuEntry_since_unknown env fam _ cstring w hdrv']
      exact iff_of_false (by rintro ⟨l, a, h⟩; cases h) hdrv
  · intro hnone fam'
    apply submenuEntry_unknown
    exact fun h => hnone fam' ((mem_makeDriverSet _ _).mp h)

/-- A witness of C6: "scope1:lecroy:lan:10.0.0.5:1861" is offered by the Oscilloscope
submenu, whose family enumerates the driver "lecroy". -/
theorem C6_offered_iff_enumerated_witness :
    Family.Oscilloscope.minFields ≤
        (exampleEnv.explode "scope1:lecroy:lan:10.0.0.5:1861" ':').length ∧
      ((∃ a, Event.MenuItem
          ((exampleEnv.explode "scope1:lecroy:lan:10.0.0.5:1861" ':').getD 0 "") a ∈
          (submenuEntry exampleEnv .Oscilloscope
            (makeDriverSet (exampleEnv.EnumDrivers .Oscilloscope))
            "scope1:lecroy:lan:10.0.0.5:1861" exampleWorld).since exampleWorld) ↔
        (exampleEnv.explode "scope1:lecroy:lan:10.0.0.5:1861" ':').getD 1 "" ∈
          exampleEnv.EnumDrivers .Oscilloscope) :=
  ⟨by decide,
    (C6_offered_iff_enumerated exampleEnv .Oscilloscope "scope1:lecroy:lan:10.0.0.5:1861"
      exampleWorld (by decide)).2.1⟩

/-! ## C8: `AddDialog` -/

/-- The shape of the window after `AddDialog`: four fields are rewritten, by the subtype
of the dialog, and the others are kept. -/
theorem AddDialog_eq (env : Env) (dlg : Ptr) (mw : MainWindow) :
    AddDialog env dlg mw =
      { mw with
        m_dialogs := setEmplace dlg mw.m_dialogs
        m_meterDialogs :=
          if env.isMultimeterDialog dlg then
            mapAssign mw.m_meterDialogs (env.MultimeterDialog_GetMeter dlg) dlg
          else mw.m_meterDialogs
        m_generatorDialogs :=
          if env.isFunctionGeneratorDialog dlg then
            mapAssign mw.m_generatorDialogs (env.FunctionGeneratorDialog_GetGenerator dlg) dlg
          else mw.m_generatorDialogs
        m_rfgeneratorDialogs :=
          if env.isRFGeneratorDialog dlg then
            mapAssign mw.m_rfgeneratorDialogs (env.RFGeneratorDialog_GetGenerator dlg) dlg
          else mw.m_rfgeneratorDialogs } := by
  unfold AddDialog
  cases env.isMultimeterDialog dlg <;> cases env.isFunctionGeneratorDialog dlg <;>
    cases env.isRFGeneratorDialog dlg <;> simp

/-- A value found in a table after an assignment is the assigned value or was there
before. -/
theorem mapFind_mapAssign_cases {κ ν : Type} [LinearOrder κ] (m : List (κ × ν)) (k j : κ)
    (v d : ν) (h : mapFind (mapAssign m k v) j = some d) :
    (j = k ∧ d = v) ∨ mapFind m j = some d := by
  by_cases hj : j = k
  · subst hj
    rw [mapFind_mapAssign_self] at h
    exact Or.inl ⟨rfl, (Option.some.inj h).symm⟩
  · rw [mapFind_mapAssign_ne m k j v hj] at h
    exact Or.inr h

/-- C8. `AddDialog(dlg)` always inserts `dlg` into `m_dialogs`, whose other members are
kept. It assigns `m_meterDialogs[meter of dlg] = dlg` if `dlg` is a `MultimeterDialog` and
otherwise leaves `m_meterDialogs` as it is; likewise `m_generatorDialogs` for a
`FunctionGeneratorDialog` and `m_rfgeneratorDialogs` for an `RFGeneratorDialog`. An
assignment changes the entry of that one key only. Every other field of the window is
unchanged. Every dialog that a table holds after the call and did not hold under that key
before is a member of `m_dialogs`. -/
theorem C8_AddDialog_frame (env : Env) (dlg : Ptr) (mw : MainWindow) :
    dlg ∈ (AddDialog env dlg mw).m_dialogs ∧
    (∀ d, d ∈ (AddDialog env dlg mw).m_dialogs ↔ d = dlg ∨ d ∈ mw.m_dialogs) ∧
    (AddDialog env dlg mw).m_meterDialogs =
      (if env.isMultimeterDialog dlg then
        mapAssign mw.m_meterDialogs (env.MultimeterDialog_GetMeter dlg) dlg
      else mw.m_meterDialogs) ∧
    (AddDialog env dlg mw).m_generatorDialogs =
      (if env.isFunctionGeneratorDialog dlg then
        mapAssign mw.m_generatorDialogs (env.FunctionGeneratorDialog_GetGenerator dlg) dlg
      else mw.m_generatorDialogs) ∧
    (AddDialog env dlg mw).m_rfgeneratorDialogs =
      (if env.isRFGeneratorDialog dlg then
        mapAssign mw.m_rfgeneratorDialogs (env.RFGeneratorDialog_GetGenerator dlg) dlg
      else mw.m_rfgeneratorDialogs) ∧
    (∀ (m : List (Ptr × Ptr)) (k : Ptr),
      mapFind (mapAssign m k dlg) k = some dlg ∧
      ∀ j, j ≠ k → mapFind (mapAssign m k dlg) j = mapFind m j) ∧
    AddDialog env dlg mw =
      { mw with
        m_dialogs := (AddDialog env dlg mw).m_dialogs
        m_meterDialogs := (AddDialog env dlg mw).m_meterDialogs
        m_generatorDialogs := (AddDialog env dlg mw).m_generatorDialogs
        m_rfgeneratorDialogs := (AddDialog env dlg mw).m_rfgeneratorDialogs } ∧
    (∀ k d,
      (mapFind (AddDialog env dlg mw).m_meterDialogs k = some d ∧
          mapFind mw.m_meterDialogs k ≠ some d) ∨
        (mapFind (AddDialog env dlg mw).m_generatorDialogs k = some d ∧
          mapFind mw.m_generatorDialogs k ≠ some d) ∨
        (mapFind (AddDialog env dlg mw).m_rfgeneratorDialogs k = some d ∧
          mapFind mw.m_rfgeneratorDialogs k ≠ some d) →
      d ∈ (AddDialog env dlg mw).m_dialogs) := by
  have hmem : ∀ d, d ∈ (AddDialog env dlg mw).m_dialogs ↔ d = dlg ∨ d ∈ mw.m_dialogs := by
    intro d
    rw [AddDialog_eq]
    exact mem_setEmplace dlg d mw.m_dialogs
  have hstored : ∀ (b : Bool) (m : List (Ptr × Ptr)) (key k d : Ptr),
      mapFind (if b then mapAssign m key dlg else m) k = some d → mapFind m k ≠ some d →
        d = dlg := by
    intro b m key k d h hne
    cases b with
    | false => exact absurd h hne
    | true =>
      rcases mapFind_mapAssign_cases m key k dlg d h with ⟨_, hd⟩ | hold
      · exact hd
      · exact absurd hold hne
  refine ⟨(hmem dlg).mpr (Or.inl rfl), hmem, ?_, ?_, ?_, ?_, ?_, ?_⟩
  · rw [AddDialog_eq]
  · rw [AddDialog_eq]
  · rw [AddDialog_eq]
  · intro m k
    exact ⟨mapFind_mapAssign_self m k dlg, fun j hj => mapFind_mapAssign_ne m k j dlg hj⟩
  · rw [AddDialog_eq]
  · intro k d h
    refine (hmem d).mpr (Or.inl ?_)
    rw [AddDialog_eq] at h
    rcases h with ⟨h, hne⟩ | ⟨h, hne⟩ | ⟨h, hne⟩
    · exact hstored _ _ _ k d h hne
    · exact hstored _ _ _ k d h hne
    · exact hstored _ _ _ k d h hne

/-- A witness of C8: adding the multimeter dialog 501 of meter 27 to the empty window
registers it in `m_dialogs` and in `m_meterDialogs`, and in no other table. -/
theorem C8_AddDialog_frame_witness :
    501 ∈ (AddDialog exampleEnv 501 emptyWindow).m_dialogs ∧
      (AddDialog exampleEnv 501 emptyWindow).m_meterDialogs = [(27, 501)] ∧
      (AddDialog exampleEnv 501 emptyWindow).m_generatorDialogs = [] :=
  ⟨(C8_AddDialog_frame exampleEnv 501 emptyWindow).1,
    (C8_AddDialog_frame exampleEnv 501 emptyWindow).2.2.1,
    (C8_AddDialog_frame exampleEnv 501 emptyWindow).2.2.2.1⟩

/-! ## C7: the Window | Analyzer menu -/

theorem answer_trace (w : World) : w.answer.2.trace = w.trace := by
  unfold World.answer; split <;> rfl

theorem answer_win (w : World) : w.answer.2.win = w.win := by
  unfold World.answer; split <;> rfl

theorem answer_filters (w : World) : w.answer.2.filters = w.filters := by
  unfold World.answer; split <;> rfl

theorem answer_heapNext (w : World) : w.answer.2.heapNext = w.heapNext := by
  unfold World.answer; split <;> rfl

theorem answer_areas (w : World) : w.answer.2.areas = w.areas := by
  unfold World.answer; split <;> rfl

/-- A filter that is no packet decoder, or whose decoder has a dialog, is passed over. -/
theorem analyzerEntry_hidden (env : Env) (f : Ptr) (w : World)
    (h : env.isPacketDecoder f = false ∨ mapFind w.win.m_protocolAnalyzerDialogs f ≠ none) :
    WindowAnalyzerMenu.entry env f w = w := by
  unfold WindowAnalyzerMenu.entry
  rcases h with h | h
  · simp [h]
  · cases hf : mapFind w.win.m_protocolAnalyzerDialogs f with
    | none => exact absurd hf h
    | some d => simp

/-- A decoder without a dialog whose item is not activated. -/
theorem analyzerEntry_idle (env : Env) (f : Ptr) (w : World)
    (hpd : env.isPacketDecoder f = true)
    (hnone : mapFind w.win.m_protocolAnalyzerDialogs f = none) (hin : w.answer.1 = false) :
    WindowAnalyzerMenu.entry env f w =
      { w.answer.2 with trace := w.trace ++ [.MenuItem (env.GetDisplayName f) false] } := by
  simp [WindowAnalyzerMenu.entry, hpd, hnone, MenuItem, hin, World.log, answer_trace]

/-- A decoder without a dialog whose item is activated. -/
theorem analyzerEntry_selected (env : Env) (f : Ptr) (w : World)
    (hpd : env.isPacketDecoder f = true)
    (hnone : mapFind w.win.m_protocolAnalyzerDialogs f = none) (hin : w.answer.1 = true) :
    WindowAnalyzerMenu.entry env f w =
      { w.answer.2 with
        trace := w.trace ++
          [.MenuItem (env.GetDisplayName f) true, .make_ProtocolAnalyzerDialog f w.heapNext]
        heapNext := w.heapNext + 1
        win := AddDialog env w.heapNext
          { w.win with
            m_protocolAnalyzerDialogs :=
              mapAssign w.win.m_protocolAnalyzerDialogs f w.heapNext } } := by
  simp [WindowAnalyzerMenu.entry, hpd, hnone, MenuItem, hin, World.log, answer_trace, alloc,
    answer_win, answer_heapNext]

theorem AnalyzerStep.comp {pd : Ptr} {s₁ s₂ : World → World} (h₁ : AnalyzerStep pd s₁)
    (h₂ : AnalyzerStep pd s₂) : AnalyzerStep pd (fun w => s₂ (s₁ w)) := by
  intro w
  obtain ⟨l₁, ht₁, hk₁, hn₁, hr₁⟩ := h₁ w
  obtain ⟨l₂, ht₂, hk₂, hn₂, hr₂⟩ := h₂ (s₁ w)
  refine ⟨l₁ ++ l₂, by simp [ht₂, ht₁], ?_, ?_, fun h => hr₂ (hr₁ h)⟩
  · intro h
    obtain ⟨h1, c1⟩ := hk₁ h
    obtain ⟨h2, c2⟩ := hk₂ h1
    exact ⟨h2, by simp [List.countP_append, c1, c2]⟩
  · intro h
    rcases hn₁ h with c1 | ⟨c1, h1⟩
    · by_cases hmid : mapFind (s₁ w).win.m_protocolAnalyzerDialogs pd = none
      · rcases hn₂ hmid with c2 | ⟨c2, h2⟩
        · exact Or.inl (by simp [List.countP_append, c1, c2])
        · exact Or.inr ⟨by simp [List.countP_append, c1, c2], h2⟩
      · obtain ⟨h2, c2⟩ := hk₂ hmid
        exact Or.inl (by simp [List.countP_append, c1, c2])
    · obtain ⟨h2, c2⟩ := hk₂ h1
      exact Or.inr ⟨by simp [List.countP_append, c1, c2], h2⟩

theorem AnalyzerStep.id (pd : Ptr) : AnalyzerStep pd (fun w => w) := by
  intro w
  exact ⟨[], by simp, fun h => ⟨h, rfl⟩, fun _ => Or.inl rfl, fun h => h⟩

theorem AnalyzerStep.foldl {pd : Ptr} {α : Type} (f : α → World → World)
    (hf : ∀ x, AnalyzerStep pd (f x)) (xs : List α) :
    AnalyzerStep pd (fun w => xs.foldl (fun w x => f x w) w) := by
  induction xs with
  | nil => exact AnalyzerStep.id pd
  | cons x xs ih => exact AnalyzerStep.comp (hf x) ih

/-- A step that only touches the ImGui answers, the trace (without creating a dialog) and
the filter set. -/
theorem AnalyzerStep.of_win_eq {pd : Ptr} (step : World → World) (calls : World → List Event)
    (ht : ∀ w, (step w).trace = w.trace ++ calls w) (hw : ∀ w, (step w).win = w.win)
    (hc : ∀ w, (calls w).countP (Event.createsAnalyzerFor pd) = 0) :
    AnalyzerStep pd step := by
  intro w
  refine ⟨calls w, ht w, ?_, ?_, ?_⟩
  · intro h
    rw [hw]
    exact ⟨h, hc w⟩
  · intro _
    exact Or.inl (hc w)
  · intro h
    unfold analyzersRegistered
    rw [hw]
    exact h

theorem analyzerEntry_step (env : Env) (pd f : Ptr) :
    AnalyzerStep pd (WindowAnalyzerMenu.entry env f) := by
  intro w
  by_cases hh : env.isPacketDecoder f = false ∨ mapFind w.win.m_protocolAnalyzerDialogs f ≠ none
  · rw [analyzerEntry_hidden env f w hh]
    exact ⟨[], by simp, fun h => ⟨h, rfl⟩, fun _ => Or.inl rfl, fun h => h⟩
  · have hpd : env.isPacketDecoder f = true := by
      cases h : env.isPacketDecoder f
      · exact absurd (Or.inl h) hh
      · rfl
    have hnone : mapFind w.win.m_protocolAnalyzerDialogs f = none := by
      by_contra h
      exact hh (Or.inr h)
    cases hin : w.answer.1 with
    | false =>
      rw [analyzerEntry_idle env f w hpd hnone hin]
      refine ⟨_, rfl, ?_, ?_, ?_⟩
      · intro h
        simp only [answer_win]
        exact ⟨h, by simp [Event.createsAnalyzerFor]⟩
      · intro _
        exact Or.inl (by simp [Event.createsAnalyzerFor])
      · intro h
        unfold analyzersRegistered
        simp only [answer_win]
        exact h
    | true =>
      rw [analyzerEntry_selected env f w hpd hnone hin]
      refine ⟨_, rfl, ?_, ?_, ?_⟩
      · intro h
        have hne : pd ≠ f := by
          rintro rfl
          exact h hnone
        simp only [AddDialog_eq]
        refine ⟨?_, ?_⟩
        · rw [mapFind_mapAssign_ne _ _ _ _ hne]
          exact h
        · simp [Event.createsAnalyzerFor, Ne.symm hne]
      · intro h
        by_cases hpf : f = pd
        · subst hpf
          refine Or.inr ⟨by simp [Event.createsAnalyzerFor], ?_⟩
          simp only [AddDialog_eq]
          rw [mapFind_mapAssign_self]
          simp
        · exact Or.inl (by simp [Event.createsAnalyzerFor, hpf])
      · intro h p d hfind
        simp only [AddDialog_eq] at hfind ⊢
        rw [mem_setEmplace]
        rcases mapFind_mapAssign_cases _ _ _ _ _ hfind with ⟨_, hd⟩ | hold
        · exact Or.inl hd
        · exact Or.inr (h p d hold)

theorem analyzerMenu_step (env : Env) (pd : Ptr) : AnalyzerStep pd (WindowAnalyzerMenu env) := by
  have hb : AnalyzerStep pd (fun w => (BeginMenu "Analyzer" w).2) :=
    AnalyzerStep.of_win_eq _ (fun w => [.BeginMenu "Analyzer" w.answer.1])
      (fun w => by simp [BeginMenu, World.log, answer_trace])
      (fun w => by simp [BeginMenu, World.log, answer_win])
      (fun w => by simp [Event.createsAnalyzerFor])
  intro w
  unfold WindowAnalyzerMenu
  cases hopen : (BeginMenu "Analyzer" w).1 with
  | false =>
    simp only [hopen, Bool.false_eq_true, if_false]
    exact hb w
  | true =>
    simp only [hopen, if_true]
    exact AnalyzerStep.comp hb
      (AnalyzerStep.foldl (fun f => WindowAnalyzerMenu.entry env f)
        (analyzerEntry_step env pd) (BeginMenu "Analyzer" w).2.filters) w

theorem analyzerFrames_step (env : Env) (pd : Ptr) (frames : List (List Bool × List Ptr)) :
    AnalyzerStep pd (analyzerFrames env frames) := by
  have hset : ∀ frame : List Bool × List Ptr,
      AnalyzerStep pd (fun w : World => { w with input := frame.1, filters := frame.2 }) :=
    fun frame => AnalyzerStep.of_win_eq _ (fun _ => []) (fun w => by simp) (fun w => rfl)
      (fun w => rfl)
  exact AnalyzerStep.foldl
    (fun frame w => WindowAnalyzerMenu env { w with input := frame.1, filters := frame.2 })
    (fun frame => AnalyzerStep.comp (hset frame) (analyzerMenu_step env pd)) frames

/-- What one filter contributes to the items of the Analyzer menu, and that it leaves the
dialogs of the other decoders alone. -/
theorem analyzerEntry_offer (env : Env) (f : Ptr) (w : World) :
    ∃ calls, (WindowAnalyzerMenu.entry env f w).trace = w.trace ++ calls ∧
      offeredLabels calls =
        (if env.isPacketDecoder f && (mapFind w.win.m_protocolAnalyzerDialogs f).isNone then
          [env.GetDisplayName f] else []) ∧
      ∀ g, g ≠ f →
        mapFind (WindowAnalyzerMenu.entry env f w).win.m_protocolAnalyzerDialogs g =
          mapFind w.win.m_protocolAnalyzerDialogs g := by
  by_cases hh : env.isPacketDecoder f = false ∨ mapFind w.win.m_protocolAnalyzerDialogs f ≠ none
  · rw [analyzerEntry_hidden env f w hh]
    refine ⟨[], by simp, ?_, fun _ _ => rfl⟩
    rcases hh with h | h
    · simp [h, offeredLabels]
    · cases hf : mapFind w.win.m_protocolAnalyzerDialogs f with
      | none => exact absurd hf h
      | some d => simp [offeredLabels]
  · have hpd : env.isPacketDecoder f = true := by
      cases h : env.isPacketDecoder f
      · exact absurd (Or.inl h) hh
      · rfl
    have hnone : mapFind w.win.m_protocolAnalyzerDialogs f = none := by
      by_contra h
      exact hh (Or.inr h)
    cases hin : w.answer.1 with
    | false =>
      rw [analyzerEntry_idle env f w hpd hnone hin]
      refine ⟨_, rfl, by simp [offeredLabels, Event.itemLabel, hpd, hnone], ?_⟩
      intro g _
      simp only [answer_win]
    | true =>
      rw [analyzerEntry_selected env f w hpd hnone hin]
      refine ⟨_, rfl, by simp [offeredLabels, Event.itemLabel, hpd, hnone], ?_⟩
      intro g hg
      simp only [AddDialog_eq]
      exact mapFind_mapAssign_ne _ _ _ _ hg

theorem analyzerFold_offer (env : Env) (fs : List Ptr) (w : World) (hnd : fs.Nodup) :
    ∃ calls, (fs.foldl (fun w f => WindowAnalyzerMenu.entry env f w) w).trace =
        w.trace ++ calls ∧
      offeredLabels calls =
        (fs.filter (fun f => env.isPacketDecoder f &&
          (mapFind w.win.m_protocolAnalyzerDialogs f).isNone)).map env.GetDisplayName := by
  induction fs generalizing w with
  | nil => exact ⟨[], by simp, by simp [offeredLabels]⟩
  | cons f rest ih =>
    obtain ⟨hf, hrest⟩ := List.nodup_cons.mp hnd
    obtain ⟨l₁, ht₁, ho₁, hk₁⟩ := analyzerEntry_offer env f w
    obtain ⟨l₂, ht₂, ho₂⟩ := ih (WindowAnalyzerMenu.entry env f w) hrest
    refine ⟨l₁ ++ l₂, by simp [ht₂, ht₁], ?_⟩
    have hfilter :
        rest.filter (fun g => env.isPacketDecoder g &&
          (mapFind (WindowAnalyzerMenu.entry env f w).win.m_protocolAnalyzerDialogs g).isNone) =
        rest.filter (fun g => env.isPacketDecoder g &&
          (mapFind w.win.m_protocolAnalyzerDialogs g).isNone) := by
      apply List.filter_congr
      intro g hg
      have hne : g ≠ f := by
        rintro rfl
        exact hf hg
      rw [hk₁ g hne]
    rw [hfilter] at ho₂
    unfold offeredLabels at ho₁ ho₂ ⊢
    rw [List.filterMap_append, ho₁, ho₂, List.filter_cons]
    split <;> simp

/-- C7. The Window | Analyzer menu, when open, submits exactly one item for each live
filter instance that is a packet decoder and has no entry in `m_protocolAnalyzerDialogs`,
in the order of the instances, and none for the others. A filter gets an item if and only
if it is a packet decoder without an entry. Activating the item of a decoder creates one
`ProtocolAnalyzerDialog`, records it under the decoder in `m_protocolAnalyzerDialogs` and
registers it in `m_dialogs`. Over any sequence of runs of the menu: a decoder that has an
entry keeps it and no dialog is created for it, at most one dialog is ever created for a
decoder, and if every dialog in `m_protocolAnalyzerDialogs` is in `m_dialogs` before the
runs then that holds after them. -/
theorem C7_analyzer_menu (env : Env) :
    (∀ w : World, w.answer.1 = true → w.filters.Nodup →
      offeredLabels ((WindowAnalyzerMenu env w).since w) =
        (w.filters.filter (fun f => env.isPacketDecoder f &&
          (mapFind w.win.m_protocolAnalyzerDialogs f).isNone)).map env.GetDisplayName) ∧
    (∀ (f : Ptr) (w : World),
      (∃ a, Event.MenuItem (env.GetDisplayName f) a ∈
          (WindowAnalyzerMenu.entry env f w).since w) ↔
        env.isPacketDecoder f = true ∧ mapFind w.win.m_protocolAnalyzerDialogs f = none) ∧
    (∀ (f : Ptr) (w : World), env.isPacketDecoder f = true →
      mapFind w.win.m_protocolAnalyzerDialogs f = none → w.answer.1 = true →
      (WindowAnalyzerMenu.entry env f w).since w =
        [.MenuItem (env.GetDisplayName f) true, .make_ProtocolAnalyzerDialog f w.heapNext] ∧
      mapFind (WindowAnalyzerMenu.entry env f w).win.m_protocolAnalyzerDialogs f =
        some w.heapNext ∧
      w.heapNext ∈ (WindowAnalyzerMenu.entry env f w).win.m_dialogs) ∧
    (∀ (frames : List (List Bool × List Ptr)) (w : World) (pd : Ptr),
      mapFind w.win.m_protocolAnalyzerDialogs pd ≠ none →
      mapFind (analyzerFrames env frames w).win.m_protocolAnalyzerDialogs pd ≠ none ∧
      ∀ d, Event.make_ProtocolAnalyzerDialog pd d ∉ (analyzerFrames env frames w).since w) ∧
    (∀ (frames : List (List Bool × List Ptr)) (w : World) (pd : Ptr),
      ((analyzerFrames env frames w).since w).countP (Event.createsAnalyzerFor pd) ≤ 1) ∧
    (∀ (frames : List (List Bool × List Ptr)) (w : World),
      analyzersRegistered w → analyzersRegistered (analyzerFrames env frames w)) := by
  refine ⟨?_, ?_, ?_, ?_, ?_, ?_⟩
  · intro w hopen hnd
    have hb : (BeginMenu "Analyzer" w).1 = true := hopen
    obtain ⟨l, ht, ho⟩ := analyzerFold_offer env (BeginMenu "Analyzer" w).2.filters
      (BeginMenu "Analyzer" w).2 (by simpa [BeginMenu, World.log, answer_filters] using hnd)
    have hrun : (WindowAnalyzerMenu env w).trace =
        w.trace ++ (.BeginMenu "Analyzer" true :: l) := by
      unfold WindowAnalyzerMenu
      simp only [hb, if_true]
      rw [ht]
      simp [BeginMenu, World.log, answer_trace, hopen]
    rw [since_of_trace_eq _ _ _ hrun]
    simp only [BeginMenu, World.log, answer_filters, answer_win] at ho
    unfold offeredLabels at ho ⊢
    simpa [Event.itemLabel] using ho
  · intro f w
    by_cases hh : env.isPacketDecoder f = false ∨
        mapFind w.win.m_protocolAnalyzerDialogs f ≠ none
    · rw [analyzerEntry_hidden env f w hh]
      refine iff_of_false (by simp [World.since]) ?_
      rintro ⟨h1, h2⟩
      rcases hh with h | h
      · rw [h1] at h; cases h
      · exact h h2
    · have hpd : env.isPacketDecoder f = true := by
        cases h : env.isPacketDecoder f
        · exact absurd (Or.inl h) hh
        · rfl
      have hnone : mapFind w.win.m_protocolAnalyzerDialogs f = none := by
        by_contra h
        exact hh (Or.inr h)
      cases hin : w.answer.1 with
      | false =>
        rw [analyzerEntry_idle env f w hpd hnone hin, since_of_trace_eq _ _ _ rfl]
        exact iff_of_true ⟨false, List.mem_cons_self _ _⟩ ⟨hpd, hnone⟩
      | true =>
        rw [analyzerEntry_selected env f w hpd hnone hin, since_of_trace_eq _ _ _ rfl]
        exact iff_of_true ⟨true, List.mem_cons_self _ _⟩ ⟨hpd, hnone⟩
  · intro f w hpd hnone hin
    rw [analyzerEntry_selected env f w hpd hnone hin]
    refine ⟨since_of_trace_eq _ _ _ rfl, ?_, ?_⟩
    · simp only [AddDialog_eq]
      exact mapFind_mapAssign_self _ _ _
    · simp only [AddDialog_eq]
      exact (mem_setEmplace _ _ _).mpr (Or.inl rfl)
  · intro frames w pd h
    obtain ⟨l, ht, hk, _, _⟩ := analyzerFrames_step env pd frames w
    obtain ⟨h1, c1⟩ := hk h
    refine ⟨h1, ?_⟩
    intro d hd
    rw [since_of_trace_eq _ _ _ ht] at hd
    have := List.countP_eq_zero.mp c1 _ hd
    simp [Event.createsAnalyzerFor] at this
  · intro frames w pd
    obtain ⟨l, ht, hk, hn, _⟩ := analyzerFrames_step env pd frames w
    rw [since_of_trace_eq _ _ _ ht]
    by_cases h : mapFind w.win.m_protocolAnalyzerDialogs pd = none
    · rcases hn h with c | ⟨c, _⟩ <;> omega
    · have := (hk h).2
      omega
  · intro frames w h
    obtain ⟨l, _, _, _, hr⟩ := analyzerFrames_step env 0 frames w
    exact hr h

/-- A witness of C7: with the live filters 300 (a packet decoder) and 301 (none), the open
Analyzer menu offers the one item of decoder 300. -/
theorem C7_analyzer_menu_witness :
    offeredLabels ((WindowAnalyzerMenu exampleEnv
        { exampleWorld with filters := [300, 301] }).since
        { exampleWorld with filters := [300, 301] }) = ["UART_1"] :=
  (C7_analyzer_menu exampleEnv).1 { exampleWorld with filters := [300, 301] }
    (by decide) (by decide)

/-! ## C9: the Add | Channels menu -/

theorem foldl_flatMap_eq {α β σ : Type} (l : List α) (g : α → List β) (f : σ → β → σ)
    (init : σ) :
    (l.flatMap g).foldl f init = l.foldl (fun acc x => (g x).foldl f acc) init := by
  induction l generalizing init with
  | nil => rfl
  | cons x l ih => simp [List.flatMap_cons, List.foldl_append, ih]

theorem foldl_filter_eq {α σ : Type} (l : List α) (p : α → Bool) (f : σ → α → σ) (init : σ) :
    (l.filter p).foldl f init = l.foldl (fun acc x => if p x then f acc x else acc) init := by
  induction l generalizing init with
  | nil => rfl
  | cons x l ih =>
    rw [List.filter_cons]
    cases hp : p x <;> simp [ih, hp]

/-- The item block when the item is not activated. -/
theorem channelsItem_idle (env : Env) (stream : StreamDescriptor) (w : World)
    (hin : w.answer.1 = false) :
    AddChannelsMenu.item env stream w =
      { w.answer.2 with
        trace := w.trace ++ [.MenuItem (env.StreamDescriptor_GetName stream) false] } := by
  simp [AddChannelsMenu.item, MenuItem, hin, World.log, answer_trace]

/-- The item block when the item is activated. -/
theorem channelsItem_selected (env : Env) (stream : StreamDescriptor) (w : World)
    (hin : w.answer.1 = true) :
    AddChannelsMenu.item env stream w =
      { w.answer.2 with
        trace := w.trace ++
          [.MenuItem (env.StreamDescriptor_GetName stream) true,
           .GetBestGroupForWaveform stream
             (env.GetBestGroupForWaveform stream (MenuItem (env.StreamDescriptor_GetName stream) w).2),
           .make_WaveformArea stream
             (env.GetBestGroupForWaveform stream (MenuItem (env.StreamDescriptor_GetName stream) w).2)
             w.heapNext,
           .AddArea
             (env.GetBestGroupForWaveform stream (MenuItem (env.StreamDescriptor_GetName stream) w).2)
             w.heapNext]
        heapNext := w.heapNext + 1
        areas := w.areas ++
          [(env.GetBestGroupForWaveform stream (MenuItem (env.StreamDescriptor_GetName stream) w).2,
            { ptr := w.heapNext, m_stream := stream,
              m_group := env.GetBestGroupForWaveform stream
                (MenuItem (env.StreamDescriptor_GetName stream) w).2 })] } := by
  simp [AddChannelsMenu.item, MenuItem, hin, World.log, answer_trace, alloc, answer_heapNext,
    answer_areas]

/-- The item block submits one item, whatever the answer, and keeps the filter set and the
window. -/
theorem channelsItem_offer (env : Env) (stream : StreamDescriptor) (w : World) :
    (∃ calls, (AddChannelsMenu.item env stream w).trace = w.trace ++ calls ∧
      offeredLabels calls = [env.StreamDescriptor_GetName stream]) ∧
    (AddChannelsMenu.item env stream w).filters = w.filters ∧
    (AddChannelsMenu.item env stream w).win = w.win := by
  cases hin : w.answer.1 with
  | false =>
    rw [channelsItem_idle env stream w hin]
    exact ⟨⟨_, rfl, by simp [offeredLabels, Event.itemLabel]⟩, answer_filters w, answer_win w⟩
  | true =>
    rw [channelsItem_selected env stream w hin]
    exact ⟨⟨_, rfl, by simp [offeredLabels, Event.itemLabel]⟩, answer_filters w, answer_win w⟩

theorem channelsItems_offer (env : Env) (streams : List StreamDescriptor) (w : World) :
    (∃ calls, (streams.foldl (fun w s => AddChannelsMenu.item env s w) w).trace =
        w.trace ++ calls ∧
      offeredLabels calls = streams.map env.StreamDescriptor_GetName) ∧
    (streams.foldl (fun w s => AddChannelsMenu.item env s w) w).filters = w.filters ∧
    (streams.foldl (fun w s => AddChannelsMenu.item env s w) w).win = w.win := by
  induction streams generalizing w with
  | nil => exact ⟨⟨[], by simp, by simp [offeredLabels]⟩, rfl, rfl⟩
  | cons s rest ih =>
    obtain ⟨⟨l₁, ht₁, ho₁⟩, hf₁, hw₁⟩ := channelsItem_offer env s w
    obtain ⟨⟨l₂, ht₂, ho₂⟩, hf₂, hw₂⟩ := ih (AddChannelsMenu.item env s w)
    refine ⟨⟨l₁ ++ l₂, by simp [ht₂, ht₁], ?_⟩, by simp [hf₂, hf₁], by simp [hw₂, hw₁]⟩
    unfold offeredLabels at ho₁ ho₂ ⊢
    simp [List.filterMap_append, ho₁, ho₂]

/-- The loops over the channels and streams of a scope are the item blocks of the
qualifying streams, in order. -/
theorem channelsScope_loops (env : Env) (scope : Instrument) (w : World) :
    (List.range (env.GetChannelCount scope)).foldl
        (fun w i => AddChannelsMenu.scopeChannel env scope i w) w =
      ((offeredScopeStreams env scope).map (scopeStreamDescriptor env scope)).foldl
        (fun w s => AddChannelsMenu.item env s w) w := by
  unfold offeredScopeStreams
  rw [List.foldl_map, foldl_flatMap_eq]
  congr 1
  funext w i
  rw [List.foldl_map, foldl_filter_eq]
  unfold AddChannelsMenu.scopeChannel
  congr 1
  funext w j
  unfold AddChannelsMenu.scopeStream scopeStreamDescriptor
  by_cases ht : env.GetType (env.GetChannel scope i) j = .STREAM_TYPE_TRIGGER
  · simp [ht]
  · cases hc : env.CanEnableChannel scope i <;> simp [ht, hc]

theorem mem_offeredScopeStreams (env : Env) (scope : Instrument) (i j : Nat) :
    (i, j) ∈ offeredScopeStreams env scope ↔
      i < env.GetChannelCount scope ∧ j < env.GetStreamCount (env.GetChannel scope i) ∧
      env.GetType (env.GetChannel scope i) j ≠ .STREAM_TYPE_TRIGGER ∧
      env.CanEnableChannel scope i = true := by
  unfold offeredScopeStreams
  simp only [List.mem_flatMap, List.mem_map, List.mem_filter, List.mem_range, Prod.mk.injEq,
    Bool.and_eq_true, decide_eq_true_eq]
  constructor
  · rintro ⟨a, ha, b, ⟨hb, ht, hc⟩, rfl, rfl⟩
    exact ⟨ha, hb, ht, hc⟩
  · rintro ⟨ha, hb, ht, hc⟩
    exact ⟨i, ha, j, ⟨hb, ht, hc⟩, rfl, rfl⟩

theorem nodup_offeredScopeStreams (env : Env) (scope : Instrument) :
    (offeredScopeStreams env scope).Nodup := by
  unfold offeredScopeStreams
  rw [List.nodup_flatMap]
  constructor
  · intro i _
    apply List.Nodup.map
    · intro a b h
      exact (Prod.mk.inj h).2
    · exact List.Nodup.filter _ (List.nodup_range _)
  · have h := List.nodup_range (env.GetChannelCount scope)
    unfold List.Nodup at h
    refine List.Pairwise.imp ?_ h
    intro a b hab
    simp only [Function.onFun]
    intro p hpa hpb
    simp only [List.mem_map] at hpa hpb
    obtain ⟨_, _, rfl⟩ := hpa
    obtain ⟨_, _, h2⟩ := hpb
    exact hab (Prod.mk.inj h2).1.symm

/-- The scope submenu keeps the filter set and the window. -/
theorem channelsScope_frame (env : Env) (scope : Instrument) (w : World) :
    (AddChannelsMenu.scope env scope w).filters = w.filters ∧
      (AddChannelsMenu.scope env scope w).win = w.win := by
  unfold AddChannelsMenu.scope
  have hb : (BeginMenu scope.m_nickname w).2.filters = w.filters ∧
      (BeginMenu scope.m_nickname w).2.win = w.win := by
    simp [BeginMenu, World.log, answer_filters, answer_win]
  cases hopen : (BeginMenu scope.m_nickname w).1 with
  | false => simpa [hopen] using hb
  | true =>
    simp only [hopen, if_true]
    rw [channelsScope_loops]
    obtain ⟨_, hf, hw⟩ := channelsItems_offer env
      ((offeredScopeStreams env scope).map (scopeStreamDescriptor env scope))
      (BeginMenu scope.m_nickname w).2
    exact ⟨hf.trans hb.1, hw.trans hb.2⟩

theorem channelsScopes_frame (env : Env) (scopes : List Instrument) (w : World) :
    (scopes.foldl (fun w scope => AddChannelsMenu.scope env scope w) w).filters = w.filters ∧
      (scopes.foldl (fun w scope => AddChannelsMenu.scope env scope w) w).win = w.win := by
  induction scopes generalizing w with
  | nil => exact ⟨rfl, rfl⟩
  | cons s rest ih =>
    obtain ⟨h1, h2⟩ := ih (AddChannelsMenu.scope env s w)
    obtain ⟨h3, h4⟩ := channelsScope_frame env s w
    exact ⟨h1.trans h3, h2.trans h4⟩

/-- C9. In the Add | Channels menu, the open submenu of an oscilloscope runs the item block
once for each pair (channel `i`, stream index `j`) of the scope that qualifies, in order,
and for no other: a pair qualifies if and only if `i` and `j` are in range, the type of the
stream is not the trigger type and the scope reports that channel `i` can be enabled; no
pair occurs twice. For a live filter instance the item block runs once for every stream
index. The open menu is the scope submenus followed by the item blocks of all streams of
all live filters. A run of item blocks submits exactly one menu item per stream,
labelled with the name of its (producer, index) descriptor. An item that is not activated
leaves the waveform areas unchanged; an activated item asks `GetBestGroupForWaveform` for
a group, creates one waveform area for the stream and adds exactly that area to that
group. -/
theorem C9_channels_menu (env : Env) :
    (∀ (scope : Instrument) (w : World), w.answer.1 = true →
      AddChannelsMenu.scope env scope w =
        ((offeredScopeStreams env scope).map (scopeStreamDescriptor env scope)).foldl
          (fun w s => AddChannelsMenu.item env s w) (BeginMenu scope.m_nickname w).2) ∧
    (∀ (scope : Instrument) (i j : Nat), (i, j) ∈ offeredScopeStreams env scope ↔
      i < env.GetChannelCount scope ∧ j < env.GetStreamCount (env.GetChannel scope i) ∧
      env.GetType (env.GetChannel scope i) j ≠ .STREAM_TYPE_TRIGGER ∧
      env.CanEnableChannel scope i = true) ∧
    (∀ scope : Instrument, (offeredScopeStreams env scope).Nodup) ∧
    (∀ (f : Ptr) (w : World),
      AddChannelsMenu.filter env f w =
        (filterStreams env f).foldl (fun w s => AddChannelsMenu.item env s w) w) ∧
    (∀ (f : Ptr), (filterStreams env f).Nodup ∧
      ∀ s, s ∈ filterStreams env f ↔ s.m_channel = f ∧ s.m_stream < env.GetStreamCount f) ∧
    (∀ w : World, w.answer.1 = true →
      AddChannelsMenu env w =
        (w.filters.flatMap (filterStreams env)).foldl (fun w s => AddChannelsMenu.item env s w)
          (w.win.m_session.m_oscilloscopes.foldl
            (fun w scope => AddChannelsMenu.scope env scope w) (BeginMenu "Channels" w).2)) ∧
    (∀ (streams : List StreamDescriptor) (w : World),
      offeredLabels ((streams.foldl (fun w s => AddChannelsMenu.item env s w) w).since w) =
        streams.map env.StreamDescriptor_GetName) ∧
    (∀ (stream : StreamDescriptor) (w : World), w.answer.1 = false →
      (AddChannelsMenu.item env stream w).areas = w.areas ∧
      (AddChannelsMenu.item env stream w).since w =
        [.MenuItem (env.StreamDescriptor_GetName stream) false]) ∧
    (∀ (stream : StreamDescriptor) (w : World), w.answer.1 = true →
      ∃ group, group = env.GetBestGroupForWaveform stream
          (MenuItem (env.StreamDescriptor_GetName stream) w).2 ∧
        (AddChannelsMenu.item env stream w).areas =
          w.areas ++ [(group, { ptr := w.heapNext, m_stream := stream, m_group := group })] ∧
        (AddChannelsMenu.item env stream w).since w =
          [.MenuItem (env.StreamDescriptor_GetName stream) true,
           .GetBestGroupForWaveform stream group,
           .make_WaveformArea stream group w.heapNext,
           .AddArea group w.heapNext]) := by
  refine ⟨?_, mem_offeredScopeStreams env, nodup_offeredScopeStreams env, ?_, ?_, ?_, ?_, ?_, ?_⟩
  · intro scope w hopen
    have hb : (BeginMenu scope.m_nickname w).1 = true := hopen
    unfold AddChannelsMenu.scope
    simp only [hb, if_true]
    exact channelsScope_loops env scope _
  · intro f w
    unfold AddChannelsMenu.filter filterStreams
    rw [List.foldl_map]
  · intro f
    unfold filterStreams
    refine ⟨List.Nodup.map ?_ (List.nodup_range _), ?_⟩
    · intro a b h
      exact congrArg StreamDescriptor.m_stream h
    · intro s
      simp only [List.mem_map, List.mem_range]
      constructor
      · rintro ⟨j, hj, rfl⟩
        exact ⟨rfl, hj⟩
      · rintro ⟨h1, h2⟩
        exact ⟨s.m_stream, h2, by cases s; simp_all⟩
  · intro w hopen
    have hb : (BeginMenu "Channels" w).1 = true := hopen
    have hbf : (BeginMenu "Channels" w).2.filters = w.filters ∧
        (BeginMenu "Channels" w).2.win = w.win := by
      simp [BeginMenu, World.log, answer_filters, answer_win]
    unfold AddChannelsMenu
    simp only [hb, if_true]
    rw [(channelsScopes_frame env _ _).1, hbf.1, hbf.2, foldl_flatMap_eq]
    congr 1
    funext w f
    unfold AddChannelsMenu.filter filterStreams
    rw [List.foldl_map]
  · intro streams w
    obtain ⟨⟨l, ht, ho⟩, _, _⟩ := channelsItems_offer env streams w
    rw [since_of_trace_eq _ _ _ ht, ho]
  · intro stream w hin
    rw [channelsItem_idle env stream w hin]
    exact ⟨answer_areas w, since_of_trace_eq _ _ _ rfl⟩
  · intro stream w hin
    rw [channelsItem_selected env stream w hin]
    exact ⟨_, rfl, rfl, since_of_trace_eq _ _ _ rfl⟩

/-- A witness of C9: in the example, channel 0 of a scope can be enabled and channel 1
cannot, and stream 1 of every channel is a trigger stream, so the only stream offered for
a scope is stream 0 of channel 0. -/
theorem C9_channels_menu_witness :
    offeredScopeStreams exampleEnv { ptr := 37, m_nickname := "scope1" } = [(0, 0)] ∧
      ((0, 0) ∈ offeredScopeStreams exampleEnv { ptr := 37, m_nickname := "scope1" } ↔
        0 < exampleEnv.GetChannelCount { ptr := 37, m_nickname := "scope1" } ∧
        0 < exampleEnv.GetStreamCount
          (exampleEnv.GetChannel { ptr := 37, m_nickname := "scope1" } 0) ∧
        exampleEnv.GetType (exampleEnv.GetChannel { ptr := 37, m_nickname := "scope1" } 0) 0 ≠
          .STREAM_TYPE_TRIGGER ∧
        exampleEnv.CanEnableChannel { ptr := 37, m_nickname := "scope1" } 0 = true) :=
  ⟨by decide, (C9_channels_menu exampleEnv).2.1 { ptr := 37, m_nickname := "scope1" } 0 0⟩

/-! ## C10: a bind that would create a cycle -/

theorem mem_consumersOf (g : Graph) (x y : Nat) : y ∈ g.consumersOf x ↔ g.Feeds x y := by
  unfold Graph.consumersOf Graph.Feeds Node.readsFrom
  simp only [List.mem_map, List.mem_filter, List.any_eq_true]
  constructor
  · rintro ⟨n, ⟨hn, b, hb, hs⟩, rfl⟩
    cases b with
    | none => simp at hs
    | some s => exact ⟨n, hn, rfl, s, hb, by simpa using hs⟩
  · rintro ⟨n, hn, rfl, s, hs, ha⟩
    exact ⟨n, ⟨hn, some s, hs, by simpa using ha⟩, rfl⟩

theorem mem_expand (g : Graph) (seen : List Nat) (y : Nat) :
    y ∈ g.expand seen ↔ y ∈ seen ∨ ∃ x ∈ seen, g.Feeds x y := by
  simp [Graph.expand, List.mem_flatMap, mem_consumersOf]

theorem Graph.Closed.reach {g : Graph} {seen : List Nat} (hc : g.Closed seen) {x y : Nat}
    (hx : x ∈ seen) (h : Relation.ReflTransGen g.Feeds x y) : y ∈ seen := by
  induction h with
  | refl => exact hx
  | tail _ hstep ih => exact hc _ ih _ hstep

theorem mem_expand_of_closed {g : Graph} {seen : List Nat} (hc : g.Closed seen) (y : Nat) :
    y ∈ g.expand seen ↔ y ∈ seen := by
  rw [mem_expand]
  constructor
  · rintro (h | ⟨x, hx, hxy⟩)
    · exact h
    · exact hc x hx y hxy
  · exact Or.inl

theorem closed_expand_of_closed {g : Graph} {seen : List Nat} (hc : g.Closed seen) :
    g.Closed (g.expand seen) := by
  intro x hx y hxy
  rw [mem_expand_of_closed hc] at hx ⊢
  exact hc x hx y hxy

theorem closed_reachFrom_of_closed (g : Graph) (k : Nat) (seen : List Nat)
    (hc : g.Closed seen) : g.Closed (g.reachFrom k seen) := by
  induction k generalizing seen with
  | zero => exact hc
  | succ k ih => exact ih _ (closed_expand_of_closed hc)

theorem subset_reachFrom (g : Graph) (k : Nat) (seen : List Nat) (x : Nat) (hx : x ∈ seen) :
    x ∈ g.reachFrom k seen := by
  induction k generalizing seen with
  | zero => exact hx
  | succ k ih => exact ih _ ((mem_expand g seen x).mpr (Or.inl hx))

/-- Everything the check sees is reached from a start node along the bindings. -/
theorem reachFrom_sound (g : Graph) (k : Nat) (seen : List Nat) (y : Nat)
    (hy : y ∈ g.reachFrom k seen) : ∃ x ∈ seen, Relation.ReflTransGen g.Feeds x y := by
  induction k generalizing seen with
  | zero => exact ⟨y, hy, Relation.ReflTransGen.refl⟩
  | succ k ih =>
    obtain ⟨x, hx, hxy⟩ := ih _ hy
    rcases (mem_expand g seen x).mp hx with h | ⟨x₀, hx₀, hstep⟩
    · exact ⟨x, h, hxy⟩
    · exact ⟨x₀, hx₀, Relation.ReflTransGen.head hstep hxy⟩

/-- The check sees only start nodes and ids of nodes of the graph. -/
theorem reachFrom_subset_ids (g : Graph) (k : Nat) (seen : List Nat) (y : Nat)
    (hy : y ∈ g.reachFrom k seen) : y ∈ seen ∨ y ∈ g.nodes.map (fun n => n.id) := by
  induction k generalizing seen with
  | zero => exact Or.inl hy
  | succ k ih =>
    rcases ih _ hy with h | h
    · rcases (mem_expand g seen y).mp h with h | ⟨x, _, n, hn, hid, _⟩
      · exact Or.inl h
      · exact Or.inr (List.mem_map.mpr ⟨n, hn, hid⟩)
    · exact Or.inr h

/-- A round of the check either starts from a closed set or sees a new node. -/
theorem card_expand (g : Graph) (seen : List Nat) (hc : ¬ g.Closed seen) :
    seen.toFinset.card + 1 ≤ (g.expand seen).toFinset.card := by
  unfold Graph.Closed at hc
  push_neg at hc
  obtain ⟨x, hx, y, hxy, hy⟩ := hc
  have hsub : insert y seen.toFinset ⊆ (g.expand seen).toFinset := by
    intro z hz
    rw [List.mem_toFinset, mem_expand]
    rcases Finset.mem_insert.mp hz with rfl | hz
    · exact Or.inr ⟨x, hx, hxy⟩
    · exact Or.inl (List.mem_toFinset.mp hz)
  have hcard := Finset.card_le_card hsub
  rw [Finset.card_insert_of_not_mem (by simpa using hy)] at hcard
  exact hcard

theorem closed_or_card_reachFrom (g : Graph) (k : Nat) (seen : List Nat) :
    g.Closed (g.reachFrom k seen) ∨
      seen.toFinset.card + k ≤ (g.reachFrom k seen).toFinset.card := by
  induction k generalizing seen with
  | zero => exact Or.inr (le_refl _)
  | succ k ih =>
    by_cases hc : g.Closed seen
    · exact Or.inl (closed_reachFrom_of_closed g (k + 1) seen hc)
    · rcases ih (g.expand seen) with h | h
      · exact Or.inl h
      · refine Or.inr ?_
        have := card_expand g seen hc
        show seen.toFinset.card + (k + 1) ≤ (g.reachFrom k (g.expand seen)).toFinset.card
        omega

/-- After as many rounds as the graph has nodes the set seen is closed. -/
theorem closed_reachFrom_length (g : Graph) (a : Nat) :
    g.Closed (g.reachFrom g.nodes.length [a]) := by
  rcases closed_or_card_reachFrom g g.nodes.length [a] with h | h
  · exact h
  · have hsub : (g.reachFrom g.nodes.length [a]).toFinset ⊆
        (a :: g.nodes.map (fun n => n.id)).toFinset := by
      intro z hz
      rw [List.mem_toFinset] at hz ⊢
      rcases reachFrom_subset_ids g _ _ z hz with h' | h'
      · exact List.mem_cons.mpr (Or.inl (by simpa using h'))
      · exact List.mem_cons.mpr (Or.inr h')
    have hT : (a :: g.nodes.map (fun n => n.id)).toFinset.card ≤ g.nodes.length + 1 := by
      refine le_trans (List.toFinset_card_le _) ?_
      simp
    have hone : ([a] : List Nat).toFinset.card = 1 := by simp
    have heq : (g.reachFrom g.nodes.length [a]).toFinset =
        (a :: g.nodes.map (fun n => n.id)).toFinset :=
      Finset.eq_of_subset_of_card_le hsub (by omega)
    intro x _ y hxy
    have hy : y ∈ (a :: g.nodes.map (fun n => n.id)).toFinset := by
      obtain ⟨n, hn, hid, _⟩ := hxy
      rw [List.mem_toFinset]
      exact List.mem_cons.mpr (Or.inr (List.mem_map.mpr ⟨n, hn, hid⟩))
    rw [← heq] at hy
    exact List.mem_toFinset.mp hy

/-- The reachability check decides the binding relation. -/
theorem reaches_iff (g : Graph) (a b : Nat) :
    g.reaches a b = true ↔ Relation.ReflTransGen g.Feeds a b := by
  unfold Graph.reaches
  rw [decide_eq_true_iff]
  constructor
  · intro h
    obtain ⟨x, hx, hxy⟩ := reachFrom_sound g _ _ b h
    rw [List.mem_singleton] at hx
    exact hx ▸ hxy
  · intro h
    exact (closed_reachFrom_length g a).reach
      (subset_reachFrom g _ _ a (List.mem_singleton.mpr rfl)) h

/-- An edge of the committed graph is an edge of the graph or the new edge. -/
theorem feeds_commit (g : Graph) (r : BindRequest) (a b : Nat)
    (h : (g.commit r).Feeds a b) : g.Feeds a b ∨ (a = r.producer ∧ b = r.consumer) := by
  obtain ⟨n', hn', hid, s, hs, ha⟩ := h
  simp only [Graph.commit, List.mem_map] at hn'
  obtain ⟨n, hn, rfl⟩ := hn'
  by_cases hc : n.id = r.consumer
  · simp only [hc, if_true] at hid hs
    rcases List.mem_or_eq_of_mem_set hs with hold | hnew
    · exact Or.inl ⟨n, hn, hc.trans hid, s, hold, ha⟩
    · cases hnew
      exact Or.inr ⟨ha.symm, hid.symm⟩
  · simp only [hc, if_false] at hid hs
    exact Or.inl ⟨n, hn, hid, s, hs, ha⟩

/-- An edge into a node other than the consumer is kept by the commit. -/
theorem feeds_commit_of_ne (g : Graph) (r : BindRequest) (a b : Nat) (h : g.Feeds a b)
    (hb : b ≠ r.consumer) : (g.commit r).Feeds a b := by
  obtain ⟨n, hn, hid, s, hs, ha⟩ := h
  have hc : ¬ n.id = r.consumer := fun hc => hb (hid.symm.trans hc)
  refine ⟨n, ?_, hid, s, hs, ha⟩
  simp only [Graph.commit, List.mem_map]
  exact ⟨n, hn, by simp [hc]⟩

/-- The commit puts the new edge into the graph when the input slot exists. -/
theorem feeds_commit_new (g : Graph) (r : BindRequest)
    (h : ∃ n ∈ g.nodes, n.id = r.consumer ∧ r.inputIndex < n.inputs.length) :
    (g.commit r).Feeds r.producer r.consumer := by
  obtain ⟨n, hn, hid, hlt⟩ := h
  refine ⟨_, List.mem_map.mpr ⟨n, hn, rfl⟩, by simp [hid],
    { producerNodeId := r.producer, outputIndex := r.outputIndex }, ?_, rfl⟩
  simp only [hid, if_true]
  exact List.mem_set _ _ hlt _

/-- A node reached from `c` is reached without passing through `c` again. -/
theorem reach_avoiding {R : Nat → Nat → Prop} {c p : Nat} (h : Relation.ReflTransGen R c p) :
    Relation.ReflTransGen (fun a b => R a b ∧ b ≠ c) c p := by
  induction h with
  | refl => exact Relation.ReflTransGen.refl
  | @tail b d _ hstep ih =>
    by_cases hd : d = c
    · rw [hd]
    · exact Relation.ReflTransGen.tail ih ⟨hstep, hd⟩

/-- A path of the committed graph is a path of the graph, or it passes through the new
edge: then the producer is reached from its start and its end from the consumer. -/
theorem reach_commit_split (g : Graph) (r : BindRequest) {a b : Nat}
    (h : Relation.ReflTransGen (g.commit r).Feeds a b) :
    Relation.ReflTransGen g.Feeds a b ∨
      (Relation.ReflTransGen g.Feeds a r.producer ∧
        Relation.ReflTransGen g.Feeds r.consumer b) := by
  induction h with
  | refl => exact Or.inl Relation.ReflTransGen.refl
  | @tail b d _ hstep ih =>
    rcases feeds_commit g r b d hstep with hold | ⟨hb, hd⟩
    · rcases ih with h1 | ⟨h1, h2⟩
      · exact Or.inl (Relation.ReflTransGen.tail h1 hold)
      · exact Or.inr ⟨h1, Relation.ReflTransGen.tail h2 hold⟩
    · subst hb hd
      rcases ih with h1 | ⟨h1, _⟩
      · exact Or.inr ⟨h1, Relation.ReflTransGen.refl⟩
      · exact Or.inr ⟨h1, Relation.ReflTransGen.refl⟩

/-- Committing a request that would not create a cycle keeps the graph acyclic. -/
theorem acyclic_commit (g : Graph) (r : BindRequest) (hac : g.Acyclic)
    (hno : ¬ g.CreatesCycle r) : (g.commit r).Acyclic := by
  intro x hx
  obtain ⟨y, hxy, hyx⟩ := Relation.TransGen.head'_iff.mp hx
  rcases feeds_commit g r x y hxy with hold | ⟨hxp, hyc⟩
  · rcases reach_commit_split g r hyx with h1 | ⟨h1, h2⟩
    · exact hac x (Relation.TransGen.head' hold h1)
    · exact hno ((h2.tail hold).trans h1)
  · subst hxp hyc
    rcases reach_commit_split g r hyx with h1 | ⟨h1, _⟩
    · exact hno h1
    · exact hno h1

/-- Committing a request that would create a cycle does create one, when the input slot
exists. -/
theorem cyclic_commit (g : Graph) (r : BindRequest) (hcyc : g.CreatesCycle r)
    (hslot : ∃ n ∈ g.nodes, n.id = r.consumer ∧ r.inputIndex < n.inputs.length) :
    Relation.TransGen (g.commit r).Feeds r.consumer r.consumer := by
  have h1 := reach_avoiding hcyc
  have h2 : Relation.ReflTransGen (g.commit r).Feeds r.consumer r.producer :=
    Relation.ReflTransGen.mono (fun a b hab => feeds_commit_of_ne g r a b hab.1 hab.2) h1
  exact Relation.TransGen.tail' h2 (feeds_commit_new g r hslot)

/-- C10. For every graph and every bind or rebind request whose new edge would create a
cycle in the binding relation (the candidate producer is the consumer or is reached from
it along the bindings), the edit fails with `CycleDetected` and the graph after the call is
the graph before it: its edge set is the same, no binding is added, removed or changed.
Conversely the edit fails with `CycleDetected` only for such a request. The requests
rejected in this way are the right ones: writing such a binding into an existing input
slot would put the consumer on a cycle, and since all other bindings pass the check, an
acyclic graph is acyclic after every edit. -/
theorem C10_cycle_rejected (g : Graph) (r : BindRequest) :
    (g.CreatesCycle r →
      (g.bind r).1 = .error .CycleDetected ∧ (g.bind r).2 = g ∧
        (g.bind r).2.edges = g.edges) ∧
    ((g.bind r).1 = .error .CycleDetected → g.CreatesCycle r) ∧
    (g.CreatesCycle r →
      (∃ n ∈ g.nodes, n.id = r.consumer ∧ r.inputIndex < n.inputs.length) →
      Relation.TransGen (g.commit r).Feeds r.consumer r.consumer) ∧
    (g.Acyclic → (g.bind r).2.Acyclic) := by
  refine ⟨?_, ?_, cyclic_commit g r, ?_⟩
  · intro h
    have hr : g.reaches r.consumer r.producer = true := (reaches_iff g _ _).mpr h
    simp [Graph.bind, hr]
  · intro h
    by_contra hn
    have hr : g.reaches r.consumer r.producer = false := by
      cases hb : g.reaches r.consumer r.producer
      · rfl
      · exact absurd ((reaches_iff g _ _).mp hb) hn
    unfold Graph.bind at h
    simp only [hr, Bool.false_eq_true, if_false] at h
    split at h
    · split at h <;> simp at h
    · simp at h
  · intro hac
    cases hb : g.reaches r.consumer r.producer with
    | true => simpa [Graph.bind, hb] using hac
    | false =>
      have hno : ¬ g.CreatesCycle r := fun h => by
        have := (reaches_iff g _ _).mpr h
        rw [hb] at this
        cases this
      unfold Graph.bind
      simp only [hb, Bool.false_eq_true, if_false]
      split
      · split
        · exact acyclic_commit g r hac hno
        · exact hac
      · exact hac

/-- A witness of C10: in the graph A → B → C, binding the input of A to the output of C
would close a cycle; the edit fails with `CycleDetected` and the graph is unchanged. -/
theorem C10_cycle_rejected_witness :
    exampleGraph.reaches 1 3 = true ∧
      (exampleGraph.bind { consumer := 1, inputIndex := 0, producer := 3, outputIndex := 0 }).1 =
        .error .CycleDetected ∧
      (exampleGraph.bind { consumer := 1, inputIndex := 0, producer := 3, outputIndex := 0 }).2 =
        exampleGraph :=
  ⟨by decide,
    ((C10_cycle_rejected exampleGraph
      { consumer := 1, inputIndex := 0, producer := 3, outputIndex := 0 }).1
      ((reaches_iff exampleGraph 1 3).mp (by decide))).1,
    ((C10_cycle_rejected exampleGraph
      { consumer := 1, inputIndex := 0, producer := 3, outputIndex := 0 }).1
      ((reaches_iff exampleGraph 1 3).mp (by decide))).2.1⟩

/-! ## C11: the timestamp list of `AddMenu` -/

theorem foldl_push_back {α : Type} (l acc : List α) :
    l.foldl (fun v t => v ++ [t]) acc = acc ++ l := by
  induction l generalizing acc with
  | nil => simp
  | cons a l ih => simp [ih]

/-- The timestamp list is the set of last-used times in its iteration order: the sort
finds the vector already in ascending order. -/
theorem timestamps_eq (recent : List (String × time_t)) :
    AddMenu.timestamps recent =
      (recent.map Prod.snd).foldl (fun set s => setEmplace s set) [] := by
  unfold AddMenu.timestamps std_sort
  simp only [foldl_push_back, List.nil_append]
  rw [List.foldl_map]
  apply List.Sorted.insertionSort_eq
  have := sorted_foldl_setEmplace (recent.map Prod.snd) [] List.sorted_nil
  rw [List.foldl_map] at this
  exact this.le_of_lt

theorem sorted_timestamps (recent : List (String × time_t)) :
    (AddMenu.timestamps recent).Sorted (· < ·) := by
  rw [timestamps_eq]
  exact sorted_foldl_setEmplace _ [] List.sorted_nil

theorem mem_timestamps (recent : List (String × time_t)) (t : time_t) :
    t ∈ AddMenu.timestamps recent ↔ ∃ s, (s, t) ∈ recent := by
  rw [timestamps_eq, mem_foldl_setEmplace]
  simp

/-- C11, counterexample. With the recent instruments "a" (last used at time 1) and "b"
(last used at time 2) the timestamp list is `[1, 2]`: its first element is earlier than
the one after it, so the list is not sorted most recent first. -/
theorem C11_counterexample :
    AddMenu.timestamps [("a", 1), ("b", 2)] = [1, 2] ∧
      ¬ (AddMenu.timestamps [("a", 1), ("b", 2)]).Sorted (fun t later => t > later) := by
  decide

/-- C11, amended. The timestamp list that `AddMenu` builds from `m_recentInstruments` and
hands to the five Add submenus is sorted oldest first (each element is earlier than the
one after it), contains no duplicates, and contains exactly the timestamps that occur as
last-used times in `m_recentInstruments`. Read from the back, as the submenus do, it is
sorted most recent first. -/
theorem C11_timestamps (recent : List (String × time_t)) :
    (AddMenu.timestamps recent).Sorted (fun t later => t < later) ∧
    (AddMenu.timestamps recent).Nodup ∧
    (∀ t, t ∈ AddMenu.timestamps recent ↔ ∃ s, (s, t) ∈ recent) ∧
    (AddMenu.timestamps recent).reverse.Sorted (fun t later => t > later) := by
  refine ⟨sorted_timestamps recent, (sorted_timestamps recent).nodup, mem_timestamps recent, ?_⟩
  unfold List.Sorted
  rw [List.pairwise_reverse]
  exact sorted_timestamps recent

/-- A witness of C11: three recent instruments, two of them last used at the same
time. -/
theorem C11_timestamps_witness :
    AddMenu.timestamps [("a", 5), ("b", 2), ("c", 5)] = [2, 5] ∧
      (AddMenu.timestamps [("a", 5), ("b", 2), ("c", 5)]).Nodup :=
  ⟨by decide, (C11_timestamps [("a", 5), ("b", 2), ("c", 5)]).2.1⟩

/-! ## C13: the reverse mapping of `AddMenu` -/

theorem mapFind_ne_none_iff {κ ν : Type} [DecidableEq κ] (m : List (κ × ν)) (k : κ) :
    mapFind m k ≠ none ↔ k ∈ m.map Prod.fst := by
  induction m with
  | nil => simp [mapFind]
  | cons p m ih =>
    obtain ⟨k', v⟩ := p
    unfold mapFind
    by_cases h : k' = k
    · simp [h]
    · simp only [h, if_false, ih, List.map_cons, List.mem_cons]
      constructor
      · exact Or.inr
      · rintro (h' | h')
        · exact absurd h'.symm h
        · exact h'

theorem mapFind_mapPushBack_self {κ ν : Type} [LinearOrder κ] (m : List (κ × List ν)) (k : κ)
    (v : ν) : mapFind (mapPushBack m k v) k = some ((mapFind m k).getD [] ++ [v]) := by
  unfold mapPushBack mapIndex
  cases h : mapFind m k <;> simp [mapFind_mapAssign_self]

theorem mapFind_mapPushBack_ne {κ ν : Type} [LinearOrder κ] (m : List (κ × List ν)) (k j : κ)
    (v : ν) (hj : j ≠ k) : mapFind (mapPushBack m k v) j = mapFind m j := by
  unfold mapPushBack mapIndex
  cases h : mapFind m k <;> simp [mapFind_mapAssign_ne _ _ _ _ hj]

theorem keys_sorted_mapAssign {κ ν : Type} [LinearOrder κ] (m : List (κ × ν)) (k : κ) (v : ν)
    (hs : (m.map Prod.fst).Sorted (· < ·)) :
    ((mapAssign m k v).map Prod.fst).Sorted (· < ·) ∧
      ∀ x, x ∈ (mapAssign m k v).map Prod.fst ↔ x = k ∨ x ∈ m.map Prod.fst := by
  induction m with
  | nil => simp [mapAssign]
  | cons p m ih =>
    obtain ⟨k', v'⟩ := p
    have hb := List.sorted_cons.mp hs
    unfold mapAssign
    split_ifs with h1 h2
    · refine ⟨List.sorted_cons.mpr ⟨?_, hs⟩, by simp⟩
      intro x hx
      rcases List.mem_cons.mp hx with rfl | hx
      · exact h1
      · exact lt_trans h1 (hb.1 x hx)
    · subst h2
      exact ⟨hs, by simp⟩
    · obtain ⟨ih1, ih2⟩ := ih hb.2
      refine ⟨List.sorted_cons.mpr ⟨?_, ih1⟩, ?_⟩
      · intro x hx
        rcases (ih2 x).mp hx with rfl | hx
        · exact lt_of_le_of_ne (not_lt.mp h1) (Ne.symm h2)
        · exact hb.1 x hx
      · intro x
        simp only [List.map_cons, List.mem_cons, ih2]
        tauto

theorem keys_sorted_mapPushBack {κ ν : Type} [LinearOrder κ] (m : List (κ × List ν)) (k : κ)
    (v : ν) (hs : (m.map Prod.fst).Sorted (· < ·)) :
    ((mapPushBack m k v).map Prod.fst).Sorted (· < ·) := by
  unfold mapPushBack mapIndex
  cases h : mapFind m k with
  | some b => exact (keys_sorted_mapAssign m k _ hs).1
  | none =>
    exact (keys_sorted_mapAssign _ k _ (keys_sorted_mapAssign m k [] hs).1).1

theorem bucket_cons (s : String) (t' t : time_t) (rest : List (String × time_t)) :
    AddMenu.bucket ((s, t') :: rest) t =
      if t' = t then s :: AddMenu.bucket rest t else AddMenu.bucket rest t := by
  unfold AddMenu.bucket
  by_cases h : t' = t <;> simp [List.filter_cons, h]

theorem mapFind_reverseMap_fold (recent : List (String × time_t))
    (acc : List (time_t × List String)) (t : time_t) :
    mapFind (recent.foldl (fun reverseMap it => mapPushBack reverseMap it.2 it.1) acc) t =
      if AddMenu.bucket recent t = [] then mapFind acc t
      else some ((mapFind acc t).getD [] ++ AddMenu.bucket recent t) := by
  induction recent generalizing acc with
  | nil => simp [AddMenu.bucket]
  | cons p rest ih =>
    obtain ⟨s, t'⟩ := p
    rw [List.foldl_cons, ih, bucket_cons]
    by_cases h : t' = t
    · subst h
      simp only [if_true, mapFind_mapPushBack_self]
      by_cases hb : AddMenu.bucket rest t' = [] <;> simp [hb]
    · simp only [h, if_false]
      rw [mapFind_mapPushBack_ne _ _ _ _ (Ne.symm h)]

theorem keys_sorted_reverseMap_fold (recent : List (String × time_t))
    (acc : List (time_t × List String)) (hs : (acc.map Prod.fst).Sorted (· < ·)) :
    ((recent.foldl (fun reverseMap it => mapPushBack reverseMap it.2 it.1) acc).map
      Prod.fst).Sorted (· < ·) := by
  induction recent generalizing acc with
  | nil => exact hs
  | cons p rest ih => exact ih _ (keys_sorted_mapPushBack acc p.2 p.1 hs)

theorem mapFind_eq_none_of_lt {κ ν : Type} [LinearOrder κ] (m : List (κ × ν)) (k : κ)
    (h : ∀ x ∈ m.map Prod.fst, k < x) : mapFind m k = none := by
  by_contra hne
  have := (mapFind_ne_none_iff m k).mp hne
  exact lt_irrefl _ (h k this)

/-- Two maps with keys in strict order and the same lookups are equal. -/
theorem sortedMap_ext {κ ν : Type} [LinearOrder κ] (m₁ m₂ : List (κ × ν))
    (h₁ : (m₁.map Prod.fst).Sorted (· < ·)) (h₂ : (m₂.map Prod.fst).Sorted (· < ·))
    (h : ∀ k, mapFind m₁ k = mapFind m₂ k) : m₁ = m₂ := by
  induction m₁ generalizing m₂ with
  | nil =>
    cases m₂ with
    | nil => rfl
    | cons p m₂ =>
      have := h p.1
      simp [mapFind] at this
  | cons p₁ r₁ ih =>
    cases m₂ with
    | nil =>
      have := h p₁.1
      simp [mapFind] at this
    | cons p₂ r₂ =>
      obtain ⟨k₁, v₁⟩ := p₁
      obtain ⟨k₂, v₂⟩ := p₂
      have hs₁ := List.sorted_cons.mp h₁
      have hs₂ := List.sorted_cons.mp h₂
      have hk : k₁ = k₂ := by
        have e₁ : k₁ ∈ ((k₂, v₂) :: r₂).map Prod.fst := by
          rw [← mapFind_ne_none_iff, ← h k₁]
          simp [mapFind]
        have e₂ : k₂ ∈ ((k₁, v₁) :: r₁).map Prod.fst := by
          rw [← mapFind_ne_none_iff, h k₂]
          simp [mapFind]
        simp only [List.map_cons, List.mem_cons] at e₁ e₂
        rcases e₁ with e₁ | e₁
        · exact e₁
        · rcases e₂ with e₂ | e₂
          · exact e₂.symm
          · exact absurd (lt_trans (hs₁.1 k₂ e₂) (hs₂.1 k₁ e₁)) (lt_irrefl _)
      subst hk
      have hv : v₁ = v₂ := by
        have := h k₁
        simpa [mapFind] using this
      subst hv
      have htail : r₁ = r₂ := by
        apply ih r₂ hs₁.2 hs₂.2
        intro k
        by_cases hkk : k₁ = k
        · subst hkk
          rw [mapFind_eq_none_of_lt r₁ k₁ hs₁.1, mapFind_eq_none_of_lt r₂ k₁ hs₂.1]
        · have := h k
          simpa [mapFind, hkk] using this
      rw [htail]

theorem mapFind_map_pair {κ ν : Type} [DecidableEq κ] (l : List κ) (f : κ → ν) (k : κ) :
    mapFind (l.map fun t => (t, f t)) k = if k ∈ l then some (f k) else none := by
  induction l with
  | nil => simp [mapFind]
  | cons a l ih =>
    simp only [List.map_cons, mapFind, ih, List.mem_cons]
    by_cases h : a = k
    · subst h; simp
    · have h' : ¬ k = a := fun e => h e.symm
      simp [h, h']

theorem bucket_eq_nil_iff (recent : List (String × time_t)) (t : time_t) :
    AddMenu.bucket recent t = [] ↔ t ∉ AddMenu.timestamps recent := by
  rw [mem_timestamps]
  unfold AddMenu.bucket
  simp only [List.map_eq_nil_iff, List.filter_eq_nil_iff, decide_eq_true_eq, not_exists]
  constructor
  · intro h s hs
    exact h (s, t) hs rfl
  · rintro h ⟨s, t'⟩ hs rfl
    exact h s hs

/-- The reverse mapping holds, for each timestamp of the list in order, its bucket. -/
theorem reverseMap_eq (recent : List (String × time_t)) :
    AddMenu.reverseMap recent =
      (AddMenu.timestamps recent).map fun t => (t, AddMenu.bucket recent t) := by
  apply sortedMap_ext
  · exact keys_sorted_reverseMap_fold recent [] List.sorted_nil
  · rw [List.map_map]
    have : (Prod.fst ∘ fun t => (t, AddMenu.bucket recent t)) = id := rfl
    rw [this, List.map_id]
    exact sorted_timestamps recent
  · intro k
    unfold AddMenu.reverseMap
    rw [mapFind_reverseMap_fold, mapFind_map_pair]
    by_cases hb : AddMenu.bucket recent k = []
    · have := (bucket_eq_nil_iff recent k).mp hb
      simp [hb, this, mapFind]
    · have : k ∈ AddMenu.timestamps recent := by
        by_contra hk
        exact hb ((bucket_eq_nil_iff recent k).mpr hk)
      simp [hb, this, mapFind]

/-- Sorting the elements of a list into the classes of a duplicate-free list of keys that
covers them rearranges the list. -/
theorem perm_flatMap_filter {α κ : Type} [DecidableEq κ] (f : α → κ) (ts : List κ)
    (l : List α) (hts : ts.Nodup) (hl : ∀ x ∈ l, f x ∈ ts) :
    (ts.flatMap fun t => l.filter fun x => decide (f x = t)).Perm l := by
  induction ts generalizing l with
  | nil =>
    cases l with
    | nil => simp
    | cons a l => exact absurd (hl a (List.mem_cons_self _ _)) (List.not_mem_nil _)
  | cons t ts ih =>
    obtain ⟨ht, hts'⟩ := List.nodup_cons.mp hts
    rw [List.flatMap_cons]
    have hrest : (ts.flatMap fun t' => l.filter fun x => decide (f x = t')) =
        ts.flatMap fun t' => (l.filter fun x => !decide (f x = t)).filter
          fun x => decide (f x = t') := by
      apply List.flatMap_congr
      intro t' ht'
      rw [List.filter_filter]
      apply List.filter_congr
      intro x _
      by_cases hx : f x = t'
      · have hne : ¬ t' = t := fun e => ht (e ▸ ht')
        simp [hx, hne]
      · simp [hx]
    rw [hrest]
    have hcover : ∀ x ∈ l.filter (fun x => !decide (f x = t)), f x ∈ ts := by
      intro x hx
      obtain ⟨hxl, hxt⟩ := List.mem_filter.mp hx
      rcases List.mem_cons.mp (hl x hxl) with h | h
      · simp [h] at hxt
      · exact h
    exact (List.Perm.append_left _ (ih _ hts' hcover)).trans (List.filter_append_perm _ l)

theorem mem_bucket (recent : List (String × time_t)) (t : time_t) (s : String) :
    s ∈ AddMenu.bucket recent t ↔ (s, t) ∈ recent := by
  unfold AddMenu.bucket
  simp only [List.mem_map, List.mem_filter, decide_eq_true_eq]
  constructor
  · rintro ⟨⟨s', t'⟩, ⟨h, rfl⟩, rfl⟩
    exact h
  · intro h
    exact ⟨(s, t), ⟨h, rfl⟩, rfl⟩

/-- All buckets of the timestamps, one after the other, are the connection strings of
`m_recentInstruments` in another order. -/
theorem perm_buckets (recent : List (String × time_t)) (ts : List time_t) (hts : ts.Nodup)
    (hcover : ∀ t, t ∈ ts ↔ ∃ s, (s, t) ∈ recent) :
    (ts.flatMap (AddMenu.bucket recent)).Perm (recent.map Prod.fst) := by
  have h := perm_flatMap_filter (fun it : String × time_t => it.2) ts recent hts
    (fun x hx => (hcover x.2).mpr ⟨x.1, hx⟩)
  have h2 := h.map Prod.fst
  rw [List.map_flatMap] at h2
  exact h2

theorem mapIndex_reverseMap (recent : List (String × time_t)) (t : time_t)
    (ht : t ∈ AddMenu.timestamps recent) :
    mapIndex [] (AddMenu.reverseMap recent) t =
      (AddMenu.bucket recent t, AddMenu.reverseMap recent) := by
  unfold mapIndex
  rw [reverseMap_eq, mapFind_map_pair]
  simp [ht]

/-- C13. The reverse mapping built by `AddMenu` maps each timestamp `t` of the timestamp
list to exactly the connection strings whose last-used time in `m_recentInstruments` is
`t`, and has no entry for any other time. All its buckets together hold every connection
string of `m_recentInstruments` exactly once (the keys of `m_recentInstruments` being
distinct), so each connection string is in exactly one bucket, once. No bucket is empty.
The keys of the reverse mapping are the elements of the timestamp list, in the same order,
so a lookup `reverseMap[t]` of a submenu returns the bucket and leaves the mapping as it
is. -/
theorem C13_reverse_map (recent : List (String × time_t))
    (hkeys : (recent.map Prod.fst).Nodup) :
    (∀ t ∈ AddMenu.timestamps recent, ∃ bucket,
      mapFind (AddMenu.reverseMap recent) t = some bucket ∧
        ∀ s, s ∈ bucket ↔ (s, t) ∈ recent) ∧
    (∀ t, t ∉ AddMenu.timestamps recent → mapFind (AddMenu.reverseMap recent) t = none) ∧
    ((AddMenu.reverseMap recent).flatMap Prod.snd).Perm (recent.map Prod.fst) ∧
    ((AddMenu.reverseMap recent).flatMap Prod.snd).Nodup ∧
    (∀ s t, (s, t) ∈ recent → ∀ p ∈ AddMenu.reverseMap recent, s ∈ p.2 → p.1 = t) ∧
    (∀ p ∈ AddMenu.reverseMap recent, p.2 ≠ []) ∧
    (AddMenu.reverseMap recent).map Prod.fst = AddMenu.timestamps recent ∧
    ((AddMenu.reverseMap recent).map Prod.fst).Nodup ∧
    (∀ t ∈ AddMenu.timestamps recent, ∃ bucket,
      mapIndex [] (AddMenu.reverseMap recent) t = (bucket, AddMenu.reverseMap recent)) := by
  have hperm : ((AddMenu.reverseMap recent).flatMap Prod.snd).Perm (recent.map Prod.fst) := by
    rw [reverseMap_eq, List.flatMap_map]
    exact perm_buckets recent _ (sorted_timestamps recent).nodup (mem_timestamps recent)
  have hkeyseq : (AddMenu.reverseMap recent).map Prod.fst = AddMenu.timestamps recent := by
    rw [reverseMap_eq, List.map_map]
    exact List.map_id _
  refine ⟨?_, ?_, hperm, hperm.nodup_iff.mpr hkeys, ?_, ?_, hkeyseq, ?_, ?_⟩
  · intro t ht
    refine ⟨AddMenu.bucket recent t, ?_, mem_bucket recent t⟩
    rw [reverseMap_eq, mapFind_map_pair]
    simp [ht]
  · intro t ht
    rw [reverseMap_eq, mapFind_map_pair]
    simp [ht]
  · intro s t hst p hp hs
    rw [reverseMap_eq] at hp
    obtain ⟨t', _, rfl⟩ := List.mem_map.mp hp
    have h1 : (s, t') ∈ recent := (mem_bucket recent t' s).mp hs
    by_contra hne
    have hcount : ∀ (l : List (String × time_t)), (l.map Prod.fst).Nodup → (s, t) ∈ l →
        (s, t') ∈ l → t' = t := by
      intro l hl ha hb
      induction l with
      | nil => cases ha
      | cons q l ih =>
        rw [List.map_cons, List.nodup_cons] at hl
        rcases List.mem_cons.mp ha with ha | ha <;> rcases List.mem_cons.mp hb with hb | hb
        · rw [← ha] at hb
          exact (Prod.mk.inj hb).2
        · exact absurd (List.mem_map.mpr ⟨(s, t'), hb, by rw [← ha]⟩) hl.1
        · exact absurd (List.mem_map.mpr ⟨(s, t), ha, by rw [← hb]⟩) hl.1
        · exact ih hl.2 ha hb
    exact hne (hcount recent hkeys hst h1)
  · intro p hp
    rw [reverseMap_eq] at hp
    obtain ⟨t, ht, rfl⟩ := List.mem_map.mp hp
    exact fun h => (bucket_eq_nil_iff recent t).mp h ht
  · rw [hkeyseq]
    exact (sorted_timestamps recent).nodup
  · intro t ht
    exact ⟨_, mapIndex_reverseMap recent t ht⟩

/-- A witness of C13: three recent instruments, two of them last used at time 5. -/
theorem C13_reverse_map_witness :
    ([("a", 5), ("b", 2), ("c", 5)].map Prod.fst : List String).Nodup ∧
      AddMenu.reverseMap [("a", 5), ("b", 2), ("c", 5)] = [(2, ["b"]), (5, ["a", "c"])] ∧
      (AddMenu.reverseMap [("a", 5), ("b", 2), ("c", 5)]).map Prod.fst =
        AddMenu.timestamps [("a", 5), ("b", 2), ("c", 5)] :=
  ⟨by decide, by decide,
    (C13_reverse_map [("a", 5), ("b", 2), ("c", 5)] (by decide)).2.2.2.2.2.2.1⟩

/-! ## C12: the "Recent instruments" loop -/

theorem lastIndexAsInt_eq (n : Nat) (h : n ≤ 2 ^ 31) : lastIndexAsInt n = (n : Int) - 1 := by
  unfold lastIndexAsInt
  simp only []
  split_ifs <;> omega

theorem recentInstruments_from (entry : String → World → World) (ts : List time_t) :
    ∀ (k fuel : Nat) (st : List (time_t × List String) × World), k ≤ ts.length → k < fuel →
      recentInstruments entry ts fuel ((k : Int) - 1) st =
        some ((List.range k).reverse.foldl (fun st i => recentRound entry st (ts.getD i 0)) st) := by
  intro k
  induction k with
  | zero =>
    intro fuel st _ hf
    obtain ⟨f, rfl⟩ : ∃ f, fuel = f + 1 := ⟨fuel - 1, by omega⟩
    simp [recentInstruments]
  | succ k ih =>
    intro fuel st hk hf
    obtain ⟨f, rfl⟩ : ∃ f, fuel = f + 1 := ⟨fuel - 1, by omega⟩
    have hi : (0 : Int) ≤ ((k + 1 : Nat) : Int) - 1 := by omega
    have hnat : (((k + 1 : Nat) : Int) - 1).toNat = k := by omega
    have hget : ts.get? k = some (ts.getD k 0) := by
      rw [List.get?_eq_getElem?, List.getD_eq_getElem?_getD, List.getElem?_eq_getElem (by omega)]
      rfl
    have hpred : ((k + 1 : Nat) : Int) - 1 - 1 = (k : Int) - 1 := by omega
    rw [recentInstruments]
    simp only [hi, if_true, hnat, hget, hpred]
    rw [ih f _ (by omega) (by omega), List.range_succ, List.reverse_append]
    rfl

theorem map_getD_range (ts : List time_t) :
    (List.range ts.length).map (fun i => ts.getD i 0) = ts := by
  apply List.ext_getElem
  · simp
  · intro i h₁ h₂
    simp [List.getD_eq_getElem?_getD, List.getElem?_eq_getElem h₂]

/-- The loop over the indices from the back is the loop over the reversed list. -/
theorem foldl_indices_eq (entry : String → World → World) (ts : List time_t)
    (st : List (time_t × List String) × World) :
    (List.range ts.length).reverse.foldl (fun st i => recentRound entry st (ts.getD i 0)) st =
      ts.reverse.foldl (recentRound entry) st := by
  conv_rhs => rw [← map_getD_range ts, ← List.map_reverse, List.foldl_map]

/-- With the reverse mapping of `AddMenu`, the rounds for timestamps of the timestamp list
leave the mapping as it is and run the entries of the buckets. -/
theorem foldl_recentRound (entry : String → World → World) (recent : List (String × time_t))
    (l : List time_t) (hl : ∀ t ∈ l, t ∈ AddMenu.timestamps recent) (w : World) :
    l.foldl (recentRound entry) (AddMenu.reverseMap recent, w) =
      (AddMenu.reverseMap recent,
        (l.flatMap (AddMenu.bucket recent)).foldl (fun w cstring => entry cstring w) w) := by
  induction l generalizing w with
  | nil => rfl
  | cons t l ih =>
    have ht := hl t (List.mem_cons_self _ _)
    rw [List.foldl_cons]
    have hround : recentRound entry (AddMenu.reverseMap recent, w) t =
        (AddMenu.reverseMap recent,
          (AddMenu.bucket recent t).foldl (fun w cstring => entry cstring w) w) := by
      unfold recentRound
      simp only [mapIndex_reverseMap recent t ht]
    rw [hround, ih (fun t' ht' => hl t' (List.mem_cons_of_mem _ ht')), List.flatMap_cons,
      List.foldl_append]

theorem considered_map_fst (recent : List (String × time_t)) :
    (AddMenu.considered recent).map Prod.fst =
      (AddMenu.timestamps recent).reverse.flatMap (AddMenu.bucket recent) := by
  unfold AddMenu.considered
  rw [List.map_flatMap]
  rfl

theorem perm_considered (recent : List (String × time_t)) :
    (AddMenu.considered recent).Perm recent := by
  unfold AddMenu.considered
  apply perm_flatMap_filter (fun it : String × time_t => it.2)
  · exact List.nodup_reverse.mpr (sorted_timestamps recent).nodup
  · intro x hx
    rw [List.mem_reverse, mem_timestamps]
    exact ⟨x.1, hx⟩

theorem sorted_considered (recent : List (String × time_t)) :
    ((AddMenu.considered recent).map Prod.snd).Sorted (fun t later => t ≥ later) := by
  unfold AddMenu.considered List.Sorted
  rw [List.pairwise_map, List.pairwise_flatMap]
  constructor
  · intro t _
    rw [List.pairwise_iff_forall_sublist]
    intro a b hab
    have ha := hab.subset (List.mem_cons_self _ _)
    have hb := hab.subset (List.mem_cons_of_mem _ (List.mem_cons_self _ _))
    simp only [List.mem_filter, decide_eq_true_eq] at ha hb
    rw [ha.2, hb.2]
  · have h := sorted_timestamps recent
    unfold List.Sorted at h
    rw [List.pairwise_reverse]
    refine List.Pairwise.imp ?_ h
    intro a b hab x hx y hy
    simp only [List.mem_filter, decide_eq_true_eq] at hx hy
    rw [hx.2, hy.2]
    exact le_of_lt hab

/-- An open Add submenu runs the "Recent instruments" loop with the entry handler of its
family and the lookup set of its family. -/
theorem submenu_open (env : Env) (fam : Family) (timestamps : List time_t)
    (reverseMap : List (time_t × List String)) (w₀ : World) (h₀ : w₀.answer.1 = true) :
    ∃ w₁, submenu env fam timestamps reverseMap w₀ =
      recentInstruments (submenuEntry env fam (makeDriverSet (env.EnumDrivers fam)))
        timestamps (timestamps.length + 1) (lastIndexAsInt timestamps.length)
        (reverseMap, w₁) := by
  cases fam <;>
    simp only [submenu, AddGeneratorMenu, AddMultimeterMenu, AddOscilloscopeMenu,
      AddPowerSupplyMenu, AddRFGeneratorMenu, BeginMenu, h₀, if_true, submenuEntry,
      Env.EnumDrivers] <;>
    exact ⟨_, rfl⟩

theorem recentInstruments_all (entry : String → World → World) (ts : List time_t)
    (st : List (time_t × List String) × World) (hsize : ts.length ≤ 2 ^ 31) :
    recentInstruments entry ts (ts.length + 1) (lastIndexAsInt ts.length) st =
      some ((List.range ts.length).reverse.foldl
        (fun st i => recentRound entry st (ts.getD i 0)) st) := by
  rw [lastIndexAsInt_eq _ hsize]
  exact recentInstruments_from entry ts ts.length (ts.length + 1) st (le_refl _) (by omega)

theorem recentInstruments_recent (entry : String → World → World)
    (recent : List (String × time_t)) (w : World)
    (hsize : (AddMenu.timestamps recent).length ≤ 2 ^ 31) :
    recentInstruments entry (AddMenu.timestamps recent)
        ((AddMenu.timestamps recent).length + 1)
        (lastIndexAsInt (AddMenu.timestamps recent).length) (AddMenu.reverseMap recent, w) =
      some (AddMenu.reverseMap recent,
        ((AddMenu.considered recent).map Prod.fst).foldl (fun w cstring => entry cstring w) w) := by
  rw [recentInstruments_all entry _ _ hsize, foldl_indices_eq,
    foldl_recentRound entry recent _ (fun t ht => List.mem_reverse.mp ht), considered_map_fst]

/-- The timestamp list of recent instruments whose last-used times are in strictly
ascending order is the list of these times. -/
theorem timestamps_of_sorted (recent : List (String × time_t))
    (h : (recent.map Prod.snd).Sorted (· < ·)) :
    AddMenu.timestamps recent = recent.map Prod.snd := by
  apply List.eq_of_perm_of_sorted _ (sorted_timestamps recent) h
  rw [List.perm_ext_iff_of_nodup (sorted_timestamps recent).nodup h.nodup]
  intro t
  rw [mem_timestamps]
  simp

theorem length_timestamps_recentUpTo (n : Nat) :
    (AddMenu.timestamps (recentUpTo n)).length = n := by
  have hmap : (recentUpTo n).map Prod.snd = (List.range n).map Int.ofNat := by
    unfold recentUpTo
    rw [List.map_map]
    rfl
  have hsorted : ((recentUpTo n).map Prod.snd).Sorted (· < ·) := by
    rw [hmap]
    unfold List.Sorted
    rw [List.pairwise_map]
    exact List.Pairwise.imp (fun h => Int.ofNat_lt.mpr h) (List.pairwise_lt_range _)
  rw [timestamps_of_sorted _ hsorted, hmap, List.length_map, List.length_range]

theorem length_recentUpTo (n : Nat) : (recentUpTo n).length = n := by
  unfold recentUpTo
  rw [List.length_map, List.length_range]

/-- C12, counterexample. With `2 ^ 31 + 1` recent instruments last used at pairwise
different times the timestamp list has `2 ^ 31 + 1` elements; `size() - 1` is `2 ^ 31`,
which becomes the `int` `-2 ^ 31`, so the loop of a submenu ends at once: whatever the
entry handler and the world, the run returns them unchanged, no index of the list is
visited and no entry is considered. -/
theorem C12_counterexample :
    (recentUpTo (2 ^ 31 + 1)).length = 2 ^ 31 + 1 ∧
    (AddMenu.timestamps (recentUpTo (2 ^ 31 + 1))).length = 2 ^ 31 + 1 ∧
    lastIndexAsInt (AddMenu.timestamps (recentUpTo (2 ^ 31 + 1))).length = -2 ^ 31 ∧
    ∀ (entry : String → World → World) (w : World),
      recentInstruments entry (AddMenu.timestamps (recentUpTo (2 ^ 31 + 1)))
          ((AddMenu.timestamps (recentUpTo (2 ^ 31 + 1))).length + 1)
          (lastIndexAsInt (AddMenu.timestamps (recentUpTo (2 ^ 31 + 1))).length)
          (AddMenu.reverseMap (recentUpTo (2 ^ 31 + 1)), w) =
        some (AddMenu.reverseMap (recentUpTo (2 ^ 31 + 1)), w) := by
  have hlen := length_timestamps_recentUpTo (2 ^ 31 + 1)
  have hidx : lastIndexAsInt (2 ^ 31 + 1) = -2 ^ 31 := by decide
  refine ⟨length_recentUpTo _, hlen, by rw [hlen, hidx], ?_⟩
  intro entry w
  rw [hlen, hidx, recentInstruments]
  simp

/-- C12, amended. For every timestamp list with at most `2 ^ 31` elements (the loop counter
is an `int`), including the empty list, where the unsigned `size() - 1` wraps and becomes
the `int` `-1`: the counter starts at the last index, and the "Recent instruments" loop of
each Add submenu returns after one round for each index of the list, from the last index
down to 0, each index once and none outside the list. Consequently, with the timestamp
list and the reverse mapping of `AddMenu` (the keys of `m_recentInstruments` being
distinct), every open submenu returns the reverse mapping unchanged and has run its entry
handler on the connection strings of `m_recentInstruments`, each exactly once, in
non-increasing order of last-used time (most recently used first). -/
theorem C12_recent_loop (env : Env) (recent : List (String × time_t))
    (hkeys : (recent.map Prod.fst).Nodup)
    (hsize : (AddMenu.timestamps recent).length ≤ 2 ^ 31) :
    (∀ (entry : String → World → World) (timestamps : List time_t)
        (st : List (time_t × List String) × World), timestamps.length ≤ 2 ^ 31 →
      lastIndexAsInt timestamps.length = (timestamps.length : Int) - 1 ∧
      recentInstruments entry timestamps (timestamps.length + 1)
          (lastIndexAsInt timestamps.length) st =
        some ((List.range timestamps.length).reverse.foldl
          (fun st i => recentRound entry st (timestamps.getD i 0)) st)) ∧
    lastIndexAsInt 0 = -1 ∧
    (∀ n : Nat, (List.range n).reverse.Nodup ∧ (∀ i, i ∈ (List.range n).reverse ↔ i < n) ∧
      (List.range n).reverse.Sorted (fun i next => i > next)) ∧
    (∀ (entry : String → World → World) (w : World),
      recentInstruments entry (AddMenu.timestamps recent)
          ((AddMenu.timestamps recent).length + 1)
          (lastIndexAsInt (AddMenu.timestamps recent).length)
          (AddMenu.reverseMap recent, w) =
        some (AddMenu.reverseMap recent,
          ((AddMenu.considered recent).map Prod.fst).foldl
            (fun w cstring => entry cstring w) w)) ∧
    (∀ (fam : Family) (w₀ : World), w₀.answer.1 = true →
      ∃ w₁, submenu env fam (AddMenu.timestamps recent) (AddMenu.reverseMap recent) w₀ =
        some (AddMenu.reverseMap recent,
          ((AddMenu.considered recent).map Prod.fst).foldl
            (fun w cstring =>
              submenuEntry env fam (makeDriverSet (env.EnumDrivers fam)) cstring w) w₁)) ∧
    (AddMenu.considered recent).Perm recent ∧
    ((AddMenu.considered recent).map Prod.fst).Nodup ∧
    ((AddMenu.considered recent).map Prod.snd).Sorted (fun t later => t ≥ later) := by
  refine ⟨?_, by decide, ?_, ?_, ?_, perm_considered recent, ?_, sorted_considered recent⟩
  · intro entry timestamps st h
    exact ⟨lastIndexAsInt_eq _ h, recentInstruments_all entry timestamps st h⟩
  · intro n
    refine ⟨List.nodup_reverse.mpr (List.nodup_range n), fun i => by simp, ?_⟩
    unfold List.Sorted
    rw [List.pairwise_reverse]
    exact List.pairwise_lt_range n
  · intro entry w
    exact recentInstruments_recent entry recent w hsize
  · intro fam w₀ h₀
    obtain ⟨w₁, h₁⟩ := submenu_open env fam (AddMenu.timestamps recent)
      (AddMenu.reverseMap recent) w₀ h₀
    exact ⟨w₁, h₁.trans (recentInstruments_recent _ recent w₁ hsize)⟩
  · exact ((perm_considered recent).map Prod.fst).nodup_iff.mpr hkeys

/-- The whole Add menu on the example: the open Oscilloscope submenu offers the scope last
used at time 7 before the scope last used at time 3, and not the power supply. -/
theorem example_AddMenu_order :
    (AddMenu exampleEnv exampleRecentWorld).map (fun w => offeredLabels w.trace) =
      some ["Connect...", "scope1", "old"] := by
  decide

/-- A witness of C12: three recent instruments; the two used at time 5 are considered
before the one used at time 2. -/
theorem C12_recent_loop_witness :
    ([("a", 5), ("b", 2), ("c", 5)].map Prod.fst : List String).Nodup ∧
      (AddMenu.timestamps [("a", 5), ("b", 2), ("c", 5)]).length ≤ 2 ^ 31 ∧
      AddMenu.considered [("a", 5), ("b", 2), ("c", 5)] = [("a", 5), ("c", 5), ("b", 2)] ∧
      recentInstruments (fun cstring w => w.log (.LogDebug cstring))
          (AddMenu.timestamps [("a", 5), ("b", 2), ("c", 5)])
          ((AddMenu.timestamps [("a", 5), ("b", 2), ("c", 5)]).length + 1)
          (lastIndexAsInt (AddMenu.timestamps [("a", 5), ("b", 2), ("c", 5)]).length)
          (AddMenu.reverseMap [("a", 5), ("b", 2), ("c", 5)], exampleWorld) =
        some (AddMenu.reverseMap [("a", 5), ("b", 2), ("c", 5)],
          ((AddMenu.considered [("a", 5), ("b", 2), ("c", 5)]).map Prod.fst).foldl
            (fun w cstring => w.log (.LogDebug cstring)) exampleWorld) :=
  ⟨by decide, by decide, by decide,
    (C12_recent_loop exampleEnv [("a", 5), ("b", 2), ("c", 5)] (by decide) (by decide)).2.2.2.1
      (fun cstring w => w.log (.LogDebug cstring)) exampleWorld⟩

/-! ## C15: the label of an import filter -/

theorem occursIn_iff (pat l : List Char) : occursIn pat l = true ↔ pat <:+: l := by
  induction l with
  | nil => simp [occursIn, List.isPrefixOf_iff_prefix]
  | cons c cs ih =>
    simp only [occursIn, Bool.or_eq_true, ih, List.isPrefixOf_iff_prefix, List.infix_cons_iff]

theorem findSubstring_iff (s pat : String) :
    findSubstring s pat = true ↔ ∃ pre post : String, s = pre ++ pat ++ post := by
  unfold findSubstring
  rw [occursIn_iff]
  constructor
  · rintro ⟨a, b, h⟩
    refine ⟨String.mk a, String.mk b, ?_⟩
    apply String.ext
    simp [String.data_append, h]
  · rintro ⟨pre, post, rfl⟩
    exact ⟨pre.data, post.data, by simp [String.data_append]⟩

theorem strlen_import : strlen " Import" = 7 := by decide

theorem bytes_append (a b : String) : bytes (a ++ b) = bytes a ++ bytes b := by
  simp [bytes, String.data_append, List.flatMap_append]

theorem size_append (a b : String) : size (a ++ b) = size a + size b := by
  simp [size, bytes_append]

theorem size_import : size " Import" = 7 := by decide

theorem size_eq_utf8ByteSize (s : String) : size s = s.utf8ByteSize := by
  rw [← String.size_toUTF8]
  rfl

theorem bytes_of_ascii (l : List Char) (h : ∀ c ∈ l, c.toNat < 128) :
    (String.mk l |> bytes) = l.map fun c => c.val.toUInt8 := by
  induction l with
  | nil => rfl
  | cons c cs ih =>
    have hc : c.val ≤ 0x7f := by
      have := h c (List.mem_cons_self _ _)
      show c.val.toNat ≤ 127
      unfold Char.toNat at this
      omega
    have := ih fun c hc => h c (List.mem_cons_of_mem _ hc)
    simp only [bytes, List.flatMap_cons, List.map_cons] at this ⊢
    rw [this]
    simp [String.utf8EncodeChar, hc]

theorem size_of_ascii (s : String) (h : ∀ c ∈ s.data, c.toNat < 128) :
    size s = s.data.length := by
  have := bytes_of_ascii s.data h
  unfold size
  rw [show s = String.mk s.data from rfl, this]
  simp

theorem substr_zero (s : List UInt8) (count : Nat) :
    substr s 0 count = some (s.take (min count s.length)) := by
  simp [substr]

theorem sizeSub_of_le (a b : Nat) (ha : a < 2 ^ 64) (hb : b ≤ a) : sizeSub a b = a - b := by
  unfold sizeSub
  omega

theorem sizeSub_of_lt (a b : Nat) (hb : b < 2 ^ 64) (hab : a < b) :
    sizeSub a b = 2 ^ 64 + a - b := by
  unfold sizeSub
  omega

theorem shortname_long (fname : String) (hsize : size fname < 2 ^ 64) (h : 7 ≤ size fname) :
    AddImportMenu.shortname fname = some ((bytes fname).take (size fname - 7)) := by
  unfold AddImportMenu.shortname
  rw [substr_zero, strlen_import, sizeSub_of_le _ _ hsize h]
  congr 2
  unfold size
  omega

theorem shortname_short (fname : String) (h : size fname < 7) :
    AddImportMenu.shortname fname = some (bytes fname) := by
  have h7 : (7 : Nat) < 2 ^ 64 := by norm_num
  have hmin : min (sizeSub (size fname) 7) (bytes fname).length = (bytes fname).length := by
    rw [sizeSub_of_lt _ _ h7 h]
    unfold size at h ⊢
    omega
  unfold AddImportMenu.shortname
  rw [substr_zero, strlen_import, hmin, List.take_length]

theorem shortname_suffix (p : String) (hsize : size (p ++ " Import") < 2 ^ 64) :
    AddImportMenu.shortname (p ++ " Import") = some (bytes p) := by
  have hlen : size (p ++ " Import") = size p + 7 := by rw [size_append, size_import]
  rw [shortname_long _ hsize (by omega), hlen, bytes_append]
  simp [size]

theorem shortname_isSome (fname : String) :
    AddImportMenu.shortname fname = some (AddImportMenu.label fname) := by
  have h : AddImportMenu.shortname fname = some _ := substr_zero _ _
  unfold AddImportMenu.label
  rw [h, Option.getD_some]

theorem importItem_eq (fname : String) (w : World) :
    AddImportMenu.item fname w =
      some (if findSubstring fname "Import" then AddImportMenu.offer fname w else w) := by
  unfold AddImportMenu.item
  cases h : findSubstring fname "Import"
  · simp
  · simp only [Bool.not_true, Bool.false_eq_true, if_false, shortname_isSome, if_true]
    unfold AddImportMenu.offer
    split <;> rfl

theorem importOffer_idle (fname : String) (w : World) (hin : w.answer.1 = false) :
    AddImportMenu.offer fname w =
      { w.answer.2 with
        trace := w.trace ++ [.MenuItem_c_str (AddImportMenu.label fname) false] } := by
  simp [AddImportMenu.offer, MenuItem_c_str, hin, World.log, answer_trace]

theorem importOffer_selected (fname : String) (w : World) (hin : w.answer.1 = true) :
    AddImportMenu.offer fname w =
      { w.answer.2 with
        trace := w.trace ++
          [.MenuItem_c_str (AddImportMenu.label fname) true,
            .CreateFilter fname none none 0] } := by
  simp [AddImportMenu.offer, MenuItem_c_str, hin, World.log, answer_trace,
    CreateFilter_unbound]

theorem importOffer_calls (fname : String) (w : World) :
    ∃ calls, (AddImportMenu.offer fname w).trace = w.trace ++ calls ∧
      offeredLabels_c_str calls = [AddImportMenu.label fname] := by
  cases hin : w.answer.1 with
  | false =>
    rw [importOffer_idle fname w hin]
    exact ⟨_, rfl, by simp [offeredLabels_c_str, Event.itemLabel_c_str]⟩
  | true =>
    rw [importOffer_selected fname w hin]
    exact ⟨_, rfl, by simp [offeredLabels_c_str, Event.itemLabel_c_str]⟩

theorem shortname_ascii (fname : String) (hsize : size fname < 2 ^ 64)
    (hascii : ∀ c ∈ fname.data, c.toNat < 128) (h : 7 ≤ fname.data.length) :
    AddImportMenu.shortname fname =
      some (bytes (String.mk (fname.data.take (fname.data.length - 7)))) := by
  have hs := size_of_ascii fname hascii
  rw [shortname_long fname hsize (by omega), hs,
    bytes_of_ascii _ fun c hc => hascii c (List.mem_of_mem_take hc),
    show fname = String.mk fname.data from rfl, bytes_of_ascii _ hascii, List.map_take]

/-- C15. The label `AddImportMenu` shows for a filter name (of a size below `2 ^ 64`, as
every `std::string` is) is the name with its last 7 characters, the length of " Import",
removed when the name has at least 7 characters, and the whole name when it has fewer:
then the unsigned subtraction `size() - 7` wraps to a count beyond the size, and `substr`
never throws. The characters are the `char`s that `size()` and `strlen` count, the bytes
of the UTF-8 encoding of the name; in a name of ASCII characters they are the characters
of the text. In particular, for every name that ends with " Import",
label ++ " Import" equals the name, the label being the text before " Import", while a
name of at least 7 characters loses its last 7 characters also when it does not end with
" Import". The label is the one of the menu item submitted for a name that contains
"Import". -/
theorem C15_import_label (fname : String) (hsize : size fname < 2 ^ 64) :
    strlen " Import" = 7 ∧
    (7 ≤ size fname →
      AddImportMenu.shortname fname = some ((bytes fname).take (size fname - 7))) ∧
    (size fname < 7 →
      AddImportMenu.shortname fname = some (bytes fname) ∧
        size fname < sizeSub (size fname) (strlen " Import")) ∧
    (∃ label, AddImportMenu.shortname fname = some label) ∧
    (∀ p : String, fname = p ++ " Import" →
      AddImportMenu.shortname fname = some (bytes p) ∧
        bytes p ++ bytes " Import" = bytes fname) ∧
    (7 ≤ size fname → ∃ label lost : List UInt8,
      AddImportMenu.shortname fname = some label ∧ bytes fname = label ++ lost ∧
        lost.length = 7) ∧
    ((∀ c ∈ fname.data, c.toNat < 128) →
      size fname = fname.data.length ∧
        (7 ≤ fname.data.length →
          AddImportMenu.shortname fname =
            some (bytes (String.mk (fname.data.take (fname.data.length - 7)))))) ∧
    (∀ w : World, findSubstring fname "Import" = true → ∃ label w',
      AddImportMenu.shortname fname = some label ∧ AddImportMenu.item fname w = some w' ∧
        offeredLabels_c_str (w'.since w) = [label]) := by
  refine ⟨strlen_import, shortname_long fname hsize, ?_, ⟨_, shortname_isSome fname⟩, ?_, ?_,
    ?_, ?_⟩
  · intro h
    refine ⟨shortname_short fname h, ?_⟩
    rw [strlen_import, sizeSub_of_lt _ _ (by norm_num) h]
    omega
  · rintro p rfl
    exact ⟨shortname_suffix p hsize, (bytes_append p " Import").symm⟩
  · intro h
    refine ⟨_, (bytes fname).drop (size fname - 7), shortname_long fname hsize h,
      (List.take_append_drop _ _).symm, ?_⟩
    rw [List.length_drop]
    unfold size at h ⊢
    omega
  · intro hascii
    exact ⟨size_of_ascii fname hascii, shortname_ascii fname hsize hascii⟩
  · intro w hfind
    obtain ⟨calls, ht, ho⟩ := importOffer_calls fname w
    refine ⟨AddImportMenu.label fname, AddImportMenu.offer fname w, shortname_isSome fname,
      ?_, ?_⟩
    · rw [importItem_eq, hfind]
      rfl
    · rw [since_of_trace_eq _ _ _ ht, ho]

/-- A witness of C15: "Importé" contains "Import", does not end with " Import", has 8
`char`s (the last character takes two) and is shown as "I", as is "Importer"; "CSV Import"
is shown as "CSV"; "Import" has 6 `char`s and is shown whole; "éImport" has 8 `char`s and
is shown as the first of them, the first byte of "é". -/
theorem C15_import_label_witness :
    size "Importé" < 2 ^ 64 ∧ size "Importé" = 8 ∧
      AddImportMenu.shortname "Importé" = some (bytes "I") ∧
      AddImportMenu.shortname "Importer" = some (bytes "I") ∧
      AddImportMenu.shortname "CSV Import" = some (bytes "CSV") ∧
      AddImportMenu.shortname "Import" = some (bytes "Import") ∧
      AddImportMenu.shortname "éImport" = some [0xc3] :=
  ⟨by decide, by decide,
    ((C15_import_label "Importé" (by decide)).2.1 (by decide)).trans (by decide),
    ((C15_import_label "Importer" (by decide)).2.1 (by decide)).trans (by decide),
    ((C15_import_label "CSV Import" (by decide)).2.2.2.2.1 "CSV" (by decide)).1,
    ((C15_import_label "Import" (by decide)).2.2.1 (by decide)).1,
    ((C15_import_label "éImport" (by decide)).2.1 (by decide)).trans (by decide)⟩

/-! ## C14: the Add | Import menu -/

theorem mem_generationFilterNames (env : Env) (refs : List (String × Ptr)) (n : String) :
    n ∈ generationFilterNames env refs ↔
      ∃ f, (n, f) ∈ refs ∧ env.GetCategory f = .CAT_GENERATION := by
  unfold generationFilterNames std_sort
  rw [(List.perm_insertionSort _ _).mem_iff]
  simp only [List.mem_map, List.mem_filter, decide_eq_true_eq]
  constructor
  · rintro ⟨⟨n', f⟩, ⟨h, hc⟩, rfl⟩
    exact ⟨f, h, hc⟩
  · rintro ⟨f, h, hc⟩
    exact ⟨(n, f), ⟨h, hc⟩, rfl⟩

theorem sorted_generationFilterNames (env : Env) (refs : List (String × Ptr))
    (hnames : (refs.map Prod.fst).Nodup) :
    (generationFilterNames env refs).Sorted (· < ·) := by
  unfold generationFilterNames std_sort
  apply List.Sorted.lt_of_le (List.sorted_insertionSort _ _)
  rw [(List.perm_insertionSort _ _).nodup_iff]
  exact hnames.sublist ((List.filter_sublist _).map Prod.fst)

theorem importItems_eq (names : List String) (w : World) :
    names.foldlM (fun w fname => AddImportMenu.item fname w) w =
      some ((names.filter fun fname => findSubstring fname "Import").foldl
        (fun w fname => AddImportMenu.offer fname w) w) := by
  induction names generalizing w with
  | nil => rfl
  | cons n names ih =>
    rw [List.foldlM_cons, importItem_eq, List.filter_cons]
    cases h : findSubstring n "Import" <;> simp [ih]

theorem importOffers_labels (names : List String) (w : World) :
    ∃ calls, (names.foldl (fun w fname => AddImportMenu.offer fname w) w).trace =
        w.trace ++ calls ∧
      offeredLabels_c_str calls = names.map AddImportMenu.label := by
  induction names generalizing w with
  | nil => exact ⟨[], by simp, rfl⟩
  | cons n names ih =>
    obtain ⟨l₁, ht₁, ho₁⟩ := importOffer_calls n w
    obtain ⟨l₂, ht₂, ho₂⟩ := ih (AddImportMenu.offer n w)
    refine ⟨l₁ ++ l₂, by simp [ht₂, ht₁], ?_⟩
    unfold offeredLabels_c_str at ho₁ ho₂ ⊢
    simp [List.filterMap_append, ho₁, ho₂]

/-- C14. When the Add | Import menu is open (the names of the reference filters being
distinct, as the keys of a map are), it submits one item for each import filter name and
no other item: a name is an import filter name if and only if it is the name of a
reference filter of category `CAT_GENERATION` and contains "Import"; the names are taken
in strictly ascending lexicographic order of the full name, so each occurs once; the items
are labelled with the short names. An activated item calls `CreateFilter` with the full
name, no parent and the unbound stream `StreamDescriptor(nullptr, 0)`; an item that is
not activated makes no further call. -/
theorem C14_import_menu (env : Env) (w : World)
    (hnames : ((env.GetReferenceFilters w.win.m_session).map Prod.fst).Nodup)
    (hopen : w.answer.1 = true) :
    (∀ n, n ∈ importFilterNames env (env.GetReferenceFilters w.win.m_session) ↔
      (∃ f, (n, f) ∈ env.GetReferenceFilters w.win.m_session ∧
        env.GetCategory f = .CAT_GENERATION) ∧
      ∃ pre post : String, n = pre ++ "Import" ++ post) ∧
    (importFilterNames env (env.GetReferenceFilters w.win.m_session)).Sorted
      (fun n next => n < next) ∧
    (importFilterNames env (env.GetReferenceFilters w.win.m_session)).Nodup ∧
    AddImportMenu env w =
      some ((importFilterNames env (env.GetReferenceFilters w.win.m_session)).foldl
        (fun w fname => AddImportMenu.offer fname w) (BeginMenu "Import" w).2) ∧
    (∀ (names : List String) (w₀ : World),
      offeredLabels_c_str
          ((names.foldl (fun w fname => AddImportMenu.offer fname w) w₀).since w₀) =
        names.map AddImportMenu.label) ∧
    (∀ (fname : String) (w₀ : World), w₀.answer.1 = true →
      (AddImportMenu.offer fname w₀).since w₀ =
        [.MenuItem_c_str (AddImportMenu.label fname) true,
          .CreateFilter fname none none 0]) ∧
    (∀ (fname : String) (w₀ : World), w₀.answer.1 = false →
      (AddImportMenu.offer fname w₀).since w₀ =
        [.MenuItem_c_str (AddImportMenu.label fname) false]) := by
  have hsorted := (sorted_generationFilterNames env _ hnames).filter
    (fun fname => findSubstring fname "Import")
  refine ⟨?_, hsorted, hsorted.nodup, ?_, ?_, ?_, ?_⟩
  · intro n
    unfold importFilterNames
    rw [List.mem_filter, mem_generationFilterNames, findSubstring_iff]
  · have hb : (BeginMenu "Import" w).1 = true := hopen
    unfold AddImportMenu
    simp only [hb, if_true]
    exact importItems_eq _ _
  · intro names w₀
    obtain ⟨calls, ht, ho⟩ := importOffers_labels names w₀
    rw [since_of_trace_eq _ _ _ ht, ho]
  · intro fname w₀ hin
    rw [importOffer_selected fname w₀ hin]
    exact since_of_trace_eq _ _ _ rfl
  · intro fname w₀ hin
    rw [importOffer_idle fname w₀ hin]
    exact since_of_trace_eq _ _ _ rfl

theorem example_generationFilterNames :
    generationFilterNames exampleEnv (exampleEnv.GetReferenceFilters exampleWorld.win.m_session) =
      ["CSV Import", "Importer", "Sine"] := by
  simp [generationFilterNames, std_sort, exampleEnv, List.insertionSort, List.orderedInsert]
  decide

theorem example_importFilterNames :
    importFilterNames exampleEnv (exampleEnv.GetReferenceFilters exampleWorld.win.m_session) =
      ["CSV Import", "Importer"] := by
  unfold importFilterNames
  rw [example_generationFilterNames]
  decide

/-- A witness of C14: of the reference filters "CSV Import", "Importer", "Sine" (category
`CAT_GENERATION`) and "WAV Import" (another category), the open menu offers "CSV Import"
under the label "CSV" and "Importer" under the label "I", in this order. -/
theorem C14_import_menu_witness :
    ((exampleEnv.GetReferenceFilters exampleWorld.win.m_session).map Prod.fst).Nodup ∧
      exampleWorld.answer.1 = true ∧
      AddImportMenu exampleEnv exampleWorld =
        some { exampleWorld with
          input := []
          trace := [.BeginMenu "Import" true, .MenuItem_c_str (bytes "CSV") false,
            .MenuItem_c_str (bytes "I") false] } :=
  ⟨by decide, by decide,
    (C14_import_menu exampleEnv exampleWorld (by decide) (by decide)).2.2.2.1.trans
      (by rw [example_importFilterNames]; decide)⟩

end ScopehalApps
